import Mathlib

/-!
# Patient-records chaincode: ledger model

Shallow embedding of the three contracts exported by
`src/chaincode/patient-records/index.js`:

* `lib/patient-record.js`  (class `PatientRecord`)
* `lib/access-control.js`  (class `AccessControl`)
* `lib/audit-trail.js`     (class `AuditTrail`)

Modelling conventions.

* The world state is one typed finite map per composite-key object type
  (`patientRecord`, `accessControl`, `auditTrail`, `accessAudit`); a stored
  value is the JavaScript object that `JSON.parse` gives back for it.  A
  composite key is the string the shim builds, U+0000 before the object type
  and after the object type and each attribute.  Keys of different object
  types differ in their first segment, hence one map per type.  The shim does
  not reject U+0000 inside an attribute, so two attribute pairs can give one
  key: grants are keyed by the key string.  A `patientRecord` key has one
  attribute and is keyed by it; an audit key ends in the transaction id, which
  the platform generates without U+0000, and is keyed by its attribute pair
  (`recordKey_injective`, `auditKey_injective`).
* An ISO-8601 string produced by `Date.prototype.toISOString` is represented by
  the instant it denotes, in milliseconds since the epoch (`Int`).
* A chaincode function is a function from the world state to either an error
  or the new world state paired with the returned value.  A thrown error aborts
  the transaction, so no write of a failed call reaches the ledger.
* `JSON.parse` and the `Date` string parser are JavaScript built-ins and enter
  as fields of `Runtime`, together with the values read from the local wall
  clock by `new Date()`.
* `version` is a JavaScript number; it is modelled by `Nat` (exact below 2^53).
-/

set_option autoImplicit false

namespace Chaincode

/-! ## JSON values and object spread -/

/-- A JavaScript string: the list of its UTF-16 code units (each below
65536; a surrogate may stand alone). -/
abbrev JsString := List Nat

/-- UTF-16 code units of a code point: one unit below U+10000, a surrogate
pair from there on. -/
def utf16Units (c : Char) : List Nat :=
  if c.toNat < 0x10000 then [c.toNat]
  else [0xD800 + (c.toNat - 0x10000) / 0x400, 0xDC00 + (c.toNat - 0x10000) % 0x400]

/-- The JavaScript string with the code points of `s`. -/
def JsString.ofString (s : String) : JsString :=
  s.toList.flatMap utf16Units

/-- The property key of the index `i`: its decimal digits (`ToString(i)`). -/
def indexKey (i : Nat) : JsString :=
  (Nat.toDigits 10 i).map Char.toNat

/-- Values produced by `JSON.parse`. -/
inductive Json where
  | null : Json
  | bool (b : Bool) : Json
  | num (n : Int) : Json
  | str (units : JsString) : Json
  | arr (items : List Json) : Json
  | obj (props : List (JsString × Json)) : Json

/-- Own enumerable properties of a value, as copied by the spread `{ ...v }`:
the members of an object, the indexed elements of an array, the indexed code
units of a string (each a string of one unit), nothing for `null`, booleans
and numbers. -/
def Json.ownProps : Json → List (JsString × Json)
  | .obj props => props
  | .arr items => items.enum.map (fun e => (indexKey e.1, e.2))
  | .str units => units.enum.map (fun e => (indexKey e.1, Json.str [e.2]))
  | _ => []

/-- Property read `o[k]` on a property list; of several entries with the same
key the last one counts, as in `JSON.parse`. -/
def getProp : List (JsString × Json) → JsString → Option Json
  | [], _ => none
  | (k', v) :: t, k =>
    match getProp t k with
    | some w => some w
    | none => if k' = k then some v else none

/-- Every entry with key `k` takes the value `v`, in place. -/
def replaceProp : List (JsString × Json) → JsString → Json → List (JsString × Json)
  | [], _, _ => []
  | (k', v') :: t, k, v => (k', if k' = k then v else v') :: replaceProp t k v

/-- The array index a property key denotes, if any: the key is the canonical
decimal numeral (no leading zero) of an integer below 2^32 - 1. -/
def arrayIndex? (k : JsString) : Option Nat :=
  let value := k.foldl (fun acc u => acc * 10 + (u - 48)) 0
  if k ≠ [] ∧ k.all (fun u => decide (48 ≤ u ∧ u ≤ 57)) ∧ (k.head? ≠ some 48 ∨ k.length = 1) ∧
      value < 2 ^ 32 - 1 then some value
  else none

/-- Creation of the property `k` on an ordinary object that lacks it: the
object lists its array-index keys first, in ascending numeric order, and then
its other keys in order of creation. -/
def insertProp (ps : List (JsString × Json)) (k : JsString) (v : Json) :
    List (JsString × Json) :=
  match arrayIndex? k with
  | some n =>
    ps.takeWhile (fun e => match arrayIndex? e.1 with
      | some m => decide (m < n)
      | none => false)
    ++ (k, v) :: ps.dropWhile (fun e => match arrayIndex? e.1 with
      | some m => decide (m < n)
      | none => false)
  | none => ps ++ [(k, v)]

/-- Property definition `o[k] = v` on a property list (`CreateDataProperty`):
an existing key keeps its position and takes the new value, a new key is
created. -/
def setProp (ps : List (JsString × Json)) (k : JsString) (v : Json) : List (JsString × Json) :=
  if (getProp ps k).isSome then replaceProp ps k v else insertProp ps k v

/-- Define every property of `src`, in order, on `acc` (`CopyDataProperties`). -/
def assignAll (acc src : List (JsString × Json)) : List (JsString × Json) :=
  src.foldl (fun o e => setProp o e.1 e.2) acc

/-- The object literal `{ ...a, ...b }`. -/
def spread (a b : Json) : Json :=
  .obj (assignAll (assignAll [] a.ownProps) b.ownProps)

/-! ## Stored documents -/

/-- Field `status` of a patient record: the code writes only these two strings. -/
inductive Status where
  | ACTIVE
  | INACTIVE
  deriving DecidableEq, Repr

/-- The object stored under `patientRecord/<patientId>`. -/
structure PatientRecordDoc where
  patientId : String
  dataHash : String
  metadata : Json
  ownerMSPID : String
  createdAt : Int
  updatedAt : Int
  version : Nat
  status : Status
  txId : String
  submitter : String

/-- The object stored under `accessControl/<patientId>/<identity>`.
`expiryDate` is `none` for `null`; `updatedAt`/`updatedBy` are absent until an
update writes them. -/
structure AccessControlDoc where
  patientId : String
  identity : String
  permissions : List String
  expiryDate : Option String
  createdAt : Int
  createdBy : String
  updatedAt : Option Int
  updatedBy : Option String
  deriving DecidableEq

/-- The object stored under `auditTrail/<patientId>/<txId>`.  `PatientRecord`
writes `newHash`/`previousHash`; `AuditTrail.createAuditEntry` writes
`dataHash`/`previousHash`/`metadata`.  A field the writer does not set, or sets
to `null`, is `none`. -/
structure AuditEntry where
  patientId : String
  action : String
  newHash : Option String
  dataHash : Option String
  previousHash : Option String
  metadata : Option Json
  submitter : String
  timestamp : Int
  txId : String

/-- The object stored under `accessAudit/<patientId>/<txId>`. -/
structure AccessAuditEntry where
  patientId : String
  action : String
  targetIdentity : String
  details : Option String
  submitter : String
  timestamp : Int
  txId : String
  deriving DecidableEq

/-! ## World state and the stub -/

/-- The ledger's world state, one finite map per composite-key object type.
A patient record is held under its patient id, a grant under its key string,
an audit entry under its (patient id, transaction id) pair. -/
structure WorldState where
  patientRecord : List (String × PatientRecordDoc)
  accessControl : List (String × AccessControlDoc)
  auditTrail : List ((String × String) × AuditEntry)
  accessAudit : List ((String × String) × AccessAuditEntry)

/-- The ledger before any transaction. -/
def WorldState.empty : WorldState := ⟨[], [], [], []⟩

section Stub
variable {κ ν : Type} [DecidableEq κ]

/-- The call `ctx.stub.getState(key)`; `none` stands for the empty buffer. -/
def getState : List (κ × ν) → κ → Option ν
  | [], _ => none
  | (k', v) :: t, k => if k' = k then some v else getState t k

/-- The call `ctx.stub.deleteState(key)`. -/
def deleteState (m : List (κ × ν)) (k : κ) : List (κ × ν) :=
  m.filter (fun e => decide (e.1 ≠ k))

/-- The call `ctx.stub.putState(key, value)`. -/
def putState (m : List (κ × ν)) (k : κ) (v : ν) : List (κ × ν) :=
  (k, v) :: deleteState m k

end Stub

/-! ## Transaction context and runtime -/

/-- What `ctx` supplies to a transaction: `clientIdentity.getID()`,
`clientIdentity.getMSPID()`, `stub.getTxID()` and
`stub.getTxTimestamp().seconds.low`.  The platform supplies a non-empty
identity and transaction id, so every composite key built from them and from
arguments already checked to be non-empty is well formed. -/
structure Ctx where
  clientID : String
  mspID : String
  txID : String
  txSecondsLow : Int

/-- The expression `new Date(txTimestamp.seconds.low * 1000).toISOString()`. -/
def Ctx.timestamp (ctx : Ctx) : Int := ctx.txSecondsLow * 1000

/-- JavaScript built-ins and the local wall clock of the executing peer.
`dateParse s` is the time value of `new Date(s)`, `none` for an invalid date;
`upperNonAscii c` is the upper-case mapping of a character outside ASCII;
`nowAtCheck` is what `new Date()` reads inside `_checkAccess`, `nowAtWrite`
what it reads when a grant's `createdAt`/`updatedAt` is stamped. -/
structure Runtime where
  jsonParse : String → Option Json
  dateParse : String → Option Int
  upperNonAscii : Char → List Char
  nowAtCheck : Int
  nowAtWrite : Int

/-- Failures of a transaction, named after the error taxonomy; the source
throws `Error` with the message shown.
* `ValidationError`: "... are required" / "... is required"
* `NotFound`: "... does not exist", "No access control entry found ..."
* `AlreadyExists`: "... already exists"
* `PermissionDenied`: "... does not have ... permission ...", "... does not have access ..."
* `IntegrityConflict`: "Data integrity error: Previous hash does not match current record"
* `InvalidPermission`: "Invalid permission: ..."
* `MetadataFormatError`: "Invalid metadata format. Must be a valid JSON string"
* `RuntimeError`: an exception raised by the platform or a built-in. -/
inductive ChaincodeError where
  | ValidationError
  | NotFound
  | AlreadyExists
  | PermissionDenied
  | IntegrityConflict
  | InvalidPermission
  | MetadataFormatError
  | RuntimeError
  deriving DecidableEq, Repr

/-- Values returned by the chaincode functions.  The constant `status: 'success'`
and the `message` text, which only repeats the arguments, are left out. -/
inductive Response where
  | initialized
  | registered (txId : String) (timestamp : Int)
  | updated (txId : String) (timestamp : Int) (version : Nat)
  | verified (isValid : Bool) (timestamp : Int)
  | record (r : PatientRecordDoc)
  | deleted (txId : String) (timestamp : Int)
  | auditTrail (entries : List AuditEntry)
  | granted (permissions : List String) (expiryDate : String) (txId : Option String)
  | revoked (txId : Option String)
  | accessList (grants : List AccessControlDoc)
  | access (patientId identity permission : String) (hasAccess : Bool)
  | expiryUpdated (expiryDate : String)
  | permissionsUpdated (permissions : List String)
  | auditCreated (txId : String) (timestamp : Int)
  | auditEntry (e : AuditEntry)

/-- Outcome of one transaction. -/
abbrev Outcome := Except ChaincodeError (WorldState × Response)

/-- Truthiness of a string-or-null value: `null` and `''` are falsy. -/
def truthy : Option String → Bool
  | none => false
  | some v => v != ""

/-- The string U+0000 (`MIN_UNICODE_RUNE_VALUE` and `COMPOSITEKEY_NS` of the
shim). -/
def keySeparator : String := String.singleton (Char.ofNat 0)

/-- The key string built by `createCompositeKey`: the separator, the object
type and the separator, then every attribute followed by the separator. -/
def compositeKey (objectType : String) (attributes : List String) : String :=
  attributes.foldl (fun key attr => key ++ attr ++ keySeparator)
    (keySeparator ++ objectType ++ keySeparator)

/-- The call `ctx.stub.createCompositeKey(objectType, attributes)`: the shim
rejects an empty object type and an empty attribute, and nothing else. -/
def createCompositeKey (objectType : String) (attributes : List String) :
    Except ChaincodeError String :=
  if objectType = "" ∨ attributes.any (fun a => a == "") then .error .RuntimeError
  else .ok (compositeKey objectType attributes)

/-- The key `createCompositeKey('accessControl', [patientId, identity])`. -/
def accessControlKey (patientId identity : String) : String :=
  compositeKey "accessControl" [patientId, identity]

/-- The call `ctx.stub.getState(key)` on an audit map, whose entries are held
under their (patient id, transaction id) pairs, for a key string built from
arguments of the caller: the entry read is the one whose pair gives that key. -/
def getStateByKey {ν : Type} (objectType : String) (m : List ((String × String) × ν))
    (key : String) : Option ν :=
  (m.find? (fun e => decide (compositeKey objectType [e.1.1, e.1.2] = key))).map (fun e => e.2)

/-- Whether the string is free of the code point U+0000. -/
def nulFree (v : String) : Bool :=
  !v.toList.contains (Char.ofNat 0)

/-- Pieces of a character list between commas, as `String.prototype.split(',')`. -/
def splitComma : List Char → List (List Char)
  | [] => [[]]
  | c :: cs =>
    if c = ',' then [] :: splitComma cs
    else
      match splitComma cs with
      | [] => [[c]]
      | h :: t => (c :: h) :: t

/-- White space and line terminators removed by `String.prototype.trim`. -/
def isJsWhitespace (c : Char) : Bool :=
  let n := c.toNat
  n = 0x09 || n = 0x0A || n = 0x0B || n = 0x0C || n = 0x0D || n = 0x20 || n = 0xA0 ||
  n = 0x1680 || (0x2000 ≤ n && n ≤ 0x200A) || n = 0x2028 || n = 0x2029 || n = 0x202F ||
  n = 0x205F || n = 0x3000 || n = 0xFEFF

/-- The method `String.prototype.trim` on a character list. -/
def jsTrim (cs : List Char) : List Char :=
  ((cs.dropWhile isJsWhitespace).reverse.dropWhile isJsWhitespace).reverse

/-- The method `String.prototype.toUpperCase` on a character list. -/
def jsToUpperCase (rt : Runtime) (cs : List Char) : List Char :=
  cs.flatMap (fun c => if c.toNat < 128 then [c.toUpper] else rt.upperNonAscii c)

/-- The expression `permissionsStr.split(',').map(p => p.trim().toUpperCase())`. -/
def parsePermissions (rt : Runtime) (permissionsStr : String) : List String :=
  (splitComma permissionsStr.toList).map (fun p => String.mk (jsToUpperCase rt (jsTrim p)))

/-- The array `validPermissions` of `access-control.js`. -/
def validPermissions : List String := ["READ", "UPDATE", "DELETE", "GRANT"]

/-- Result of the rich query `{ docType: 'auditTrail', ...filter,
sort: [{ timestamp: 'desc' }] }` restricted to one patient. -/
def queryAuditTrail (s : WorldState) (patientId : String) (filter : AuditEntry → Bool) :
    List AuditEntry :=
  ((s.auditTrail.map (fun e => e.2)).filter
    (fun e => e.patientId == patientId && filter e)).insertionSort
      (fun a b => b.timestamp ≤ a.timestamp)

/-! ## Contract `PatientRecord` (`lib/patient-record.js`) -/

namespace PatientRecord

/-- Source: `_createAuditEntry(ctx, patientId, action, newHash, previousHash, submitter, timestamp)`. -/
def _createAuditEntry (ctx : Ctx) (s : WorldState) (patientId action : String)
    (newHash previousHash : Option String) (submitter : String) (timestamp : Int) : WorldState :=
  let auditEntry : AuditEntry :=
    { patientId := patientId, action := action, newHash := newHash, dataHash := none,
      previousHash := previousHash, metadata := none, submitter := submitter,
      timestamp := timestamp, txId := ctx.txID }
  { s with auditTrail := putState s.auditTrail (patientId, ctx.txID) auditEntry }

/-- Source: `_setAccessControl(ctx, patientId, identity, permissions, expiryDate)`;
`createdAt` is `new Date().toISOString()`. -/
def _setAccessControl (rt : Runtime) (ctx : Ctx) (s : WorldState) (patientId identity : String)
    (permissions : List String) (expiryDate : Option String) : WorldState :=
  let accessControl : AccessControlDoc :=
    { patientId := patientId, identity := identity, permissions := permissions,
      expiryDate := expiryDate, createdAt := rt.nowAtWrite, createdBy := ctx.clientID,
      updatedAt := none, updatedBy := none }
  { s with accessControl := putState s.accessControl (accessControlKey patientId identity) accessControl }

/-- Source: `_checkAccess(ctx, patientId, identity, permission)`.  The comparison
`now > expiry` is false when `expiry` is an invalid date. -/
def _checkAccess (rt : Runtime) (s : WorldState) (patientId identity permission : String) : Bool :=
  match getState s.accessControl (accessControlKey patientId identity) with
  | none => false
  | some accessControl =>
    if truthy accessControl.expiryDate then
      match rt.dateParse (accessControl.expiryDate.getD "") with
      | some expiry =>
        if rt.nowAtCheck > expiry then false
        else accessControl.permissions.contains permission
      | none => accessControl.permissions.contains permission
    else accessControl.permissions.contains permission

/-- Source: `registerPatientRecord(ctx, patientId, dataHash, metadata, ownerMSPID)`. -/
def registerPatientRecord (rt : Runtime) (ctx : Ctx) (s : WorldState)
    (patientId dataHash metadata ownerMSPID : String) : Outcome :=
  if patientId = "" ∨ dataHash = "" then .error .ValidationError
  else
    match getState s.patientRecord patientId with
    | some _ => .error .AlreadyExists
    | none =>
      match rt.jsonParse metadata with
      | none => .error .MetadataFormatError
      | some metadataObj =>
        let timestamp := ctx.timestamp
        let txId := ctx.txID
        let submitter := ctx.clientID
        let submitterMSPID := ctx.mspID
        let patientRecord : PatientRecordDoc :=
          { patientId := patientId, dataHash := dataHash, metadata := metadataObj,
            ownerMSPID := if ownerMSPID = "" then submitterMSPID else ownerMSPID,
            createdAt := timestamp, updatedAt := timestamp, version := 1,
            status := .ACTIVE, txId := txId, submitter := submitter }
        let s1 := { s with patientRecord := putState s.patientRecord patientId patientRecord }
        let s2 := _createAuditEntry ctx s1 patientId "REGISTER" (some dataHash) none submitter timestamp
        let s3 := _setAccessControl rt ctx s2 patientId submitter
          ["READ", "UPDATE", "DELETE", "GRANT"] none
        .ok (s3, .registered txId timestamp)

/-- Source: `updatePatientRecord(ctx, patientId, newDataHash, previousHash, metadata)`.
The audit entry is built after `record.dataHash = newDataHash`, so its
`previousHash` argument `record.dataHash` is already the new hash. -/
def updatePatientRecord (rt : Runtime) (ctx : Ctx) (s : WorldState)
    (patientId newDataHash previousHash metadata : String) : Outcome :=
  if patientId = "" ∨ newDataHash = "" then .error .ValidationError
  else
    match getState s.patientRecord patientId with
    | none => .error .NotFound
    | some record =>
      if previousHash ≠ "" ∧ record.dataHash ≠ previousHash then .error .IntegrityConflict
      else
        let submitter := ctx.clientID
        if !_checkAccess rt s patientId submitter "UPDATE" then .error .PermissionDenied
        else
          let timestamp := ctx.timestamp
          let txId := ctx.txID
          let merged : Option Json :=
            if metadata ≠ "" then
              match rt.jsonParse metadata with
              | some metadataObj => some (spread record.metadata metadataObj)
              | none => none
            else some record.metadata
          match merged with
          | none => .error .MetadataFormatError
          | some metadata1 =>
            let record1 : PatientRecordDoc :=
              { record with metadata := metadata1, dataHash := newDataHash,
                            updatedAt := timestamp, version := record.version + 1,
                            txId := txId, submitter := submitter }
            let s1 := { s with patientRecord := putState s.patientRecord patientId record1 }
            let s2 := _createAuditEntry ctx s1 patientId "UPDATE" (some newDataHash)
              (some record1.dataHash) submitter timestamp
            .ok (s2, .updated txId timestamp record1.version)

/-- Source: `verifyPatientRecord(ctx, patientId, dataHash)`. -/
def verifyPatientRecord (rt : Runtime) (ctx : Ctx) (s : WorldState)
    (patientId dataHash : String) : Outcome :=
  if patientId = "" ∨ dataHash = "" then .error .ValidationError
  else
    match getState s.patientRecord patientId with
    | none => .error .NotFound
    | some record =>
      let submitter := ctx.clientID
      if !_checkAccess rt s patientId submitter "READ" then .error .PermissionDenied
      else
        let isValid := decide (record.dataHash = dataHash)
        let timestamp := ctx.timestamp
        let s1 := _createAuditEntry ctx s patientId "VERIFY" (some dataHash) none submitter timestamp
        .ok (s1, .verified isValid timestamp)

/-- Source: `getPatientRecord(ctx, patientId)`. -/
def getPatientRecord (rt : Runtime) (ctx : Ctx) (s : WorldState) (patientId : String) : Outcome :=
  if patientId = "" then .error .ValidationError
  else
    match getState s.patientRecord patientId with
    | none => .error .NotFound
    | some record =>
      let submitter := ctx.clientID
      if !_checkAccess rt s patientId submitter "READ" then .error .PermissionDenied
      else
        let timestamp := ctx.timestamp
        let s1 := _createAuditEntry ctx s patientId "READ" none none submitter timestamp
        .ok (s1, .record record)

/-- Source: `deletePatientRecord(ctx, patientId)`. -/
def deletePatientRecord (rt : Runtime) (ctx : Ctx) (s : WorldState) (patientId : String) : Outcome :=
  if patientId = "" then .error .ValidationError
  else
    match getState s.patientRecord patientId with
    | none => .error .NotFound
    | some record =>
      let submitter := ctx.clientID
      if !_checkAccess rt s patientId submitter "DELETE" then .error .PermissionDenied
      else
        let timestamp := ctx.timestamp
        let txId := ctx.txID
        let record1 : PatientRecordDoc :=
          { record with status := .INACTIVE, updatedAt := timestamp,
                        version := record.version + 1, txId := txId, submitter := submitter }
        let s1 := { s with patientRecord := putState s.patientRecord patientId record1 }
        let s2 := _createAuditEntry ctx s1 patientId "DELETE" none none submitter timestamp
        .ok (s2, .deleted txId timestamp)

/-- Source: `getAuditTrail(ctx, patientId)`. -/
def getAuditTrail (rt : Runtime) (ctx : Ctx) (s : WorldState) (patientId : String) : Outcome :=
  if patientId = "" then .error .ValidationError
  else
    let submitter := ctx.clientID
    if !_checkAccess rt s patientId submitter "READ" then .error .PermissionDenied
    else .ok (s, .auditTrail (queryAuditTrail s patientId (fun _ => true)))

/-- Source: `grantAccess(ctx, patientId, granteeId, permissionsStr, expiryDate)`
of `patient-record.js`; the tokens are stored without a vocabulary check. -/
def grantAccess (rt : Runtime) (ctx : Ctx) (s : WorldState)
    (patientId granteeId permissionsStr expiryDate : String) : Outcome :=
  if patientId = "" ∨ granteeId = "" ∨ permissionsStr = "" then .error .ValidationError
  else
    let submitter := ctx.clientID
    if !_checkAccess rt s patientId submitter "GRANT" then .error .PermissionDenied
    else
      let permissions := parsePermissions rt permissionsStr
      let s1 := _setAccessControl rt ctx s patientId granteeId permissions (some expiryDate)
      let timestamp := ctx.timestamp
      let s2 := _createAuditEntry ctx s1 patientId "GRANT_ACCESS" none none submitter timestamp
      .ok (s2, .granted permissions expiryDate none)

/-- Source: `revokeAccess(ctx, patientId, granteeId)` of `patient-record.js`. -/
def revokeAccess (rt : Runtime) (ctx : Ctx) (s : WorldState)
    (patientId granteeId : String) : Outcome :=
  if patientId = "" ∨ granteeId = "" then .error .ValidationError
  else
    let submitter := ctx.clientID
    if !_checkAccess rt s patientId submitter "GRANT" then .error .PermissionDenied
    else
      match getState s.accessControl (accessControlKey patientId granteeId) with
      | none => .error .NotFound
      | some _ =>
        let s1 := { s with accessControl := deleteState s.accessControl (accessControlKey patientId granteeId) }
        let timestamp := ctx.timestamp
        let s2 := _createAuditEntry ctx s1 patientId "REVOKE_ACCESS" none none submitter timestamp
        .ok (s2, .revoked none)

/-- Source: `initLedger(ctx)` of `patient-record.js`: three composite keys are
built, each with the single attribute `''`, and nothing is written. -/
def initLedger (s : WorldState) : Outcome :=
  match createCompositeKey "patientRecordIndex" [""] with
  | .error e => .error e
  | .ok _ =>
    match createCompositeKey "accessControlIndex" [""] with
    | .error e => .error e
    | .ok _ =>
      match createCompositeKey "auditTrailIndex" [""] with
      | .error e => .error e
      | .ok _ => .ok (s, .initialized)

end PatientRecord

/-! ## Contract `AccessControl` (`lib/access-control.js`) -/

namespace AccessControl

/-- Source: `_setAccessControl` of `access-control.js`. -/
def _setAccessControl (rt : Runtime) (ctx : Ctx) (s : WorldState) (patientId identity : String)
    (permissions : List String) (expiryDate : Option String) : WorldState :=
  let accessControl : AccessControlDoc :=
    { patientId := patientId, identity := identity, permissions := permissions,
      expiryDate := expiryDate, createdAt := rt.nowAtWrite, createdBy := ctx.clientID,
      updatedAt := none, updatedBy := none }
  { s with accessControl := putState s.accessControl (accessControlKey patientId identity) accessControl }

/-- Source: `_checkAccess` of `access-control.js`. -/
def _checkAccess (rt : Runtime) (s : WorldState) (patientId identity permission : String) : Bool :=
  match getState s.accessControl (accessControlKey patientId identity) with
  | none => false
  | some accessControl =>
    if truthy accessControl.expiryDate then
      match rt.dateParse (accessControl.expiryDate.getD "") with
      | some expiry =>
        if rt.nowAtCheck > expiry then false
        else accessControl.permissions.contains permission
      | none => accessControl.permissions.contains permission
    else accessControl.permissions.contains permission

/-- Source: `_createAuditEntry(ctx, patientId, action, targetIdentity, details, submitter, timestamp)`
of `access-control.js`; the entry goes under the `accessAudit` object type. -/
def _createAuditEntry (ctx : Ctx) (s : WorldState) (patientId action targetIdentity : String)
    (details : Option String) (submitter : String) (timestamp : Int) : WorldState :=
  let auditEntry : AccessAuditEntry :=
    { patientId := patientId, action := action, targetIdentity := targetIdentity,
      details := details, submitter := submitter, timestamp := timestamp, txId := ctx.txID }
  { s with accessAudit := putState s.accessAudit (patientId, ctx.txID) auditEntry }

/-- Source: `initLedger(ctx)` of `access-control.js`. -/
def initLedger (s : WorldState) : Outcome :=
  match createCompositeKey "accessControlIndex" [""] with
  | .error e => .error e
  | .ok _ => .ok (s, .initialized)

/-- Source: `grantAccess(ctx, patientId, granteeId, permissionsStr, expiryDate)`. -/
def grantAccess (rt : Runtime) (ctx : Ctx) (s : WorldState)
    (patientId granteeId permissionsStr expiryDate : String) : Outcome :=
  if patientId = "" ∨ granteeId = "" ∨ permissionsStr = "" then .error .ValidationError
  else
    let submitter := ctx.clientID
    if !_checkAccess rt s patientId submitter "GRANT" then .error .PermissionDenied
    else
      let permissions := parsePermissions rt permissionsStr
      if !permissions.all (fun permission => validPermissions.contains permission) then
        .error .InvalidPermission
      else
        let s1 := _setAccessControl rt ctx s patientId granteeId permissions (some expiryDate)
        let timestamp := ctx.timestamp
        let txId := ctx.txID
        let s2 := _createAuditEntry ctx s1 patientId "GRANT_ACCESS" granteeId
          (some (String.intercalate "," permissions)) submitter timestamp
        .ok (s2, .granted permissions expiryDate (some txId))

/-- Source: `revokeAccess(ctx, patientId, granteeId)`. -/
def revokeAccess (rt : Runtime) (ctx : Ctx) (s : WorldState)
    (patientId granteeId : String) : Outcome :=
  if patientId = "" ∨ granteeId = "" then .error .ValidationError
  else
    let submitter := ctx.clientID
    if !_checkAccess rt s patientId submitter "GRANT" then .error .PermissionDenied
    else
      match getState s.accessControl (accessControlKey patientId granteeId) with
      | none => .error .NotFound
      | some _ =>
        let s1 := { s with accessControl := deleteState s.accessControl (accessControlKey patientId granteeId) }
        let timestamp := ctx.timestamp
        let txId := ctx.txID
        let s2 := _createAuditEntry ctx s1 patientId "REVOKE_ACCESS" granteeId none
          submitter timestamp
        .ok (s2, .revoked (some txId))

/-- Source: `getAccessControlList(ctx, patientId)`; the rich query selects the
documents `{ docType: 'accessControl', patientId }`. -/
def getAccessControlList (rt : Runtime) (ctx : Ctx) (s : WorldState) (patientId : String) :
    Outcome :=
  if patientId = "" then .error .ValidationError
  else
    let submitter := ctx.clientID
    if !_checkAccess rt s patientId submitter "READ" then .error .PermissionDenied
    else
      .ok (s, .accessList ((s.accessControl.map (fun e => e.2)).filter
        (fun g => g.patientId == patientId)))

/-- Source: `checkAccess(ctx, patientId, identity, permission)`. -/
def checkAccess (rt : Runtime) (s : WorldState) (patientId identity permission : String) :
    Outcome :=
  if patientId = "" ∨ identity = "" ∨ permission = "" then .error .ValidationError
  else
    let hasAccess := _checkAccess rt s patientId identity permission
    .ok (s, .access patientId identity permission hasAccess)

/-- Source: `updateAccessExpiry(ctx, patientId, granteeId, expiryDate)`;
`updatedAt` is `new Date().toISOString()`. -/
def updateAccessExpiry (rt : Runtime) (ctx : Ctx) (s : WorldState)
    (patientId granteeId expiryDate : String) : Outcome :=
  if patientId = "" ∨ granteeId = "" then .error .ValidationError
  else
    let submitter := ctx.clientID
    if !_checkAccess rt s patientId submitter "GRANT" then .error .PermissionDenied
    else
      match getState s.accessControl (accessControlKey patientId granteeId) with
      | none => .error .NotFound
      | some accessControl =>
        let accessControl1 : AccessControlDoc :=
          { accessControl with expiryDate := some expiryDate, updatedAt := some rt.nowAtWrite,
                               updatedBy := some submitter }
        let accessControl2 := putState s.accessControl (accessControlKey patientId granteeId) accessControl1
        let s1 := { s with accessControl := accessControl2 }
        let timestamp := ctx.timestamp
        let s2 := _createAuditEntry ctx s1 patientId "UPDATE_ACCESS_EXPIRY" granteeId
          (some expiryDate) submitter timestamp
        .ok (s2, .expiryUpdated expiryDate)

/-- Source: `updateAccessPermissions(ctx, patientId, granteeId, permissionsStr)`. -/
def updateAccessPermissions (rt : Runtime) (ctx : Ctx) (s : WorldState)
    (patientId granteeId permissionsStr : String) : Outcome :=
  if patientId = "" ∨ granteeId = "" ∨ permissionsStr = "" then .error .ValidationError
  else
    let submitter := ctx.clientID
    if !_checkAccess rt s patientId submitter "GRANT" then .error .PermissionDenied
    else
      let permissions := parsePermissions rt permissionsStr
      if !permissions.all (fun permission => validPermissions.contains permission) then
        .error .InvalidPermission
      else
        match getState s.accessControl (accessControlKey patientId granteeId) with
        | none => .error .NotFound
        | some accessControl =>
          let accessControl1 : AccessControlDoc :=
            { accessControl with permissions := permissions, updatedAt := some rt.nowAtWrite,
                                 updatedBy := some submitter }
          let accessControl2 := putState s.accessControl (accessControlKey patientId granteeId) accessControl1
          let s1 := { s with accessControl := accessControl2 }
          let timestamp := ctx.timestamp
          let s2 := _createAuditEntry ctx s1 patientId "UPDATE_ACCESS_PERMISSIONS" granteeId
            (some (String.intercalate "," permissions)) submitter timestamp
          .ok (s2, .permissionsUpdated permissions)

end AccessControl

/-! ## Contract `AuditTrail` (`lib/audit-trail.js`) -/

namespace AuditTrail

/-- Source: `initLedger(ctx)` of `audit-trail.js`. -/
def initLedger (s : WorldState) : Outcome :=
  match createCompositeKey "auditTrailIndex" [""] with
  | .error e => .error e
  | .ok _ => .ok (s, .initialized)

/-- Source: `createAuditEntry(ctx, patientId, action, dataHash, previousHash, metadata)`. -/
def createAuditEntry (rt : Runtime) (ctx : Ctx) (s : WorldState)
    (patientId action dataHash previousHash metadata : String) : Outcome :=
  if patientId = "" ∨ action = "" then .error .ValidationError
  else
    let submitter := ctx.clientID
    let txId := ctx.txID
    let timestamp := ctx.timestamp
    let parsed : Option Json :=
      if metadata ≠ "" then rt.jsonParse metadata else some (.obj [])
    match parsed with
    | none => .error .MetadataFormatError
    | some metadataObj =>
      let auditEntry : AuditEntry :=
        { patientId := patientId, action := action, newHash := none, dataHash := some dataHash,
          previousHash := some previousHash, metadata := some metadataObj,
          submitter := submitter, timestamp := timestamp, txId := txId }
      .ok ({ s with auditTrail := putState s.auditTrail (patientId, txId) auditEntry },
        .auditCreated txId timestamp)

/-- The access block repeated at the head of every accessor of `audit-trail.js`:
the submitter's grant must be stored and its permissions must include `READ`;
the expiry date is not consulted. -/
def readGate (ctx : Ctx) (s : WorldState) (patientId : String) : Except ChaincodeError Unit :=
  match getState s.accessControl (accessControlKey patientId ctx.clientID) with
  | none => .error .PermissionDenied
  | some accessControl =>
    if !accessControl.permissions.contains "READ" then .error .PermissionDenied
    else .ok ()

/-- Source: `getAuditTrail(ctx, patientId)` of `audit-trail.js`. -/
def getAuditTrail (ctx : Ctx) (s : WorldState) (patientId : String) : Outcome :=
  if patientId = "" then .error .ValidationError
  else
    match readGate ctx s patientId with
    | .error e => .error e
    | .ok _ => .ok (s, .auditTrail (queryAuditTrail s patientId (fun _ => true)))

/-- Source: `getAuditTrailByDateRange(ctx, patientId, startDate, endDate)`;
`new Date(x).toISOString()` throws on an invalid date. -/
def getAuditTrailByDateRange (rt : Runtime) (ctx : Ctx) (s : WorldState)
    (patientId startDate endDate : String) : Outcome :=
  if patientId = "" ∨ startDate = "" ∨ endDate = "" then .error .ValidationError
  else
    match readGate ctx s patientId with
    | .error e => .error e
    | .ok _ =>
      match rt.dateParse startDate, rt.dateParse endDate with
      | some startTimestamp, some endTimestamp =>
        .ok (s, .auditTrail (queryAuditTrail s patientId
          (fun e => decide (startTimestamp ≤ e.timestamp) && decide (e.timestamp ≤ endTimestamp))))
      | _, _ => .error .RuntimeError

/-- Source: `getAuditTrailByAction(ctx, patientId, action)`. -/
def getAuditTrailByAction (ctx : Ctx) (s : WorldState) (patientId action : String) : Outcome :=
  if patientId = "" ∨ action = "" then .error .ValidationError
  else
    match readGate ctx s patientId with
    | .error e => .error e
    | .ok _ => .ok (s, .auditTrail (queryAuditTrail s patientId (fun e => e.action == action)))

/-- Source: `getAuditTrailBySubmitter(ctx, patientId, submitterId)`. -/
def getAuditTrailBySubmitter (ctx : Ctx) (s : WorldState) (patientId submitterId : String) :
    Outcome :=
  if patientId = "" ∨ submitterId = "" then .error .ValidationError
  else
    match readGate ctx s patientId with
    | .error e => .error e
    | .ok _ =>
      .ok (s, .auditTrail (queryAuditTrail s patientId (fun e => e.submitter == submitterId)))

/-- Source: `getAuditEntryByTxId(ctx, patientId, txId)`. -/
def getAuditEntryByTxId (ctx : Ctx) (s : WorldState) (patientId txId : String) : Outcome :=
  if patientId = "" ∨ txId = "" then .error .ValidationError
  else
    match readGate ctx s patientId with
    | .error e => .error e
    | .ok _ =>
      let auditKey := compositeKey "auditTrail" [patientId, txId]
      match getStateByKey "auditTrail" s.auditTrail auditKey with
      | none => .error .NotFound
      | some auditEntry => .ok (s, .auditEntry auditEntry)

end AuditTrail

/-! ## Transactions -/

/-- One invocation of a transaction function of the chaincode, with its
string arguments.  Functions whose name starts with `_` are not callable. -/
inductive Op where
  | prInitLedger
  | registerPatientRecord (patientId dataHash metadata ownerMSPID : String)
  | updatePatientRecord (patientId newDataHash previousHash metadata : String)
  | verifyPatientRecord (patientId dataHash : String)
  | getPatientRecord (patientId : String)
  | deletePatientRecord (patientId : String)
  | prGetAuditTrail (patientId : String)
  | prGrantAccess (patientId granteeId permissionsStr expiryDate : String)
  | prRevokeAccess (patientId granteeId : String)
  | acInitLedger
  | grantAccess (patientId granteeId permissionsStr expiryDate : String)
  | revokeAccess (patientId granteeId : String)
  | getAccessControlList (patientId : String)
  | checkAccess (patientId identity permission : String)
  | updateAccessExpiry (patientId granteeId expiryDate : String)
  | updateAccessPermissions (patientId granteeId permissionsStr : String)
  | atInitLedger
  | createAuditEntry (patientId action dataHash previousHash metadata : String)
  | getAuditTrail (patientId : String)
  | getAuditTrailByDateRange (patientId startDate endDate : String)
  | getAuditTrailByAction (patientId action : String)
  | getAuditTrailBySubmitter (patientId submitterId : String)
  | getAuditEntryByTxId (patientId txId : String)

/-- Dispatch of an invocation to the transaction function it names. -/
def invoke (rt : Runtime) (ctx : Ctx) (s : WorldState) : Op → Outcome
  | .prInitLedger => PatientRecord.initLedger s
  | .registerPatientRecord p h m o => PatientRecord.registerPatientRecord rt ctx s p h m o
  | .updatePatientRecord p h ph m => PatientRecord.updatePatientRecord rt ctx s p h ph m
  | .verifyPatientRecord p h => PatientRecord.verifyPatientRecord rt ctx s p h
  | .getPatientRecord p => PatientRecord.getPatientRecord rt ctx s p
  | .deletePatientRecord p => PatientRecord.deletePatientRecord rt ctx s p
  | .prGetAuditTrail p => PatientRecord.getAuditTrail rt ctx s p
  | .prGrantAccess p g ps e => PatientRecord.grantAccess rt ctx s p g ps e
  | .prRevokeAccess p g => PatientRecord.revokeAccess rt ctx s p g
  | .acInitLedger => AccessControl.initLedger s
  | .grantAccess p g ps e => AccessControl.grantAccess rt ctx s p g ps e
  | .revokeAccess p g => AccessControl.revokeAccess rt ctx s p g
  | .getAccessControlList p => AccessControl.getAccessControlList rt ctx s p
  | .checkAccess p i perm => AccessControl.checkAccess rt s p i perm
  | .updateAccessExpiry p g e => AccessControl.updateAccessExpiry rt ctx s p g e
  | .updateAccessPermissions p g ps => AccessControl.updateAccessPermissions rt ctx s p g ps
  | .atInitLedger => AuditTrail.initLedger s
  | .createAuditEntry p a h ph m => AuditTrail.createAuditEntry rt ctx s p a h ph m
  | .getAuditTrail p => AuditTrail.getAuditTrail ctx s p
  | .getAuditTrailByDateRange p a b => AuditTrail.getAuditTrailByDateRange rt ctx s p a b
  | .getAuditTrailByAction p a => AuditTrail.getAuditTrailByAction ctx s p a
  | .getAuditTrailBySubmitter p i => AuditTrail.getAuditTrailBySubmitter ctx s p i
  | .getAuditEntryByTxId p t => AuditTrail.getAuditEntryByTxId ctx s p t

/-- One submitted transaction: the executing peer's runtime, the transaction
context and the invocation. -/
structure Tx where
  rt : Runtime
  ctx : Ctx
  op : Op

/-- World state after a transaction: the writes of a successful call are
committed, a failed call leaves the state as it was. -/
def commit (s : WorldState) (tx : Tx) : WorldState :=
  match invoke tx.rt tx.ctx s tx.op with
  | .ok (s1, _) => s1
  | .error _ => s

/-- World state after a sequence of transactions, first to last. -/
def run (s : WorldState) (txs : List Tx) : WorldState :=
  txs.foldl commit s

/-- World state carried by a successful outcome. -/
def Outcome.state? : Outcome → Option WorldState
  | .ok (s, _) => some s
  | .error _ => none

/-- Error carried by a failed outcome. -/
def Outcome.error? : Outcome → Option ChaincodeError
  | .ok _ => none
  | .error e => some e

/-- Version of the record stored for `patientId`, if one is stored. -/
def versionOf (s : WorldState) (patientId : String) : Option Nat :=
  (getState s.patientRecord patientId).map (fun r => r.version)

/-- Whether the transaction's call returns rather than throws. -/
def succeeds (s : WorldState) (tx : Tx) : Bool :=
  (Outcome.state? (invoke tx.rt tx.ctx s tx.op)).isSome

/-- Whether the invocation is `updatePatientRecord` or `deletePatientRecord`
on `patientId`. -/
def isRecordMutation (patientId : String) : Op → Bool
  | .updatePatientRecord p _ _ _ => p == patientId
  | .deletePatientRecord p => p == patientId
  | _ => false

/-- Number of successful `updatePatientRecord`/`deletePatientRecord` calls on
`patientId` in a sequence of transactions run from `s`. -/
def countRecordMutations (patientId : String) : WorldState → List Tx → Nat
  | _, [] => 0
  | s, tx :: rest =>
    (if isRecordMutation patientId tx.op && succeeds s tx then 1 else 0) +
      countRecordMutations patientId (commit s tx) rest

/-! ## Fixtures for concrete evaluation -/

/-- A runtime with the given wall-clock readings.  Its built-ins agree with
JavaScript on the inputs used below: `JSON.parse('{}')` is the empty object,
`new Date('2025-12-31T23:59:59Z')` is 1767225599000 ms, ASCII text has no
upper-case mapping outside ASCII; any other input is rejected. -/
def fixtureRuntime (nowAtCheck nowAtWrite : Int) : Runtime :=
  { jsonParse := fun t => if t = "{}" then some (.obj []) else none,
    dateParse := fun t => if t = "2025-12-31T23:59:59Z" then some 1767225599000 else none,
    upperNonAscii := fun c => [c],
    nowAtCheck := nowAtCheck,
    nowAtWrite := nowAtWrite }

/-- Transaction context of identity `alice` of `OrgA`. -/
def aliceCtx (txID : String) (seconds : Int) : Ctx :=
  { clientID := "alice", mspID := "OrgA", txID := txID, txSecondsLow := seconds }

/-- Transaction context of identity `bob` of `OrgB`. -/
def bobCtx (txID : String) (seconds : Int) : Ctx :=
  { clientID := "bob", mspID := "OrgB", txID := txID, txSecondsLow := seconds }

/-- A grant of `permissions` on `p1` to `identity`, created by `alice`. -/
def fixtureGrant (identity : String) (permissions : List String) (expiryDate : Option String) :
    AccessControlDoc :=
  { patientId := "p1", identity := identity, permissions := permissions,
    expiryDate := expiryDate, createdAt := 1700000000000, createdBy := "alice",
    updatedAt := none, updatedBy := none }

/-- Record `p1` with hash `h1` at version 1, as registered by `alice`. -/
def fixtureRecord : PatientRecordDoc :=
  { patientId := "p1", dataHash := "h1", metadata := .obj [], ownerMSPID := "OrgA",
    createdAt := 1700000000000, updatedAt := 1700000000000, version := 1,
    status := .ACTIVE, txId := "tx1", submitter := "alice" }

/-- A ledger holding record `p1`, the full grant of `alice` without expiry and
a `READ` grant of `bob` that expires at 2025-12-31T23:59:59Z. -/
def fixtureLedger : WorldState :=
  { patientRecord := [("p1", fixtureRecord)],
    accessControl :=
      [(accessControlKey "p1" "bob", fixtureGrant "bob" ["READ"] (some "2025-12-31T23:59:59Z")),
       (accessControlKey "p1" "alice", fixtureGrant "alice" ["READ", "UPDATE", "DELETE", "GRANT"] none)],
    auditTrail := [],
    accessAudit := [] }

/-- The ledger after `alice` registers `p1` with hash `h1` on the empty ledger. -/
def registeredLedger : WorldState :=
  commit WorldState.empty ⟨fixtureRuntime 0 0, aliceCtx "tx1" 1700000000,
    .registerPatientRecord "p1" "h1" "{}" "OrgA"⟩

/-- A sequence of transactions on `p1`: an update by `alice`, a verification,
a rejected update by `bob`, and a deletion by `alice`. -/
def fixtureTxs : List Tx :=
  [⟨fixtureRuntime 0 0, aliceCtx "tx2" 1700000100, .updatePatientRecord "p1" "h2" "h1" "{}"⟩,
   ⟨fixtureRuntime 0 0, aliceCtx "tx3" 1700000200, .verifyPatientRecord "p1" "h2"⟩,
   ⟨fixtureRuntime 0 0, bobCtx "tx4" 1700000300, .updatePatientRecord "p1" "h3" "" "{}"⟩,
   ⟨fixtureRuntime 0 0, aliceCtx "tx5" 1700000400, .deletePatientRecord "p1"⟩]

/-- The `isValid` flag of a successful `verifyPatientRecord`. -/
def Outcome.isValid? : Outcome → Option Bool
  | .ok (_, .verified isValid _) => some isValid
  | _ => none

/-- Status of the record stored for `patientId`, if one is stored. -/
def statusOf (s : WorldState) (patientId : String) : Option Status :=
  (getState s.patientRecord patientId).map (fun r => r.status)

/-- Whether the invocation is `registerPatientRecord`. -/
def isRegister : Op → Bool
  | .registerPatientRecord _ _ _ _ => true
  | _ => false

/-- The resource named by an invocation of one of the six functions that
write or delete a grant after a `GRANT` check: `grantAccess` and
`revokeAccess` of both contracts, `updateAccessExpiry` and
`updateAccessPermissions`. -/
def grantTarget : Op → Option String
  | .prGrantAccess p _ _ _ => some p
  | .prRevokeAccess p _ => some p
  | .grantAccess p _ _ _ => some p
  | .revokeAccess p _ => some p
  | .updateAccessExpiry p _ _ => some p
  | .updateAccessPermissions p _ _ => some p
  | _ => none

/-- Two transactions from the empty ledger: `alice` registers `p1`, then calls
`grantAccess` of `patient-record.js` for `bob` with the token `ADMIN`. -/
def unvalidatedGrantTxs : List Tx :=
  [⟨fixtureRuntime 0 0, aliceCtx "tx1" 1700000000, .registerPatientRecord "p1" "h1" "{}" "OrgA"⟩,
   ⟨fixtureRuntime 0 0, aliceCtx "tx2" 1700000100, .prGrantAccess "p1" "bob" "ADMIN" ""⟩]

/-- The ledger after `alice` registers `p1` and the transactions of
`fixtureTxs` run: `p1` is soft-deleted. -/
def deletedLedger : WorldState := run registeredLedger fixtureTxs

/-- The `hasAccess` flag returned by a successful `checkAccess`. -/
def Outcome.hasAccess? : Outcome → Option Bool
  | .ok (_, .access _ _ _ hasAccess) => some hasAccess
  | _ => none

/-- The ledger after `alice` registers `p1` and then calls `grantAccess` of
`access-control.js` for `bob` with the permission string `read,update`. -/
def lowerCaseGrantLedger : WorldState :=
  commit registeredLedger ⟨fixtureRuntime 0 0, aliceCtx "tx2" 1700000100,
    .grantAccess "p1" "bob" "read,update" ""⟩

/-- Transaction context of identity `carol` of `OrgC`, who holds no grant in
the fixtures. -/
def carolCtx (txID : String) (seconds : Int) : Ctx :=
  { clientID := "carol", mspID := "OrgC", txID := txID, txSecondsLow := seconds }

/-- The audit entry stored under (patientId, txId), if any, after a successful
outcome. -/
def Outcome.auditEntry? (o : Outcome) (patientId txId : String) : Option AuditEntry :=
  (Outcome.state? o).bind (fun s => getState s.auditTrail (patientId, txId))

/-- Transaction context of identity `dave` of `OrgD`. -/
def daveCtx (txID : String) (seconds : Int) : Ctx :=
  { clientID := "dave", mspID := "OrgD", txID := txID, txSecondsLow := seconds }

/-- A ledger holding record `p1`, the full grant of `alice`, and a grant of
`dave` that contains only `GRANT` and expires at 2025-12-31T23:59:59Z. -/
def grantOnlyLedger : WorldState :=
  { patientRecord := [("p1", fixtureRecord)],
    accessControl :=
      [(accessControlKey "p1" "dave", fixtureGrant "dave" ["GRANT"] (some "2025-12-31T23:59:59Z")),
       (accessControlKey "p1" "alice", fixtureGrant "alice" ["READ", "UPDATE", "DELETE", "GRANT"] none)],
    auditTrail := [],
    accessAudit := [] }

/-- The ledger `s` with the record `r` stored under `patientId` carrying the
status `status` instead of its own. -/
def withStatus (s : WorldState) (patientId : String) (r : PatientRecordDoc) (status : Status) :
    WorldState :=
  { s with patientRecord := putState s.patientRecord patientId { r with status := status } }

/-- The list returned by `getAuditTrail(patientId)` of either contract when
the call succeeds. -/
def auditTrailOf (s : WorldState) (patientId : String) : List AuditEntry :=
  queryAuditTrail s patientId (fun _ => true)

/-- Every stored audit entry carries the patient id and transaction id of the
key it is stored under. -/
def auditKeyed (s : WorldState) : Prop :=
  (∀ ke ∈ s.auditTrail, ke.2.patientId = ke.1.1 ∧ ke.2.txId = ke.1.2) ∧
  (∀ ke ∈ s.accessAudit, ke.2.patientId = ke.1.1 ∧ ke.2.txId = ke.1.2)

/-- No stored audit entry is keyed by the transaction id `txID`. -/
def txUnused (s : WorldState) (txID : String) : Prop :=
  (∀ ke ∈ s.auditTrail, ke.1.2 ≠ txID) ∧ (∀ ke ∈ s.accessAudit, ke.1.2 ≠ txID)

/-- Resource and action tag of the entry that a successful mutating function of
`patient-record.js` puts under the `auditTrail` object type. -/
def recordAuditTag : Op → Option (String × String)
  | .registerPatientRecord p _ _ _ => some (p, "REGISTER")
  | .updatePatientRecord p _ _ _ => some (p, "UPDATE")
  | .deletePatientRecord p => some (p, "DELETE")
  | .prGrantAccess p _ _ _ => some (p, "GRANT_ACCESS")
  | .prRevokeAccess p _ => some (p, "REVOKE_ACCESS")
  | _ => none

/-- Resource and action tag of the entry that a successful mutating function of
`access-control.js` puts under the `accessAudit` object type. -/
def accessAuditTag : Op → Option (String × String)
  | .grantAccess p _ _ _ => some (p, "GRANT_ACCESS")
  | .revokeAccess p _ => some (p, "REVOKE_ACCESS")
  | .updateAccessExpiry p _ _ => some (p, "UPDATE_ACCESS_EXPIRY")
  | .updateAccessPermissions p _ _ => some (p, "UPDATE_ACCESS_PERMISSIONS")
  | _ => none

/-- The `patientId` argument of an invocation, if it has one. -/
def Op.patientId? : Op → Option String
  | .prInitLedger => none
  | .registerPatientRecord p _ _ _ => some p
  | .updatePatientRecord p _ _ _ => some p
  | .verifyPatientRecord p _ => some p
  | .getPatientRecord p => some p
  | .deletePatientRecord p => some p
  | .prGetAuditTrail p => some p
  | .prGrantAccess p _ _ _ => some p
  | .prRevokeAccess p _ => some p
  | .acInitLedger => none
  | .grantAccess p _ _ _ => some p
  | .revokeAccess p _ => some p
  | .getAccessControlList p => some p
  | .checkAccess p _ _ => some p
  | .updateAccessExpiry p _ _ => some p
  | .updateAccessPermissions p _ _ => some p
  | .atInitLedger => none
  | .createAuditEntry p _ _ _ _ => some p
  | .getAuditTrail p => some p
  | .getAuditTrailByDateRange p _ _ => some p
  | .getAuditTrailByAction p _ => some p
  | .getAuditTrailBySubmitter p _ => some p
  | .getAuditEntryByTxId p _ => some p

/-- Whether the `patientId` argument of the invocation, if any, is free of
U+0000. -/
def opNulFree (op : Op) : Bool :=
  match op.patientId? with
  | some p => nulFree p
  | none => true

/-- Every stored grant sits under the key of its own `patientId` and
`identity`, its `patientId` is free of U+0000, and a patient record is stored
for it. -/
def grantsRegistered (s : WorldState) : Prop :=
  ∀ ke ∈ s.accessControl,
    ke.1 = accessControlKey ke.2.patientId ke.2.identity ∧
    nulFree ke.2.patientId = true ∧
    (getState s.patientRecord ke.2.patientId).isSome = true

/-- No grant read under a key of `patientId` contains the permission `GRANT`. -/
def noGrantHolder (s : WorldState) (patientId : String) : Prop :=
  ∀ (identity : String) (g : AccessControlDoc),
    getState s.accessControl (accessControlKey patientId identity) = some g →
      "GRANT" ∉ g.permissions

/-- Transactions from the empty ledger in which `alice` registers `p1` and
grants `READ` and `GRANT` to the identity `bob<U+0000>x`; the key of that grant
is also the key of (`p1<U+0000>bob`, `x`). -/
def collidingGrantTxs : List Tx :=
  [⟨fixtureRuntime 0 0, aliceCtx "tx1" 1700000000,
      .registerPatientRecord "p1" "h1" "{}" "OrgA"⟩,
   ⟨fixtureRuntime 0 0, aliceCtx "tx2" 1700000100,
      .grantAccess "p1" "bob\x00x" "READ,GRANT" ""⟩]

/-- Transaction context of the identity `x` of `OrgX`. -/
def xCtx (txID : String) (seconds : Int) : Ctx :=
  { clientID := "x", mspID := "OrgX", txID := txID, txSecondsLow := seconds }

/-- Transaction context of the identity `q<U+0000>z` of `OrgZ`. -/
def qzCtx (txID : String) (seconds : Int) : Ctx :=
  { clientID := "q\x00z", mspID := "OrgZ", txID := txID, txSecondsLow := seconds }

/-- Transactions in which `bob` registers `p1<U+0000>q` and grants `GRANT` on
it to `z`; the key of that grant is also the key of (`p1`, `q<U+0000>z`). -/
def collidingLockoutTxs : List Tx :=
  [⟨fixtureRuntime 0 0, bobCtx "tx3" 1700000200,
      .registerPatientRecord "p1\x00q" "h9" "{}" "OrgB"⟩,
   ⟨fixtureRuntime 0 0, bobCtx "tx4" 1700000300,
      .grantAccess "p1\x00q" "z" "GRANT" ""⟩]

/-- The ledger after `alice` registers `p1` and then reduces her own grant to
`READ` with `updateAccessPermissions`. -/
def lockedOutLedger : WorldState :=
  run WorldState.empty
    [⟨fixtureRuntime 0 0, aliceCtx "tx1" 1700000000,
        .registerPatientRecord "p1" "h1" "{}" "OrgA"⟩,
     ⟨fixtureRuntime 0 0, aliceCtx "tx2" 1700000100,
        .updateAccessPermissions "p1" "alice" "READ"⟩]

/-- The ledger after `alice` registers `p1` and then revokes her own grant. -/
def selfRevokedLedger : WorldState :=
  run WorldState.empty
    [⟨fixtureRuntime 0 0, aliceCtx "tx1" 1700000000,
        .registerPatientRecord "p1" "h1" "{}" "OrgA"⟩,
     ⟨fixtureRuntime 0 0, aliceCtx "tx2" 1700000100, .revokeAccess "p1" "alice"⟩]

/-- Transactions tried on a ledger where nobody holds `GRANT` on `p1`: a
re-registration and the four grant functions of `access-control.js`, by
`alice`, and a registration of another record by `bob`. -/
def lockoutTxs : List Tx :=
  [⟨fixtureRuntime 0 0, aliceCtx "tx3" 1700000200,
      .registerPatientRecord "p1" "h1" "{}" "OrgA"⟩,
   ⟨fixtureRuntime 0 0, aliceCtx "tx4" 1700000300,
      .grantAccess "p1" "alice" "READ,UPDATE,DELETE,GRANT" ""⟩,
   ⟨fixtureRuntime 0 0, aliceCtx "tx5" 1700000400,
      .updateAccessPermissions "p1" "alice" "GRANT"⟩,
   ⟨fixtureRuntime 0 0, bobCtx "tx6" 1700000500,
      .registerPatientRecord "p2" "h9" "{}" "OrgB"⟩,
   ⟨fixtureRuntime 0 0, bobCtx "tx7" 1700000600, .prGrantAccess "p1" "bob" "GRANT" ""⟩]

/-! ## Write log of a transaction

A second embedding of the same functions that keeps the order of the stub
calls: every `putState`/`deleteState` is appended to a log, and a `throw`
ends the run with the log as it stands at that statement. -/

/-- One call of `ctx.stub.putState` or `ctx.stub.deleteState`, with the object
type and attributes of its composite key. -/
inductive Write where
  | putPatientRecord (patientId : String) (value : PatientRecordDoc)
  | putAccessControl (patientId identity : String) (value : AccessControlDoc)
  | deleteAccessControl (patientId identity : String)
  | putAuditTrail (patientId txId : String) (value : AuditEntry)
  | putAccessAudit (patientId txId : String) (value : AccessAuditEntry)

/-- Effect of one logged stub call on the world state. -/
def Write.apply (s : WorldState) : Write → WorldState
  | .putPatientRecord p v => { s with patientRecord := putState s.patientRecord p v }
  | .putAccessControl p i v => { s with accessControl := putState s.accessControl (accessControlKey p i) v }
  | .deleteAccessControl p i => { s with accessControl := deleteState s.accessControl (accessControlKey p i) }
  | .putAuditTrail p t v => { s with auditTrail := putState s.auditTrail (p, t) v }
  | .putAccessAudit p t v => { s with accessAudit := putState s.accessAudit (p, t) v }

/-- World state after the logged stub calls, first to last. -/
def applyWrites (s : WorldState) (ws : List Write) : WorldState :=
  ws.foldl Write.apply s

/-- A run of chaincode statements: from the stub calls logged so far to the
stub calls logged when the run ends, with the value returned or the error
thrown. -/
structure Script (α : Type) where
  run : List Write → List Write × Except ChaincodeError α

/-- A statement that returns `a` and calls nothing. -/
def Script.pure {α : Type} (a : α) : Script α :=
  ⟨fun ws => (ws, .ok a)⟩

/-- Sequencing of statements: what follows a `throw` is not executed, and the
log is kept as it stands. -/
def Script.bind {α β : Type} (x : Script α) (f : α → Script β) : Script β :=
  ⟨fun ws =>
    match x.run ws with
    | (ws1, .ok a) => (f a).run ws1
    | (ws1, .error e) => (ws1, .error e)⟩

/-- The statement `throw new Error(...)`. -/
def Script.throw {α : Type} (e : ChaincodeError) : Script α :=
  ⟨fun ws => (ws, .error e)⟩

/-- A call of `ctx.stub.putState` or `ctx.stub.deleteState`. -/
def Script.write (w : Write) : Script Unit :=
  ⟨fun ws => (ws ++ [w], .ok ())⟩

instance : Monad Script where
  pure := Script.pure
  bind := Script.bind

/-- Outcome of a transaction whose run from the empty log ended as given: the
logged calls are applied on success, and dropped on failure. -/
def outcomeOf (s : WorldState) : List Write × Except ChaincodeError Response → Outcome
  | (ws, .ok r) => .ok (applyWrites s ws, r)
  | (_, .error e) => .error e

namespace Traced

/-- Source: `_createAuditEntry` of `patient-record.js` (lines 256-272). -/
def PatientRecord._createAuditEntry (ctx : Ctx) (patientId action : String)
    (newHash previousHash : Option String) (submitter : String) (timestamp : Int) :
    Script Unit :=
  let txId := ctx.txID
  let auditEntry : AuditEntry :=
    { patientId := patientId, action := action, newHash := newHash, dataHash := none,
      previousHash := previousHash, metadata := none, submitter := submitter,
      timestamp := timestamp, txId := txId }
  Script.write (.putAuditTrail patientId txId auditEntry)

/-- Source: `_setAccessControl` of `patient-record.js` (lines 274-288). -/
def PatientRecord._setAccessControl (rt : Runtime) (ctx : Ctx) (patientId identity : String)
    (permissions : List String) (expiryDate : Option String) : Script Unit :=
  let accessControl : AccessControlDoc :=
    { patientId := patientId, identity := identity, permissions := permissions,
      expiryDate := expiryDate, createdAt := rt.nowAtWrite, createdBy := ctx.clientID,
      updatedAt := none, updatedBy := none }
  Script.write (.putAccessControl patientId identity accessControl)

/-- Source: `registerPatientRecord` (lines 11-59), statement by statement. -/
def PatientRecord.registerPatientRecord (rt : Runtime) (ctx : Ctx) (s : WorldState)
    (patientId dataHash metadata ownerMSPID : String) : Script Response := do
  if patientId = "" ∨ dataHash = "" then
    Script.throw .ValidationError
  let existingRecord := getState s.patientRecord patientId
  if existingRecord.isSome then
    Script.throw .AlreadyExists
  let some metadataObj := rt.jsonParse metadata
    | Script.throw .MetadataFormatError
  let timestamp := ctx.timestamp
  let txId := ctx.txID
  let submitter := ctx.clientID
  let submitterMSPID := ctx.mspID
  let patientRecord : PatientRecordDoc :=
    { patientId := patientId, dataHash := dataHash, metadata := metadataObj,
      ownerMSPID := if ownerMSPID = "" then submitterMSPID else ownerMSPID,
      createdAt := timestamp, updatedAt := timestamp, version := 1,
      status := .ACTIVE, txId := txId, submitter := submitter }
  Script.write (.putPatientRecord patientId patientRecord)
  PatientRecord._createAuditEntry ctx patientId "REGISTER" (some dataHash) none submitter timestamp
  PatientRecord._setAccessControl rt ctx patientId submitter
    ["READ", "UPDATE", "DELETE", "GRANT"] none
  return .registered txId timestamp

/-- Source: `updatePatientRecord` (lines 61-115), statement by statement. -/
def PatientRecord.updatePatientRecord (rt : Runtime) (ctx : Ctx) (s : WorldState)
    (patientId newDataHash previousHash metadata : String) : Script Response := do
  if patientId = "" ∨ newDataHash = "" then
    Script.throw .ValidationError
  let some record := getState s.patientRecord patientId
    | Script.throw .NotFound
  if previousHash ≠ "" ∧ record.dataHash ≠ previousHash then
    Script.throw .IntegrityConflict
  let submitter := ctx.clientID
  let hasAccess := Chaincode.PatientRecord._checkAccess rt s patientId submitter "UPDATE"
  if !hasAccess then
    Script.throw .PermissionDenied
  let timestamp := ctx.timestamp
  let txId := ctx.txID
  let metadata1 ←
    if metadata ≠ "" then
      match rt.jsonParse metadata with
      | some metadataObj => pure (spread record.metadata metadataObj)
      | none => Script.throw .MetadataFormatError
    else pure record.metadata
  let record1 : PatientRecordDoc :=
    { record with metadata := metadata1, dataHash := newDataHash,
                  updatedAt := timestamp, version := record.version + 1,
                  txId := txId, submitter := submitter }
  Script.write (.putPatientRecord patientId record1)
  PatientRecord._createAuditEntry ctx patientId "UPDATE" (some newDataHash)
    (some record1.dataHash) submitter timestamp
  return .updated txId timestamp record1.version

/-- Source: `verifyPatientRecord` (lines 117-149), statement by statement. -/
def PatientRecord.verifyPatientRecord (rt : Runtime) (ctx : Ctx) (s : WorldState)
    (patientId dataHash : String) : Script Response := do
  if patientId = "" ∨ dataHash = "" then
    Script.throw .ValidationError
  let some record := getState s.patientRecord patientId
    | Script.throw .NotFound
  let submitter := ctx.clientID
  let hasAccess := Chaincode.PatientRecord._checkAccess rt s patientId submitter "READ"
  if !hasAccess then
    Script.throw .PermissionDenied
  let isValid := decide (record.dataHash = dataHash)
  let timestamp := ctx.timestamp
  PatientRecord._createAuditEntry ctx patientId "VERIFY" (some dataHash) none submitter timestamp
  return .verified isValid timestamp

/-- Source: `getPatientRecord` (lines 151-177), statement by statement. -/
def PatientRecord.getPatientRecord (rt : Runtime) (ctx : Ctx) (s : WorldState)
    (patientId : String) : Script Response := do
  if patientId = "" then
    Script.throw .ValidationError
  let some record := getState s.patientRecord patientId
    | Script.throw .NotFound
  let submitter := ctx.clientID
  let hasAccess := Chaincode.PatientRecord._checkAccess rt s patientId submitter "READ"
  if !hasAccess then
    Script.throw .PermissionDenied
  let timestamp := ctx.timestamp
  PatientRecord._createAuditEntry ctx patientId "READ" none none submitter timestamp
  return .record record

/-- Source: `deletePatientRecord` (lines 179-218), statement by statement. -/
def PatientRecord.deletePatientRecord (rt : Runtime) (ctx : Ctx) (s : WorldState)
    (patientId : String) : Script Response := do
  if patientId = "" then
    Script.throw .ValidationError
  let some record := getState s.patientRecord patientId
    | Script.throw .NotFound
  let submitter := ctx.clientID
  let hasAccess := Chaincode.PatientRecord._checkAccess rt s patientId submitter "DELETE"
  if !hasAccess then
    Script.throw .PermissionDenied
  let timestamp := ctx.timestamp
  let txId := ctx.txID
  let record1 : PatientRecordDoc :=
    { record with status := .INACTIVE, updatedAt := timestamp,
                  version := record.version + 1, txId := txId, submitter := submitter }
  Script.write (.putPatientRecord patientId record1)
  PatientRecord._createAuditEntry ctx patientId "DELETE" none none submitter timestamp
  return .deleted txId timestamp

/-- Source: `getAuditTrail` of `patient-record.js` (lines 220-254). -/
def PatientRecord.getAuditTrail (rt : Runtime) (ctx : Ctx) (s : WorldState)
    (patientId : String) : Script Response := do
  if patientId = "" then
    Script.throw .ValidationError
  let submitter := ctx.clientID
  let hasAccess := Chaincode.PatientRecord._checkAccess rt s patientId submitter "READ"
  if !hasAccess then
    Script.throw .PermissionDenied
  return .auditTrail (queryAuditTrail s patientId (fun _ => true))

/-- Source: `grantAccess` of `patient-record.js` (lines 311-339). -/
def PatientRecord.grantAccess (rt : Runtime) (ctx : Ctx) (s : WorldState)
    (patientId granteeId permissionsStr expiryDate : String) : Script Response := do
  if patientId = "" ∨ granteeId = "" ∨ permissionsStr = "" then
    Script.throw .ValidationError
  let submitter := ctx.clientID
  let hasAccess := Chaincode.PatientRecord._checkAccess rt s patientId submitter "GRANT"
  if !hasAccess then
    Script.throw .PermissionDenied
  let permissions := parsePermissions rt permissionsStr
  PatientRecord._setAccessControl rt ctx patientId granteeId permissions (some expiryDate)
  let timestamp := ctx.timestamp
  PatientRecord._createAuditEntry ctx patientId "GRANT_ACCESS" none none submitter timestamp
  return .granted permissions expiryDate none

/-- Source: `revokeAccess` of `patient-record.js` (lines 341-372). -/
def PatientRecord.revokeAccess (rt : Runtime) (ctx : Ctx) (s : WorldState)
    (patientId granteeId : String) : Script Response := do
  if patientId = "" ∨ granteeId = "" then
    Script.throw .ValidationError
  let submitter := ctx.clientID
  let hasAccess := Chaincode.PatientRecord._checkAccess rt s patientId submitter "GRANT"
  if !hasAccess then
    Script.throw .PermissionDenied
  let some _ := getState s.accessControl (accessControlKey patientId granteeId)
    | Script.throw .NotFound
  Script.write (.deleteAccessControl patientId granteeId)
  let timestamp := ctx.timestamp
  PatientRecord._createAuditEntry ctx patientId "REVOKE_ACCESS" none none submitter timestamp
  return .revoked none

/-- The call `ctx.stub.createCompositeKey(objectType, attributes)` as a
statement: the exception of the shim ends the run. -/
def createCompositeKey (objectType : String) (attributes : List String) :
    Script String :=
  match Chaincode.createCompositeKey objectType attributes with
  | .error e => Script.throw e
  | .ok key => Script.pure key

/-- Source: `initLedger` of `patient-record.js` (lines 4-9). -/
def PatientRecord.initLedger : Script Response := do
  let _ ← createCompositeKey "patientRecordIndex" [""]
  let _ ← createCompositeKey "accessControlIndex" [""]
  let _ ← createCompositeKey "auditTrailIndex" [""]
  return .initialized

/-- Source: `_setAccessControl` of `access-control.js` (lines 221-235). -/
def AccessControl._setAccessControl (rt : Runtime) (ctx : Ctx) (patientId identity : String)
    (permissions : List String) (expiryDate : Option String) : Script Unit :=
  let accessControl : AccessControlDoc :=
    { patientId := patientId, identity := identity, permissions := permissions,
      expiryDate := expiryDate, createdAt := rt.nowAtWrite, createdBy := ctx.clientID,
      updatedAt := none, updatedBy := none }
  Script.write (.putAccessControl patientId identity accessControl)

/-- Source: `_createAuditEntry` of `access-control.js` (lines 258-274). -/
def AccessControl._createAuditEntry (ctx : Ctx) (patientId action targetIdentity : String)
    (details : Option String) (submitter : String) (timestamp : Int) : Script Unit :=
  let txId := ctx.txID
  let auditEntry : AccessAuditEntry :=
    { patientId := patientId, action := action, targetIdentity := targetIdentity,
      details := details, submitter := submitter, timestamp := timestamp, txId := txId }
  Script.write (.putAccessAudit patientId txId auditEntry)

/-- Source: `initLedger` of `access-control.js` (lines 5-8). -/
def AccessControl.initLedger : Script Response := do
  let _ ← createCompositeKey "accessControlIndex" [""]
  return .initialized

/-- Source: `grantAccess` of `access-control.js` (lines 10-47). -/
def AccessControl.grantAccess (rt : Runtime) (ctx : Ctx) (s : WorldState)
    (patientId granteeId permissionsStr expiryDate : String) : Script Response := do
  if patientId = "" ∨ granteeId = "" ∨ permissionsStr = "" then
    Script.throw .ValidationError
  let submitter := ctx.clientID
  let hasAccess := Chaincode.AccessControl._checkAccess rt s patientId submitter "GRANT"
  if !hasAccess then
    Script.throw .PermissionDenied
  let permissions := parsePermissions rt permissionsStr
  if !permissions.all (fun permission => validPermissions.contains permission) then
    Script.throw .InvalidPermission
  AccessControl._setAccessControl rt ctx patientId granteeId permissions (some expiryDate)
  let timestamp := ctx.timestamp
  let txId := ctx.txID
  AccessControl._createAuditEntry ctx patientId "GRANT_ACCESS" granteeId
    (some (String.intercalate "," permissions)) submitter timestamp
  return .granted permissions expiryDate (some txId)

/-- Source: `revokeAccess` of `access-control.js` (lines 49-82). -/
def AccessControl.revokeAccess (rt : Runtime) (ctx : Ctx) (s : WorldState)
    (patientId granteeId : String) : Script Response := do
  if patientId = "" ∨ granteeId = "" then
    Script.throw .ValidationError
  let submitter := ctx.clientID
  let hasAccess := Chaincode.AccessControl._checkAccess rt s patientId submitter "GRANT"
  if !hasAccess then
    Script.throw .PermissionDenied
  let some _ := getState s.accessControl (accessControlKey patientId granteeId)
    | Script.throw .NotFound
  Script.write (.deleteAccessControl patientId granteeId)
  let timestamp := ctx.timestamp
  let txId := ctx.txID
  AccessControl._createAuditEntry ctx patientId "REVOKE_ACCESS" granteeId none submitter timestamp
  return .revoked (some txId)

/-- Source: `getAccessControlList` (lines 84-117). -/
def AccessControl.getAccessControlList (rt : Runtime) (ctx : Ctx) (s : WorldState)
    (patientId : String) : Script Response := do
  if patientId = "" then
    Script.throw .ValidationError
  let submitter := ctx.clientID
  let hasAccess := Chaincode.AccessControl._checkAccess rt s patientId submitter "READ"
  if !hasAccess then
    Script.throw .PermissionDenied
  return .accessList ((s.accessControl.map (fun e => e.2)).filter
    (fun g => g.patientId == patientId))

/-- Source: `checkAccess` (lines 119-132). -/
def AccessControl.checkAccess (rt : Runtime) (s : WorldState)
    (patientId identity permission : String) : Script Response := do
  if patientId = "" ∨ identity = "" ∨ permission = "" then
    Script.throw .ValidationError
  let hasAccess := Chaincode.AccessControl._checkAccess rt s patientId identity permission
  return .access patientId identity permission hasAccess

/-- Source: `updateAccessExpiry` (lines 134-171). -/
def AccessControl.updateAccessExpiry (rt : Runtime) (ctx : Ctx) (s : WorldState)
    (patientId granteeId expiryDate : String) : Script Response := do
  if patientId = "" ∨ granteeId = "" then
    Script.throw .ValidationError
  let submitter := ctx.clientID
  let hasAccess := Chaincode.AccessControl._checkAccess rt s patientId submitter "GRANT"
  if !hasAccess then
    Script.throw .PermissionDenied
  let some accessControl := getState s.accessControl (accessControlKey patientId granteeId)
    | Script.throw .NotFound
  let accessControl1 : AccessControlDoc :=
    { accessControl with expiryDate := some expiryDate, updatedAt := some rt.nowAtWrite,
                         updatedBy := some submitter }
  Script.write (.putAccessControl patientId granteeId accessControl1)
  let timestamp := ctx.timestamp
  AccessControl._createAuditEntry ctx patientId "UPDATE_ACCESS_EXPIRY" granteeId
    (some expiryDate) submitter timestamp
  return .expiryUpdated expiryDate

/-- Source: `updateAccessPermissions` (lines 173-219). -/
def AccessControl.updateAccessPermissions (rt : Runtime) (ctx : Ctx) (s : WorldState)
    (patientId granteeId permissionsStr : String) : Script Response := do
  if patientId = "" ∨ granteeId = "" ∨ permissionsStr = "" then
    Script.throw .ValidationError
  let submitter := ctx.clientID
  let hasAccess := Chaincode.AccessControl._checkAccess rt s patientId submitter "GRANT"
  if !hasAccess then
    Script.throw .PermissionDenied
  let permissions := parsePermissions rt permissionsStr
  if !permissions.all (fun permission => validPermissions.contains permission) then
    Script.throw .InvalidPermission
  let some accessControl := getState s.accessControl (accessControlKey patientId granteeId)
    | Script.throw .NotFound
  let accessControl1 : AccessControlDoc :=
    { accessControl with permissions := permissions, updatedAt := some rt.nowAtWrite,
                         updatedBy := some submitter }
  Script.write (.putAccessControl patientId granteeId accessControl1)
  let timestamp := ctx.timestamp
  AccessControl._createAuditEntry ctx patientId "UPDATE_ACCESS_PERMISSIONS" granteeId
    (some (String.intercalate "," permissions)) submitter timestamp
  return .permissionsUpdated permissions

/-- Source: `initLedger` of `audit-trail.js` (lines 5-8). -/
def AuditTrail.initLedger : Script Response := do
  let _ ← createCompositeKey "auditTrailIndex" [""]
  return .initialized

/-- Source: `createAuditEntry` of `audit-trail.js` (lines 10-51). -/
def AuditTrail.createAuditEntry (rt : Runtime) (ctx : Ctx)
    (patientId action dataHash previousHash metadata : String) : Script Response := do
  if patientId = "" ∨ action = "" then
    Script.throw .ValidationError
  let submitter := ctx.clientID
  let txId := ctx.txID
  let timestamp := ctx.timestamp
  let metadataObj ←
    if metadata ≠ "" then
      match rt.jsonParse metadata with
      | some parsed => pure parsed
      | none => Script.throw .MetadataFormatError
    else pure (Json.obj [])
  let auditEntry : AuditEntry :=
    { patientId := patientId, action := action, newHash := none, dataHash := some dataHash,
      previousHash := some previousHash, metadata := some metadataObj,
      submitter := submitter, timestamp := timestamp, txId := txId }
  Script.write (.putAuditTrail patientId txId auditEntry)
  return .auditCreated txId timestamp

/-- The access block at the head of every accessor of `audit-trail.js`
(lines 62-72 and its four copies). -/
def AuditTrail.readGate (ctx : Ctx) (s : WorldState) (patientId : String) : Script Unit := do
  let submitter := ctx.clientID
  let some accessControl := getState s.accessControl (accessControlKey patientId submitter)
    | Script.throw .PermissionDenied
  if !accessControl.permissions.contains "READ" then
    Script.throw .PermissionDenied

/-- Source: `getAuditTrail` of `audit-trail.js` (lines 53-95). -/
def AuditTrail.getAuditTrail (ctx : Ctx) (s : WorldState) (patientId : String) :
    Script Response := do
  if patientId = "" then
    Script.throw .ValidationError
  AuditTrail.readGate ctx s patientId
  return .auditTrail (queryAuditTrail s patientId (fun _ => true))

/-- Source: `getAuditTrailByDateRange` (lines 97-146). -/
def AuditTrail.getAuditTrailByDateRange (rt : Runtime) (ctx : Ctx) (s : WorldState)
    (patientId startDate endDate : String) : Script Response := do
  if patientId = "" ∨ startDate = "" ∨ endDate = "" then
    Script.throw .ValidationError
  AuditTrail.readGate ctx s patientId
  let some startTimestamp := rt.dateParse startDate
    | Script.throw .RuntimeError
  let some endTimestamp := rt.dateParse endDate
    | Script.throw .RuntimeError
  return .auditTrail (queryAuditTrail s patientId
    (fun e => decide (startTimestamp ≤ e.timestamp) && decide (e.timestamp ≤ endTimestamp)))

/-- Source: `getAuditTrailByAction` (lines 148-191). -/
def AuditTrail.getAuditTrailByAction (ctx : Ctx) (s : WorldState)
    (patientId action : String) : Script Response := do
  if patientId = "" ∨ action = "" then
    Script.throw .ValidationError
  AuditTrail.readGate ctx s patientId
  return .auditTrail (queryAuditTrail s patientId (fun e => e.action == action))

/-- Source: `getAuditTrailBySubmitter` (lines 193-236). -/
def AuditTrail.getAuditTrailBySubmitter (ctx : Ctx) (s : WorldState)
    (patientId submitterId : String) : Script Response := do
  if patientId = "" ∨ submitterId = "" then
    Script.throw .ValidationError
  AuditTrail.readGate ctx s patientId
  return .auditTrail (queryAuditTrail s patientId (fun e => e.submitter == submitterId))

/-- Source: `getAuditEntryByTxId` (lines 238-267). -/
def AuditTrail.getAuditEntryByTxId (ctx : Ctx) (s : WorldState)
    (patientId txId : String) : Script Response := do
  if patientId = "" ∨ txId = "" then
    Script.throw .ValidationError
  AuditTrail.readGate ctx s patientId
  let auditKey := compositeKey "auditTrail" [patientId, txId]
  let some auditEntry := getStateByKey "auditTrail" s.auditTrail auditKey
    | Script.throw .NotFound
  return .auditEntry auditEntry

/-- Dispatch of an invocation to the statements of the function it names. -/
def invoke (rt : Runtime) (ctx : Ctx) (s : WorldState) : Op → Script Response
  | .prInitLedger => PatientRecord.initLedger
  | .registerPatientRecord p h m o => PatientRecord.registerPatientRecord rt ctx s p h m o
  | .updatePatientRecord p h ph m => PatientRecord.updatePatientRecord rt ctx s p h ph m
  | .verifyPatientRecord p h => PatientRecord.verifyPatientRecord rt ctx s p h
  | .getPatientRecord p => PatientRecord.getPatientRecord rt ctx s p
  | .deletePatientRecord p => PatientRecord.deletePatientRecord rt ctx s p
  | .prGetAuditTrail p => PatientRecord.getAuditTrail rt ctx s p
  | .prGrantAccess p g ps e => PatientRecord.grantAccess rt ctx s p g ps e
  | .prRevokeAccess p g => PatientRecord.revokeAccess rt ctx s p g
  | .acInitLedger => AccessControl.initLedger
  | .grantAccess p g ps e => AccessControl.grantAccess rt ctx s p g ps e
  | .revokeAccess p g => AccessControl.revokeAccess rt ctx s p g
  | .getAccessControlList p => AccessControl.getAccessControlList rt ctx s p
  | .checkAccess p i perm => AccessControl.checkAccess rt s p i perm
  | .updateAccessExpiry p g e => AccessControl.updateAccessExpiry rt ctx s p g e
  | .updateAccessPermissions p g ps => AccessControl.updateAccessPermissions rt ctx s p g ps
  | .atInitLedger => AuditTrail.initLedger
  | .createAuditEntry p a h ph m => AuditTrail.createAuditEntry rt ctx p a h ph m
  | .getAuditTrail p => AuditTrail.getAuditTrail ctx s p
  | .getAuditTrailByDateRange p a b => AuditTrail.getAuditTrailByDateRange rt ctx s p a b
  | .getAuditTrailByAction p a => AuditTrail.getAuditTrailByAction ctx s p a
  | .getAuditTrailBySubmitter p i => AuditTrail.getAuditTrailBySubmitter ctx s p i
  | .getAuditEntryByTxId p t => AuditTrail.getAuditEntryByTxId ctx s p t

end Traced

/-- Agreement of a run from the empty log with an outcome of the state-passing
embedding: a returned value comes with a log whose application to `s` is the
outcome's state, and a thrown error comes with the empty log. -/
def traceAgrees (s : WorldState) :
    List Write × Except ChaincodeError Response → Outcome → Prop
  | (ws, .ok r), .ok (s1, r1) => applyWrites s ws = s1 ∧ r = r1
  | (ws, .error e), .error e1 => ws = [] ∧ e = e1
  | _, _ => False

/-- The object `{"a":1,"b":2}`. -/
def oldObject : Json :=
  .obj [(JsString.ofString "a", .num 1), (JsString.ofString "b", .num 2)]

/-- The object `{"b":3,"c":4}`. -/
def patchObject : Json :=
  .obj [(JsString.ofString "b", .num 3), (JsString.ofString "c", .num 4)]

/-- The JSON text `{"a":1,"b":2}`. -/
def oldText : String := "\x7b\x22a\x22:1,\x22b\x22:2\x7d"

/-- The JSON text `{"b":3,"c":4}`. -/
def patchText : String := "\x7b\x22b\x22:3,\x22c\x22:4\x7d"

/-- A runtime whose `JSON.parse` reads the texts `{}`, `{"a":1,"b":2}` and
`{"b":3,"c":4}`. -/
def mergeRuntime : Runtime :=
  { fixtureRuntime 0 0 with
    jsonParse := fun t =>
      if t = "{}" then some (.obj [])
      else if t = oldText then some oldObject
      else if t = patchText then some patchObject
      else none }

/-- The record of `p1` after `alice` registered it with the metadata
`{"a":1,"b":2}`. -/
def metadataRecord : PatientRecordDoc :=
  { patientId := "p1", dataHash := "h1", metadata := oldObject, ownerMSPID := "OrgA",
    createdAt := 1700000000000, updatedAt := 1700000000000, version := 1,
    status := .ACTIVE, txId := "tx1", submitter := "alice" }

/-- The ledger after `alice` registers `p1` with hash `h1` and the metadata
`{"a":1,"b":2}` on the empty ledger. -/
def metadataLedger : WorldState :=
  commit WorldState.empty ⟨mergeRuntime, aliceCtx "tx1" 1700000000,
    .registerPatientRecord "p1" "h1" oldText "OrgA"⟩

/-- The ledger after `alice` registers `p1`, and `bob` registers
`p1<U+0000>q` and revokes his own grant on it: the only stored grant is the one
of `alice` on `p1`. -/
def nulLockedLedger : WorldState :=
  run WorldState.empty
    [⟨fixtureRuntime 0 0, aliceCtx "tx1" 1700000000,
        .registerPatientRecord "p1" "h1" "{}" "OrgA"⟩,
     ⟨fixtureRuntime 0 0, bobCtx "tx2" 1700000100,
        .registerPatientRecord "p1\x00q" "h9" "{}" "OrgB"⟩,
     ⟨fixtureRuntime 0 0, bobCtx "tx3" 1700000200, .revokeAccess "p1\x00q" "bob"⟩]

/-- Transaction context of the identity `z` of `OrgZ`. -/
def zCtx (txID : String) (seconds : Int) : Ctx :=
  { clientID := "z", mspID := "OrgZ", txID := txID, txSecondsLow := seconds }

/-! ## Permission gate -/

theorem truthy_eq_false_iff (e : Option String) : truthy e = false ↔ e = none ∨ e = some "" := by
  cases e with
  | none => simp [truthy]
  | some v => simp [truthy]

theorem PatientRecord.checkAccess_eq (rt : Runtime) (s : WorldState) (R I p : String) :
    PatientRecord._checkAccess rt s R I p = AccessControl._checkAccess rt s R I p := rfl

theorem AccessControl.checkAccess_absent (rt : Runtime) (s : WorldState) (R I p : String)
    (h : getState s.accessControl (accessControlKey R I) = none) :
    AccessControl._checkAccess rt s R I p = false := by
  simp [AccessControl._checkAccess, h]

theorem AccessControl.checkAccess_noExpiry (rt : Runtime) (s : WorldState) (R I p : String)
    (g : AccessControlDoc) (h : getState s.accessControl (accessControlKey R I) = some g)
    (he : truthy g.expiryDate = false) :
    AccessControl._checkAccess rt s R I p = g.permissions.contains p := by
  simp [AccessControl._checkAccess, h, he]

theorem AccessControl.checkAccess_expiry (rt : Runtime) (s : WorldState) (R I p : String)
    (g : AccessControlDoc) (e : String) (T : Int)
    (h : getState s.accessControl (accessControlKey R I) = some g)
    (he : g.expiryDate = some e) (hne : e ≠ "") (hT : rt.dateParse e = some T) :
    AccessControl._checkAccess rt s R I p =
      (decide (rt.nowAtCheck ≤ T) && g.permissions.contains p) := by
  by_cases hle : rt.nowAtCheck ≤ T
  · have : ¬ rt.nowAtCheck > T := not_lt.mpr hle
    simp [AccessControl._checkAccess, h, he, truthy, hne, hT, hle, this]
  · have : rt.nowAtCheck > T := not_le.mp hle
    simp [AccessControl._checkAccess, h, he, truthy, hne, hT, hle, this]

/-- C1 (PermissionGate definition): `_checkAccess` of both contracts returns
false when no grant is stored for (R, I); when a grant without expiry (`null`
or the empty string) is stored it returns true exactly when the permission is
a member of the grant's permissions; the exposed `checkAccess` returns that
value for non-empty arguments and leaves the ledger as it was. -/
theorem C1_checkAccess_definition (rt : Runtime) (s : WorldState) (R I p : String) :
    (getState s.accessControl (accessControlKey R I) = none →
      PatientRecord._checkAccess rt s R I p = false ∧
      AccessControl._checkAccess rt s R I p = false) ∧
    (∀ g : AccessControlDoc, getState s.accessControl (accessControlKey R I) = some g →
      (g.expiryDate = none ∨ g.expiryDate = some "") →
      (PatientRecord._checkAccess rt s R I p = true ↔ p ∈ g.permissions) ∧
      (AccessControl._checkAccess rt s R I p = true ↔ p ∈ g.permissions)) ∧
    (R ≠ "" → I ≠ "" → p ≠ "" →
      AccessControl.checkAccess rt s R I p =
        .ok (s, .access R I p (AccessControl._checkAccess rt s R I p))) := by
  refine ⟨fun h => ?_, fun g h he => ?_, fun hR hI hp => ?_⟩
  · rw [PatientRecord.checkAccess_eq]
    exact ⟨AccessControl.checkAccess_absent rt s R I p h,
      AccessControl.checkAccess_absent rt s R I p h⟩
  · have ht : truthy g.expiryDate = false := (truthy_eq_false_iff _).mpr he
    rw [PatientRecord.checkAccess_eq, AccessControl.checkAccess_noExpiry rt s R I p g h ht]
    simp
  · simp [AccessControl.checkAccess, hR, hI, hp]

/-- Witness for C1 on the fixture ledger: `alice` holds a grant without expiry
on `p1`, `carol` holds none. -/
theorem C1_checkAccess_definition_witness :
    (PatientRecord._checkAccess (fixtureRuntime 0 0) fixtureLedger "p1" "carol" "READ" = false ∧
      AccessControl._checkAccess (fixtureRuntime 0 0) fixtureLedger "p1" "carol" "READ" = false) ∧
    ((PatientRecord._checkAccess (fixtureRuntime 0 0) fixtureLedger "p1" "alice" "GRANT" = true ↔
        "GRANT" ∈ ["READ", "UPDATE", "DELETE", "GRANT"]) ∧
      (AccessControl._checkAccess (fixtureRuntime 0 0) fixtureLedger "p1" "alice" "GRANT" = true ↔
        "GRANT" ∈ ["READ", "UPDATE", "DELETE", "GRANT"])) ∧
    AccessControl.checkAccess (fixtureRuntime 0 0) fixtureLedger "p1" "alice" "GRANT" =
      .ok (fixtureLedger, .access "p1" "alice" "GRANT"
        (AccessControl._checkAccess (fixtureRuntime 0 0) fixtureLedger "p1" "alice" "GRANT")) :=
  ⟨(C1_checkAccess_definition (fixtureRuntime 0 0) fixtureLedger "p1" "carol" "READ").1
      (by decide),
   (C1_checkAccess_definition (fixtureRuntime 0 0) fixtureLedger "p1" "alice" "GRANT").2.1
      (fixtureGrant "alice" ["READ", "UPDATE", "DELETE", "GRANT"] none) (by decide)
      (Or.inl rfl),
   (C1_checkAccess_definition (fixtureRuntime 0 0) fixtureLedger "p1" "alice" "GRANT").2.2
      (by decide) (by decide) (by decide)⟩

/-- C2 (expiry enforcement, as the code has it): for a stored grant on (R, B)
that contains READ and whose expiry date parses to the instant T, `_checkAccess`
of both contracts is true for every evaluation instant `now ≤ T` (the instant
`now = T` included) and false for every `now > T`; the exposed `checkAccess`
returns this value and the ledger it was given, so the stored grant is
unchanged in both cases. -/
theorem C2_expiry_enforcement (rt : Runtime) (s : WorldState) (R B e : String)
    (g : AccessControlDoc) (T : Int)
    (h : getState s.accessControl (accessControlKey R B) = some g) (hread : "READ" ∈ g.permissions)
    (he : g.expiryDate = some e) (hne : e ≠ "") (hT : rt.dateParse e = some T)
    (hR : R ≠ "") (hB : B ≠ "") :
    (rt.nowAtCheck ≤ T →
      PatientRecord._checkAccess rt s R B "READ" = true ∧
      AccessControl._checkAccess rt s R B "READ" = true) ∧
    (T < rt.nowAtCheck →
      PatientRecord._checkAccess rt s R B "READ" = false ∧
      AccessControl._checkAccess rt s R B "READ" = false) ∧
    AccessControl.checkAccess rt s R B "READ" =
      .ok (s, .access R B "READ" (decide (rt.nowAtCheck ≤ T))) := by
  have hc : g.permissions.contains "READ" = true := by simpa using hread
  have key := AccessControl.checkAccess_expiry rt s R B "READ" g e T h he hne hT
  rw [hc, Bool.and_true] at key
  refine ⟨fun hle => ?_, fun hlt => ?_, ?_⟩
  · rw [PatientRecord.checkAccess_eq, key]; simp [hle]
  · rw [PatientRecord.checkAccess_eq, key]; simp [not_le.mpr hlt]
  · simp [AccessControl.checkAccess, hR, hB, key]

/-- Witness for C2: the `READ` grant of `bob` on the fixture ledger, evaluated
one millisecond before its expiry. -/
theorem C2_expiry_enforcement_witness :
    ((fixtureRuntime 1767225598999 0).nowAtCheck ≤ 1767225599000 →
      PatientRecord._checkAccess (fixtureRuntime 1767225598999 0) fixtureLedger "p1" "bob" "READ"
        = true ∧
      AccessControl._checkAccess (fixtureRuntime 1767225598999 0) fixtureLedger "p1" "bob" "READ"
        = true) ∧
    (1767225599000 < (fixtureRuntime 1767225598999 0).nowAtCheck →
      PatientRecord._checkAccess (fixtureRuntime 1767225598999 0) fixtureLedger "p1" "bob" "READ"
        = false ∧
      AccessControl._checkAccess (fixtureRuntime 1767225598999 0) fixtureLedger "p1" "bob" "READ"
        = false) ∧
    AccessControl.checkAccess (fixtureRuntime 1767225598999 0) fixtureLedger "p1" "bob" "READ" =
      .ok (fixtureLedger, .access "p1" "bob" "READ"
        (decide ((fixtureRuntime 1767225598999 0).nowAtCheck ≤ 1767225599000))) :=
  C2_expiry_enforcement (fixtureRuntime 1767225598999 0) fixtureLedger "p1" "bob"
    "2025-12-31T23:59:59Z" (fixtureGrant "bob" ["READ"] (some "2025-12-31T23:59:59Z"))
    1767225599000 (by decide) (by decide) rfl (by decide) (by decide) (by decide) (by decide)

/-- Counterexample to C2 as stated: at the evaluation instant `now = T` exactly
(T = 2025-12-31T23:59:59Z, the expiry of the stored `READ` grant of `bob`)
`_checkAccess` of both contracts still returns true. -/
theorem C2_expiry_at_boundary_counterexample :
    getState fixtureLedger.accessControl (accessControlKey "p1" "bob")
      = some (fixtureGrant "bob" ["READ"] (some "2025-12-31T23:59:59Z")) ∧
    (fixtureRuntime 1767225599000 0).dateParse "2025-12-31T23:59:59Z" = some 1767225599000 ∧
    (fixtureRuntime 1767225599000 0).nowAtCheck ≥ 1767225599000 ∧
    PatientRecord._checkAccess (fixtureRuntime 1767225599000 0) fixtureLedger "p1" "bob" "READ"
      = true ∧
    AccessControl._checkAccess (fixtureRuntime 1767225599000 0) fixtureLedger "p1" "bob" "READ"
      = true := by
  refine ⟨by decide, by decide, by decide, by decide, by decide⟩

/-! ## Wall clock -/

/-- C3 (determinism), evaluation of the code: with the same ledger, arguments
and transaction context, two readings of the local wall clock give
(1) different `createdAt` values in the bootstrap grant written by
`registerPatientRecord`, (2) different `updatedAt` values in the grant written
by `updateAccessExpiry`, and (3) different answers of `checkAccess`. -/
theorem C3_wall_clock_reaches_ledger :
    ((Outcome.state? (PatientRecord.registerPatientRecord (fixtureRuntime 0 1000)
        (aliceCtx "tx1" 1700000000) WorldState.empty "p1" "h1" "{}" "OrgA")).bind
      (fun s => (getState s.accessControl (accessControlKey "p1" "alice")).map (fun g => g.createdAt))
        = some 1000 ∧
     (Outcome.state? (PatientRecord.registerPatientRecord (fixtureRuntime 0 2000)
        (aliceCtx "tx1" 1700000000) WorldState.empty "p1" "h1" "{}" "OrgA")).bind
      (fun s => (getState s.accessControl (accessControlKey "p1" "alice")).map (fun g => g.createdAt))
        = some 2000) ∧
    ((Outcome.state? (AccessControl.updateAccessExpiry (fixtureRuntime 0 1000)
        (aliceCtx "tx2" 1700000100) fixtureLedger "p1" "bob" "")).bind
      (fun s => (getState s.accessControl (accessControlKey "p1" "bob")).bind (fun g => g.updatedAt))
        = some 1000 ∧
     (Outcome.state? (AccessControl.updateAccessExpiry (fixtureRuntime 0 2000)
        (aliceCtx "tx2" 1700000100) fixtureLedger "p1" "bob" "")).bind
      (fun s => (getState s.accessControl (accessControlKey "p1" "bob")).bind (fun g => g.updatedAt))
        = some 2000) ∧
    (AccessControl._checkAccess (fixtureRuntime 1767225599000 0) fixtureLedger "p1" "bob" "READ"
        = true ∧
     AccessControl._checkAccess (fixtureRuntime 1767225599001 0) fixtureLedger "p1" "bob" "READ"
        = false) := by
  refine ⟨⟨by decide, by decide⟩, ⟨by decide, by decide⟩, ⟨by decide, by decide⟩⟩

/-! ## Store lemmas -/

section StoreLemmas
variable {κ ν : Type} [DecidableEq κ]

theorem getState_deleteState_same (m : List (κ × ν)) (k : κ) :
    getState (deleteState m k) k = none := by
  induction m with
  | nil => rfl
  | cons e t ih =>
    obtain ⟨k0, v⟩ := e
    unfold deleteState at ih ⊢
    rw [List.filter_cons]
    by_cases hk : k0 = k
    · simpa [hk] using ih
    · simpa [hk, getState] using ih

theorem getState_deleteState_other (m : List (κ × ν)) (k k1 : κ) (hne : k ≠ k1) :
    getState (deleteState m k) k1 = getState m k1 := by
  induction m with
  | nil => rfl
  | cons e t ih =>
    obtain ⟨k0, v⟩ := e
    unfold deleteState at ih ⊢
    rw [List.filter_cons]
    by_cases hk : k0 = k
    · subst hk
      simpa [getState, hne] using ih
    · by_cases hk1 : k0 = k1
      · subst hk1
        simp [hk, getState]
      · simpa [hk, getState, hk1] using ih

theorem getState_putState_same (m : List (κ × ν)) (k : κ) (v : ν) :
    getState (putState m k v) k = some v := by
  simp [putState, getState]

theorem getState_putState_other (m : List (κ × ν)) (k k1 : κ) (v : ν) (hne : k ≠ k1) :
    getState (putState m k v) k1 = getState m k1 := by
  simp [putState, getState, hne, getState_deleteState_other m k k1 hne]

end StoreLemmas

/-! ## Composite keys -/

/-- A list with a U+0000 after a prefix free of U+0000 splits in one way. -/
theorem nul_split_unique (a a1 b b1 : List Char)
    (ha : Char.ofNat 0 ∉ a) (ha1 : Char.ofNat 0 ∉ a1)
    (h : a ++ Char.ofNat 0 :: b = a1 ++ Char.ofNat 0 :: b1) : a = a1 ∧ b = b1 := by
  induction a generalizing a1 with
  | nil =>
    cases a1 with
    | nil => exact ⟨rfl, by simpa using h⟩
    | cons c t =>
      simp only [List.nil_append, List.cons_append, List.cons.injEq] at h
      exact absurd (List.mem_cons.mpr (Or.inl h.1)) ha1
  | cons c t ih =>
    cases a1 with
    | nil =>
      simp only [List.nil_append, List.cons_append, List.cons.injEq] at h
      exact absurd (List.mem_cons.mpr (Or.inl h.1.symm)) ha
    | cons c1 t1 =>
      simp only [List.cons_append, List.cons.injEq] at h
      obtain ⟨hc, ht⟩ := h
      obtain ⟨h1, h2⟩ := ih t1 (fun hm => ha (List.mem_cons_of_mem _ hm))
        (fun hm => ha1 (List.mem_cons_of_mem _ hm)) ht
      exact ⟨by rw [hc, h1], h2⟩

theorem nulFree_iff (v : String) : nulFree v = true ↔ Char.ofNat 0 ∉ v.toList := by
  simp [nulFree]

theorem compositeKey_foldl (attributes : List String) (acc : String) :
    (attributes.foldl (fun key attr => key ++ attr ++ keySeparator) acc).toList =
      acc.toList ++ attributes.flatMap (fun a => a.toList ++ [Char.ofNat 0]) := by
  induction attributes generalizing acc with
  | nil => simp
  | cons a t ih =>
    rw [List.foldl_cons, ih]
    simp [keySeparator, String.toList]

/-- The characters of a composite key. -/
theorem compositeKey_toList (objectType : String) (attributes : List String) :
    (compositeKey objectType attributes).toList =
      Char.ofNat 0 :: (objectType.toList ++ Char.ofNat 0 ::
        attributes.flatMap (fun a => a.toList ++ [Char.ofNat 0])) := by
  unfold compositeKey
  rw [compositeKey_foldl]
  simp [keySeparator, String.toList]

/-- Keys of two object types free of U+0000 coincide only for one type: the
four object types of the chaincode have disjoint key spaces. -/
theorem compositeKey_type (T T1 : String) (as bs : List String)
    (hT : nulFree T = true) (hT1 : nulFree T1 = true)
    (h : compositeKey T as = compositeKey T1 bs) : T = T1 := by
  have h1 := congrArg String.toList h
  rw [compositeKey_toList, compositeKey_toList] at h1
  simp only [List.cons.injEq, true_and] at h1
  exact String.toList_inj.mp
    (nul_split_unique _ _ _ _ ((nulFree_iff T).mp hT) ((nulFree_iff T1).mp hT1) h1).1

/-- A key with one attribute determines the attribute: `patientRecord` keys
are in one-to-one correspondence with patient ids. -/
theorem recordKey_injective (T p p1 : String)
    (h : compositeKey T [p] = compositeKey T [p1]) : p = p1 := by
  have h1 := congrArg String.toList h
  rw [compositeKey_toList, compositeKey_toList] at h1
  simp only [List.cons.injEq, true_and, List.append_cancel_left_eq, List.flatMap_cons,
    List.flatMap_nil, List.append_nil, List.append_cancel_right_eq] at h1
  exact String.toList_inj.mp h1

/-- A key with two attributes determines them when the first is free of
U+0000. -/
theorem compositeKey_injective_left (T a b a1 b1 : String)
    (ha : nulFree a = true) (ha1 : nulFree a1 = true)
    (h : compositeKey T [a, b] = compositeKey T [a1, b1]) : a = a1 ∧ b = b1 := by
  have h1 := congrArg String.toList h
  rw [compositeKey_toList, compositeKey_toList] at h1
  simp only [List.cons.injEq, true_and, List.append_cancel_left_eq, List.flatMap_cons,
    List.flatMap_nil, List.append_nil, List.append_assoc, List.singleton_append] at h1
  obtain ⟨h2, h3⟩ := nul_split_unique _ _ _ _ ((nulFree_iff a).mp ha)
    ((nulFree_iff a1).mp ha1) h1
  exact ⟨String.toList_inj.mp h2, String.toList_inj.mp (List.append_cancel_right h3)⟩

/-- A key with two attributes determines them when the second is free of
U+0000: an audit key, which ends in a transaction id generated by the
platform, stands for one (patient id, transaction id) pair. -/
theorem auditKey_injective (T p t p1 t1 : String)
    (ht : nulFree t = true) (ht1 : nulFree t1 = true)
    (h : compositeKey T [p, t] = compositeKey T [p1, t1]) : p = p1 ∧ t = t1 := by
  have h1 := congrArg String.toList h
  rw [compositeKey_toList, compositeKey_toList] at h1
  simp only [List.cons.injEq, true_and, List.append_cancel_left_eq, List.flatMap_cons,
    List.flatMap_nil, List.append_nil, List.append_assoc, List.singleton_append] at h1
  have h2 := congrArg List.reverse (List.append_cancel_right
    (show (p.toList ++ Char.ofNat 0 :: t.toList) ++ [Char.ofNat 0] =
      (p1.toList ++ Char.ofNat 0 :: t1.toList) ++ [Char.ofNat 0] by simpa using h1))
  simp only [List.reverse_append, List.reverse_cons, List.append_assoc,
    List.singleton_append] at h2
  obtain ⟨h3, h4⟩ := nul_split_unique _ _ _ _
    (fun hm => (nulFree_iff t).mp ht (List.mem_reverse.mp hm))
    (fun hm => (nulFree_iff t1).mp ht1 (List.mem_reverse.mp hm)) h2
  exact ⟨String.toList_inj.mp (List.reverse_injective h4),
    String.toList_inj.mp (List.reverse_injective h3)⟩

/-- On an audit map whose stored transaction ids are free of U+0000, the read
by key string for a transaction id free of U+0000 is the read under the
(patient id, transaction id) pair. -/
theorem getStateByKey_eq_getState {ν : Type} (T : String) (m : List ((String × String) × ν))
    (p t : String) (ht : nulFree t = true) (hm : ∀ ke ∈ m, nulFree ke.1.2 = true) :
    getStateByKey T m (compositeKey T [p, t]) = getState m (p, t) := by
  induction m with
  | nil => rfl
  | cons e rest ih =>
    obtain ⟨⟨p0, t0⟩, v⟩ := e
    have ht0 : nulFree t0 = true := hm ((p0, t0), v) (List.mem_cons_self _ _)
    have ih1 := ih (fun ke hke => hm ke (List.mem_cons_of_mem _ hke))
    unfold getStateByKey at ih1 ⊢
    by_cases hk : (p0, t0) = (p, t)
    · have hkey : compositeKey T [p0, t0] = compositeKey T [p, t] := by
        cases hk
        rfl
      simp [List.find?, hkey, getState, hk]
    · have hkey : ¬ compositeKey T [p0, t0] = compositeKey T [p, t] := by
        intro h
        obtain ⟨h1, h2⟩ := auditKey_injective T p0 t0 p t ht0 ht h
        exact hk (by rw [h1, h2])
      simp only [List.find?, hkey, decide_False, getState, hk, if_false]
      exact ih1

/-- Grant keys of two pairs whose patient ids are free of U+0000 coincide only
for one pair. -/
theorem accessControlKey_injective (R I R1 I1 : String)
    (hR : nulFree R = true) (hR1 : nulFree R1 = true)
    (h : accessControlKey R I = accessControlKey R1 I1) : R = R1 ∧ I = I1 :=
  compositeKey_injective_left "accessControl" R I R1 I1 hR hR1 h

/-- Two pairs with one grant key: the first patient id followed by U+0000 is
a prefix of the second pair's attributes joined by U+0000. -/
theorem accessControlKey_prefix (R I R1 I1 : String)
    (h : accessControlKey R I = accessControlKey R1 I1) :
    List.isPrefixOf (R.toList ++ [Char.ofNat 0])
      (R1.toList ++ Char.ofNat 0 :: (I1.toList ++ [Char.ofNat 0])) = true := by
  have h1 := congrArg String.toList h
  unfold accessControlKey at h1
  rw [compositeKey_toList, compositeKey_toList] at h1
  simp only [List.cons.injEq, true_and, List.append_cancel_left_eq, List.flatMap_cons,
    List.flatMap_nil, List.append_nil, List.append_assoc, List.singleton_append] at h1
  rw [List.isPrefixOf_iff_prefix]
  exact ⟨I.toList ++ [Char.ofNat 0], by simpa using h1⟩

/-! ## Registration -/

theorem PatientRecord.register_ok (rt : Runtime) (ctx : Ctx) (s : WorldState)
    (patientId dataHash metadata ownerMSPID : String) (metadataObj : Json)
    (hfree : getState s.patientRecord patientId = none)
    (hid : patientId ≠ "") (hhash : dataHash ≠ "")
    (hmeta : rt.jsonParse metadata = some metadataObj) :
    PatientRecord.registerPatientRecord rt ctx s patientId dataHash metadata ownerMSPID =
      .ok (PatientRecord._setAccessControl rt ctx
            (PatientRecord._createAuditEntry ctx
              { s with patientRecord := putState s.patientRecord patientId ⟨patientId, dataHash,
                  metadataObj, if ownerMSPID = "" then ctx.mspID else ownerMSPID, ctx.timestamp,
                  ctx.timestamp, 1, .ACTIVE, ctx.txID, ctx.clientID⟩ }
              patientId "REGISTER" (some dataHash) none ctx.clientID ctx.timestamp)
            patientId ctx.clientID ["READ", "UPDATE", "DELETE", "GRANT"] none,
          .registered ctx.txID ctx.timestamp) := by
  simp [PatientRecord.registerPatientRecord, hid, hhash, hfree, hmeta]

/-- C4 (register success): on a ledger with no record stored for `patientId`,
with non-empty `patientId` and `dataHash` and parseable metadata,
`registerPatientRecord` succeeds, and the record then stored for `patientId`
has version 1, status ACTIVE, the supplied data hash, and `createdAt` and
`updatedAt` both equal to the transaction timestamp. -/
theorem C4_register_success (rt : Runtime) (ctx : Ctx) (s : WorldState)
    (patientId dataHash metadata ownerMSPID : String) (metadataObj : Json)
    (hfree : getState s.patientRecord patientId = none)
    (hid : patientId ≠ "") (hhash : dataHash ≠ "")
    (hmeta : rt.jsonParse metadata = some metadataObj) :
    ∃ s1 r, PatientRecord.registerPatientRecord rt ctx s patientId dataHash metadata ownerMSPID
        = .ok (s1, .registered ctx.txID ctx.timestamp) ∧
      getState s1.patientRecord patientId = some r ∧
      r.version = 1 ∧ r.status = Status.ACTIVE ∧ r.dataHash = dataHash ∧
      r.createdAt = ctx.timestamp ∧ r.updatedAt = ctx.timestamp := by
  refine ⟨_, ⟨patientId, dataHash, metadataObj, if ownerMSPID = "" then ctx.mspID else ownerMSPID,
    ctx.timestamp, ctx.timestamp, 1, .ACTIVE, ctx.txID, ctx.clientID⟩,
    PatientRecord.register_ok rt ctx s patientId dataHash metadata ownerMSPID
    metadataObj hfree hid hhash hmeta, ?_, rfl, rfl, rfl, rfl, rfl⟩
  simp [PatientRecord._setAccessControl, PatientRecord._createAuditEntry, getState_putState_same]

/-- Witness for C4: `alice` registers `p1` on the empty ledger. -/
theorem C4_register_success_witness :
    ∃ s1 r, PatientRecord.registerPatientRecord (fixtureRuntime 0 0) (aliceCtx "tx1" 1700000000)
        WorldState.empty "p1" "h1" "{}" "OrgA"
        = .ok (s1, .registered (aliceCtx "tx1" 1700000000).txID
            (aliceCtx "tx1" 1700000000).timestamp) ∧
      getState s1.patientRecord "p1" = some r ∧
      r.version = 1 ∧ r.status = Status.ACTIVE ∧ r.dataHash = "h1" ∧
      r.createdAt = (aliceCtx "tx1" 1700000000).timestamp ∧
      r.updatedAt = (aliceCtx "tx1" 1700000000).timestamp :=
  C4_register_success (fixtureRuntime 0 0) (aliceCtx "tx1" 1700000000) WorldState.empty
    "p1" "h1" "{}" "OrgA" (.obj []) rfl (by decide) (by decide) rfl

/-- C5 (register duplicate, as the code has it): when a record is stored for a
non-empty `patientId`, whatever its status, `registerPatientRecord` fails for
every caller, data hash, metadata and owner organisation: with AlreadyExists
when the data hash is non-empty, with ValidationError when it is empty; in both
cases the ledger after the transaction is the ledger before it. -/
theorem C5_register_duplicate (rt : Runtime) (ctx : Ctx) (s : WorldState)
    (patientId dataHash metadata ownerMSPID : String) (r : PatientRecordDoc)
    (hid : patientId ≠ "") (hstored : getState s.patientRecord patientId = some r) :
    (dataHash ≠ "" →
      PatientRecord.registerPatientRecord rt ctx s patientId dataHash metadata ownerMSPID
        = .error .AlreadyExists) ∧
    (dataHash = "" →
      PatientRecord.registerPatientRecord rt ctx s patientId dataHash metadata ownerMSPID
        = .error .ValidationError) ∧
    commit s ⟨rt, ctx, .registerPatientRecord patientId dataHash metadata ownerMSPID⟩ = s := by
  by_cases hhash : dataHash = ""
  · simp [commit, invoke, PatientRecord.registerPatientRecord, hhash]
  · simp [commit, invoke, PatientRecord.registerPatientRecord, hid, hhash, hstored]

/-- Witness for C5: `bob` registers the stored `p1` again with another hash. -/
theorem C5_register_duplicate_witness :
    ("h9" ≠ "" →
      PatientRecord.registerPatientRecord (fixtureRuntime 0 0) (bobCtx "tx2" 1700000100)
        fixtureLedger "p1" "h9" "not json" "" = .error .AlreadyExists) ∧
    ("h9" = "" →
      PatientRecord.registerPatientRecord (fixtureRuntime 0 0) (bobCtx "tx2" 1700000100)
        fixtureLedger "p1" "h9" "not json" "" = .error .ValidationError) ∧
    commit fixtureLedger ⟨fixtureRuntime 0 0, bobCtx "tx2" 1700000100,
      .registerPatientRecord "p1" "h9" "not json" ""⟩ = fixtureLedger :=
  C5_register_duplicate (fixtureRuntime 0 0) (bobCtx "tx2" 1700000100) fixtureLedger
    "p1" "h9" "not json" "" fixtureRecord (by decide) rfl

/-- Counterexample to C5 as stated: with record `p1` stored, registering `p1`
with an empty data hash fails with ValidationError, not AlreadyExists. -/
theorem C5_empty_hash_counterexample :
    getState fixtureLedger.patientRecord "p1" = some fixtureRecord ∧
    PatientRecord.registerPatientRecord (fixtureRuntime 0 0) (bobCtx "tx2" 1700000100)
      fixtureLedger "p1" "" "{}" "OrgB" = .error .ValidationError ∧
    PatientRecord.registerPatientRecord (fixtureRuntime 0 0) (bobCtx "tx2" 1700000100)
      fixtureLedger "p1" "" "{}" "OrgB" ≠ .error .AlreadyExists := by
  refine ⟨rfl, rfl, ?_⟩
  intro h
  have h2 := congrArg Outcome.error? h
  revert h2
  decide

theorem AccessControl.checkAccess_after_set (rt rt1 : Runtime) (ctx : Ctx) (s0 : WorldState)
    (R I p : String) (permissions : List String) :
    AccessControl._checkAccess rt1
      (PatientRecord._setAccessControl rt ctx s0 R I permissions none) R I p
        = permissions.contains p := by
  simp [AccessControl._checkAccess, PatientRecord._setAccessControl, getState_putState_same,
    truthy]

/-- C6 (bootstrap grant): in the ledger left by a successful
`registerPatientRecord` on R submitted by identity A, `_checkAccess(R, A, p)` of
both contracts is true for every p in {READ, UPDATE, DELETE, GRANT}, whatever
the prior ledger was and whatever runtime (wall clock included) evaluates the
check, because the bootstrap grant has no expiry; the exposed `checkAccess`
then answers `hasAccess = true` for the (non-empty) identity A. -/
theorem C6_bootstrap_grant (rt : Runtime) (ctx : Ctx) (s : WorldState)
    (R dataHash metadata ownerMSPID : String) (s1 : WorldState) (resp : Response)
    (rt1 : Runtime) (p : String)
    (hreg : PatientRecord.registerPatientRecord rt ctx s R dataHash metadata ownerMSPID
      = .ok (s1, resp))
    (hp : p ∈ validPermissions) :
    PatientRecord._checkAccess rt1 s1 R ctx.clientID p = true ∧
    AccessControl._checkAccess rt1 s1 R ctx.clientID p = true ∧
    (ctx.clientID ≠ "" →
      AccessControl.checkAccess rt1 s1 R ctx.clientID p
        = .ok (s1, .access R ctx.clientID p true)) := by
  have hc : (["READ", "UPDATE", "DELETE", "GRANT"] : List String).contains p = true := by
    simpa [validPermissions] using hp
  have hpne : p ≠ "" := by
    intro h0
    subst h0
    revert hp
    decide
  unfold PatientRecord.registerPatientRecord at hreg
  split at hreg
  · cases hreg
  · rename_i hvalid
    have hR : R ≠ "" := fun h0 => hvalid (Or.inl h0)
    split at hreg
    · cases hreg
    · split at hreg
      · cases hreg
      · simp only [Except.ok.injEq, Prod.mk.injEq] at hreg
        obtain ⟨hs, _⟩ := hreg
        subst hs
        have hacc := fun s0 => AccessControl.checkAccess_after_set rt rt1 ctx s0
          R ctx.clientID p ["READ", "UPDATE", "DELETE", "GRANT"]
        simp only [hc] at hacc
        refine ⟨(PatientRecord.checkAccess_eq _ _ _ _ _).trans (hacc _), hacc _, fun hA => ?_⟩
        simp [AccessControl.checkAccess, hR, hA, hpne, hacc]

/-- Witness for C6: `alice` registers `p1` on the empty ledger and is then
checked for `DELETE` under another wall clock. -/
theorem C6_bootstrap_grant_witness :
    PatientRecord._checkAccess (fixtureRuntime 4102444800000 0) registeredLedger
      "p1" (aliceCtx "tx1" 1700000000).clientID "DELETE" = true ∧
    AccessControl._checkAccess (fixtureRuntime 4102444800000 0) registeredLedger
      "p1" (aliceCtx "tx1" 1700000000).clientID "DELETE" = true ∧
    ((aliceCtx "tx1" 1700000000).clientID ≠ "" →
      AccessControl.checkAccess (fixtureRuntime 4102444800000 0) registeredLedger
        "p1" (aliceCtx "tx1" 1700000000).clientID "DELETE"
        = .ok (registeredLedger, .access "p1" (aliceCtx "tx1" 1700000000).clientID "DELETE" true)) :=
  C6_bootstrap_grant (fixtureRuntime 0 0) (aliceCtx "tx1" 1700000000) WorldState.empty
    "p1" "h1" "{}" "OrgA" registeredLedger (.registered "tx1" 1700000000000)
    (fixtureRuntime 4102444800000 0) "DELETE" rfl (by decide)

/-! ## Update -/

/-- C7 (update requires UPDATE, as the code has it): for a record stored under
a non-empty `patientId` and a caller for whom `_checkAccess(.., UPDATE)` is
false, `updatePatientRecord` fails for every new data hash, previous hash and
metadata patch and the ledger after the transaction is the ledger before it; the
failure is PermissionDenied whenever the new data hash is non-empty and the
previous hash is empty or equal to the stored hash. -/
theorem C7_update_requires_UPDATE (rt : Runtime) (ctx : Ctx) (s : WorldState)
    (patientId newDataHash previousHash metadata : String) (r : PatientRecordDoc)
    (hid : patientId ≠ "") (hstored : getState s.patientRecord patientId = some r)
    (hno : PatientRecord._checkAccess rt s patientId ctx.clientID "UPDATE" = false) :
    (∃ e, PatientRecord.updatePatientRecord rt ctx s patientId newDataHash previousHash metadata
      = .error e) ∧
    commit s ⟨rt, ctx, .updatePatientRecord patientId newDataHash previousHash metadata⟩ = s ∧
    (newDataHash ≠ "" → (previousHash = "" ∨ previousHash = r.dataHash) →
      PatientRecord.updatePatientRecord rt ctx s patientId newDataHash previousHash metadata
        = .error .PermissionDenied) := by
  by_cases hnew : newDataHash = ""
  · simp [commit, invoke, PatientRecord.updatePatientRecord, hnew]
  · by_cases hconf : previousHash ≠ "" ∧ r.dataHash ≠ previousHash
    · have hne : ¬ previousHash = r.dataHash := fun h => hconf.2 h.symm
      simp [commit, invoke, PatientRecord.updatePatientRecord, hid, hnew, hstored, hconf, hne]
    · simp [commit, invoke, PatientRecord.updatePatientRecord, hid, hnew, hstored, hconf, hno]

/-- Witness for C7: `bob`, who holds only `READ` on `p1`, submits an update
with the matching previous hash. -/
theorem C7_update_requires_UPDATE_witness :
    (∃ e, PatientRecord.updatePatientRecord (fixtureRuntime 0 0) (bobCtx "tx2" 1700000100)
      fixtureLedger "p1" "h2" "h1" "{}" = .error e) ∧
    commit fixtureLedger ⟨fixtureRuntime 0 0, bobCtx "tx2" 1700000100,
      .updatePatientRecord "p1" "h2" "h1" "{}"⟩ = fixtureLedger ∧
    ("h2" ≠ "" → ("h1" = "" ∨ "h1" = fixtureRecord.dataHash) →
      PatientRecord.updatePatientRecord (fixtureRuntime 0 0) (bobCtx "tx2" 1700000100)
        fixtureLedger "p1" "h2" "h1" "{}" = .error .PermissionDenied) :=
  C7_update_requires_UPDATE (fixtureRuntime 0 0) (bobCtx "tx2" 1700000100) fixtureLedger
    "p1" "h2" "h1" "{}" fixtureRecord (by decide) rfl (by decide)

/-- Counterexample to C7 as stated: `bob` holds only `READ` on `p1`, so
`_checkAccess(p1, bob, UPDATE)` is false; his update with a previous hash that
differs from the stored hash `h1` fails with IntegrityConflict, and his update
with an empty new data hash fails with ValidationError, not PermissionDenied. -/
theorem C7_error_kind_counterexample :
    getState fixtureLedger.patientRecord "p1" = some fixtureRecord ∧
    PatientRecord._checkAccess (fixtureRuntime 0 0) fixtureLedger "p1"
      (bobCtx "tx2" 1700000100).clientID "UPDATE" = false ∧
    Outcome.error? (PatientRecord.updatePatientRecord (fixtureRuntime 0 0)
      (bobCtx "tx2" 1700000100) fixtureLedger "p1" "h2" "hX" "{}")
        = some .IntegrityConflict ∧
    Outcome.error? (PatientRecord.updatePatientRecord (fixtureRuntime 0 0)
      (bobCtx "tx2" 1700000100) fixtureLedger "p1" "" "h1" "{}")
        = some .ValidationError := by
  refine ⟨rfl, by decide, by decide, by decide⟩

/-- C8 (optimistic conflict): for a record stored under a non-empty `patientId`,
a caller holding UPDATE, a non-empty new data hash and a supplied (non-empty)
previous hash that differs from the stored data hash, `updatePatientRecord`
fails with IntegrityConflict and the ledger after the transaction is the ledger
before it: the stored record is unchanged and no audit entry is written. -/
theorem C8_optimistic_conflict (rt : Runtime) (ctx : Ctx) (s : WorldState)
    (patientId newDataHash previousHash metadata : String) (r : PatientRecordDoc)
    (hid : patientId ≠ "") (hnew : newDataHash ≠ "")
    (hstored : getState s.patientRecord patientId = some r)
    (_hacc : PatientRecord._checkAccess rt s patientId ctx.clientID "UPDATE" = true)
    (hprev : previousHash ≠ "") (hdiff : previousHash ≠ r.dataHash) :
    PatientRecord.updatePatientRecord rt ctx s patientId newDataHash previousHash metadata
      = .error .IntegrityConflict ∧
    commit s ⟨rt, ctx, .updatePatientRecord patientId newDataHash previousHash metadata⟩ = s := by
  have hne : ¬ r.dataHash = previousHash := fun h => hdiff h.symm
  simp [commit, invoke, PatientRecord.updatePatientRecord, hid, hnew, hstored, hprev, hne]

/-- Witness for C8: `alice` updates `p1` (stored hash `h1`) claiming the
previous hash `h0`. -/
theorem C8_optimistic_conflict_witness :
    PatientRecord.updatePatientRecord (fixtureRuntime 0 0) (aliceCtx "tx2" 1700000100)
      fixtureLedger "p1" "h2" "h0" "{}" = .error .IntegrityConflict ∧
    commit fixtureLedger ⟨fixtureRuntime 0 0, aliceCtx "tx2" 1700000100,
      .updatePatientRecord "p1" "h2" "h0" "{}"⟩ = fixtureLedger :=
  C8_optimistic_conflict (fixtureRuntime 0 0) (aliceCtx "tx2" 1700000100) fixtureLedger
    "p1" "h2" "h0" "{}" fixtureRecord (by decide) (by decide) rfl (by decide)
    (by decide) (by decide)

/-! ### Shallow merge of metadata -/

theorem getProp_append (xs ys : List (JsString × Json)) (k : JsString) :
    getProp (xs ++ ys) k =
      match getProp ys k with
      | some w => some w
      | none => getProp xs k := by
  induction xs with
  | nil =>
    cases h : getProp ys k with
    | some w => simp [h]
    | none => simp [h, getProp]
  | cons e t ih =>
    obtain ⟨k0, v0⟩ := e
    have hunf : getProp ((k0, v0) :: t ++ ys) k =
        match getProp (t ++ ys) k with
        | some w => some w
        | none => if k0 = k then some v0 else none := rfl
    rw [hunf, ih]
    cases h : getProp ys k with
    | some w => rfl
    | none => rfl

theorem getProp_append_singleton (ps : List (JsString × Json)) (k k1 : JsString) (v : Json) :
    getProp (ps ++ [(k, v)]) k1 = if k = k1 then some v else getProp ps k1 := by
  rw [getProp_append]
  by_cases hk : k = k1
  · simp [hk, getProp]
  · simp [hk, getProp]

theorem getProp_replaceProp_other (ps : List (JsString × Json)) (k k1 : JsString) (v : Json)
    (hne : k ≠ k1) : getProp (replaceProp ps k v) k1 = getProp ps k1 := by
  induction ps with
  | nil => rfl
  | cons e t ih =>
    obtain ⟨k0, v0⟩ := e
    simp only [replaceProp, getProp, ih]
    by_cases hk : k0 = k
    · have hk1 : ¬ k0 = k1 := fun h => hne (hk.symm.trans h)
      simp [hk1]
    · simp [hk]

theorem getProp_replaceProp_same (ps : List (JsString × Json)) (k : JsString) (v : Json) :
    getProp (replaceProp ps k v) k = (getProp ps k).map (fun _ => v) := by
  induction ps with
  | nil => rfl
  | cons e t ih =>
    obtain ⟨k0, v0⟩ := e
    simp only [replaceProp, getProp, ih]
    cases getProp t k with
    | some w => rfl
    | none =>
      by_cases hk : k0 = k
      · simp [hk]
      · simp [hk]

/-- Reading after the creation of a key the list lacks, wherever the key is
placed. -/
theorem getProp_insert_at (front back : List (JsString × Json)) (k k1 : JsString) (v : Json)
    (hfresh : getProp (front ++ back) k = none) :
    getProp (front ++ (k, v) :: back) k1 =
      if k = k1 then some v else getProp (front ++ back) k1 := by
  rw [getProp_append] at hfresh
  have hback : getProp back k = none := by
    cases h : getProp back k with
    | none => rfl
    | some w => simp [h] at hfresh
  rw [getProp_append, getProp_append]
  have hunf : getProp ((k, v) :: back) k1 =
      match getProp back k1 with
      | some w => some w
      | none => if k = k1 then some v else none := rfl
  rw [hunf]
  by_cases hk : k = k1
  · subst hk
    simp [hback]
  · cases h : getProp back k1 with
    | some w => simp [hk]
    | none => simp [hk]

theorem getProp_insertProp (ps : List (JsString × Json)) (k k1 : JsString) (v : Json)
    (hfresh : getProp ps k = none) :
    getProp (insertProp ps k v) k1 = if k = k1 then some v else getProp ps k1 := by
  unfold insertProp
  cases arrayIndex? k with
  | none => exact getProp_append_singleton ps k k1 v
  | some n =>
    have hsplit := List.takeWhile_append_dropWhile
      (fun e : JsString × Json => match arrayIndex? e.1 with
        | some m => decide (m < n)
        | none => false) ps
    have h := getProp_insert_at _ _ k k1 v (by rw [hsplit]; exact hfresh)
    rw [hsplit] at h
    exact h

theorem getProp_setProp (ps : List (JsString × Json)) (k k1 : JsString) (v : Json) :
    getProp (setProp ps k v) k1 = if k = k1 then some v else getProp ps k1 := by
  unfold setProp
  by_cases hsome : (getProp ps k).isSome = true
  · rw [if_pos hsome]
    by_cases hk : k = k1
    · subst hk
      obtain ⟨w, hw⟩ := Option.isSome_iff_exists.mp hsome
      simp [getProp_replaceProp_same, hw]
    · simp [getProp_replaceProp_other ps k k1 v hk, hk]
  · rw [if_neg hsome]
    exact getProp_insertProp ps k k1 v (by simpa using hsome)

theorem getProp_assignAll (acc src : List (JsString × Json)) (k : JsString) :
    getProp (assignAll acc src) k =
      match getProp src k with
      | some w => some w
      | none => getProp acc k := by
  induction src generalizing acc with
  | nil => simp [assignAll, getProp]
  | cons e t ih =>
    obtain ⟨k0, v0⟩ := e
    have hstep : assignAll acc ((k0, v0) :: t) = assignAll (setProp acc k0 v0) t := rfl
    rw [hstep, ih, getProp_setProp]
    simp only [getProp]
    cases getProp t k with
    | some w => rfl
    | none =>
      by_cases hk : k0 = k
      · simp [hk]
      · simp [hk]

/-- Property read on the object `{ ...a, ...b }`: the value in `b` when `b` has
the key, otherwise the value in `a`. -/
theorem getProp_spread (a b : Json) (k : JsString) :
    getProp (spread a b).ownProps k =
      match getProp b.ownProps k with
      | some w => some w
      | none => getProp a.ownProps k := by
  show getProp (assignAll (assignAll [] a.ownProps) b.ownProps) k = _
  rw [getProp_assignAll, getProp_assignAll]
  cases getProp b.ownProps k with
  | some w => rfl
  | none =>
    cases getProp a.ownProps k with
    | some w => rfl
    | none => rfl

/-- The spread of two objects is an object whose members read as the second
object's where it has the key and as the first object's elsewhere. -/
theorem spread_obj (old new : List (JsString × Json)) :
    ∃ merged, spread (.obj old) (.obj new) = .obj merged ∧
      ∀ k, getProp merged k =
        match getProp new k with
        | some w => some w
        | none => getProp old k :=
  ⟨assignAll (assignAll [] old) new, rfl, fun k => getProp_spread (.obj old) (.obj new) k⟩

/-- Key order and string enumeration of the spread, evaluated: an array-index
key comes before the other keys (`{...{"b":1}, ...{"1":2}}` is
`{"1":2,"b":1}`), among array-index keys the order is numeric, and a string is
spread code unit by code unit (U+1F600 gives the two properties `0` and `1`). -/
theorem spread_examples :
    spread (.obj [(JsString.ofString "b", .num 1)]) (.obj [(JsString.ofString "1", .num 2)])
      = .obj [(JsString.ofString "1", .num 2), (JsString.ofString "b", .num 1)] ∧
    spread (.obj [(JsString.ofString "10", .num 1), (JsString.ofString "a", .num 0)])
        (.obj [(JsString.ofString "9", .num 2), (JsString.ofString "01", .num 3)])
      = .obj [(JsString.ofString "9", .num 2), (JsString.ofString "10", .num 1),
          (JsString.ofString "a", .num 0), (JsString.ofString "01", .num 3)] ∧
    spread (.obj []) (.str (JsString.ofString (String.singleton (Char.ofNat 0x1F600))))
      = .obj [(JsString.ofString "0", .str [0xD83D]), (JsString.ofString "1", .str [0xDE00])] ∧
    spread (.obj [(JsString.ofString "a", .num 1), (JsString.ofString "b", .num 2)])
        (.obj [(JsString.ofString "b", .num 3), (JsString.ofString "c", .num 4)])
      = .obj [(JsString.ofString "a", .num 1), (JsString.ofString "b", .num 3),
          (JsString.ofString "c", .num 4)] := by
  refine ⟨?_, ?_, ?_, ?_⟩ <;> rfl

theorem PatientRecord.update_ok (rt : Runtime) (ctx : Ctx) (s : WorldState)
    (patientId newDataHash previousHash metadata : String) (r : PatientRecordDoc) (patch : Json)
    (hid : patientId ≠ "") (hnew : newDataHash ≠ "")
    (hstored : getState s.patientRecord patientId = some r)
    (hacc : PatientRecord._checkAccess rt s patientId ctx.clientID "UPDATE" = true)
    (hprev : previousHash = "" ∨ previousHash = r.dataHash)
    (hm : metadata ≠ "") (hparse : rt.jsonParse metadata = some patch) :
    PatientRecord.updatePatientRecord rt ctx s patientId newDataHash previousHash metadata =
      .ok (PatientRecord._createAuditEntry ctx
            { s with patientRecord := (putState s.patientRecord patientId
                { r with metadata := spread r.metadata patch, dataHash := newDataHash,
                         updatedAt := ctx.timestamp, version := r.version + 1,
                         txId := ctx.txID, submitter := ctx.clientID }) }
            patientId "UPDATE" (some newDataHash) (some newDataHash) ctx.clientID ctx.timestamp,
          .updated ctx.txID ctx.timestamp (r.version + 1)) := by
  have hconf : ¬ (previousHash ≠ "" ∧ r.dataHash ≠ previousHash) := by
    rintro ⟨h1, h2⟩
    rcases hprev with h | h
    · exact h1 h
    · exact h2 h.symm
  unfold PatientRecord.updatePatientRecord
  rw [if_neg (by simp [hid, hnew])]
  simp only [hstored]
  rw [if_neg hconf]
  simp [hacc, hm, hparse]

/-- C9 (update success): for a record stored under a non-empty `patientId`, a
caller holding UPDATE, a non-empty new data hash, a previous hash that is empty
or equal to the stored hash, and a non-empty parseable metadata patch,
`updatePatientRecord` succeeds; the record then stored has the new data hash,
the old version plus one, and as metadata the shallow merge of the old metadata
with the patch: an object in which a key of the patch reads the patch's value
and any other key reads its old value, and which, when the old metadata and the
patch are objects with the members `old` and `new`, has for every key the
member of `new` if there is one and the member of `old` otherwise;
`patientId`, `ownerMSPID`, `createdAt` and `status` are unchanged. -/
theorem C9_update_success (rt : Runtime) (ctx : Ctx) (s : WorldState)
    (patientId newDataHash previousHash metadata : String) (r : PatientRecordDoc) (patch : Json)
    (hid : patientId ≠ "") (hnew : newDataHash ≠ "")
    (hstored : getState s.patientRecord patientId = some r)
    (hacc : PatientRecord._checkAccess rt s patientId ctx.clientID "UPDATE" = true)
    (hprev : previousHash = "" ∨ previousHash = r.dataHash)
    (hm : metadata ≠ "") (hparse : rt.jsonParse metadata = some patch) :
    ∃ s1 r1,
      PatientRecord.updatePatientRecord rt ctx s patientId newDataHash previousHash metadata
        = .ok (s1, .updated ctx.txID ctx.timestamp (r.version + 1)) ∧
      getState s1.patientRecord patientId = some r1 ∧
      r1.dataHash = newDataHash ∧ r1.version = r.version + 1 ∧
      r1.metadata = spread r.metadata patch ∧
      (∀ k w, getProp patch.ownProps k = some w → getProp r1.metadata.ownProps k = some w) ∧
      (∀ k, getProp patch.ownProps k = none →
        getProp r1.metadata.ownProps k = getProp r.metadata.ownProps k) ∧
      r1.patientId = r.patientId ∧ r1.ownerMSPID = r.ownerMSPID ∧
      r1.createdAt = r.createdAt ∧ r1.status = r.status ∧
      (∃ merged, r1.metadata = .obj merged ∧
        (∀ k w, getProp patch.ownProps k = some w → getProp merged k = some w) ∧
        (∀ k, getProp patch.ownProps k = none →
          getProp merged k = getProp r.metadata.ownProps k)) ∧
      (∀ old new, r.metadata = .obj old → patch = .obj new →
        ∃ merged, r1.metadata = .obj merged ∧
          (∀ k w, getProp new k = some w → getProp merged k = some w) ∧
          (∀ k, getProp new k = none → getProp merged k = getProp old k)) := by
  refine ⟨_, { r with metadata := spread r.metadata patch, dataHash := newDataHash,
                      updatedAt := ctx.timestamp, version := r.version + 1,
                      txId := ctx.txID, submitter := ctx.clientID },
    PatientRecord.update_ok rt ctx s patientId newDataHash previousHash metadata r patch
      hid hnew hstored hacc hprev hm hparse, ?_, rfl, rfl, rfl, ?_, ?_, rfl, rfl, rfl, rfl,
    ⟨_, rfl, ?_, ?_⟩, ?_⟩
  · simp [PatientRecord._createAuditEntry, getState_putState_same]
  · intro k w hk
    show getProp (spread r.metadata patch).ownProps k = some w
    rw [getProp_spread, hk]
  · intro k hk
    show getProp (spread r.metadata patch).ownProps k = _
    rw [getProp_spread, hk]
  · intro k w hk
    show getProp (spread r.metadata patch).ownProps k = some w
    rw [getProp_spread, hk]
  · intro k hk
    show getProp (spread r.metadata patch).ownProps k = _
    rw [getProp_spread, hk]
  · intro old new hold hpatch
    obtain ⟨merged, hmerged, hread⟩ := spread_obj old new
    refine ⟨merged, ?_, fun k w hk => ?_, fun k hk => ?_⟩
    · show spread r.metadata patch = .obj merged
      rw [hold, hpatch, hmerged]
    · rw [hread, hk]
    · rw [hread, hk]

/-- Witness for C9: `alice` updates `p1`, registered with the metadata
`{"a":1,"b":2}`, from hash `h1` to `h2` with the patch `{"b":3,"c":4}`. -/
theorem C9_update_success_witness :
    ∃ s1 r1,
      PatientRecord.updatePatientRecord mergeRuntime (aliceCtx "tx2" 1700000100)
        metadataLedger "p1" "h2" "h1" patchText
        = .ok (s1, .updated (aliceCtx "tx2" 1700000100).txID
            (aliceCtx "tx2" 1700000100).timestamp (metadataRecord.version + 1)) ∧
      getState s1.patientRecord "p1" = some r1 ∧
      r1.dataHash = "h2" ∧ r1.version = metadataRecord.version + 1 ∧
      r1.metadata = spread metadataRecord.metadata patchObject ∧
      (∀ k w, getProp patchObject.ownProps k = some w →
        getProp r1.metadata.ownProps k = some w) ∧
      (∀ k, getProp patchObject.ownProps k = none →
        getProp r1.metadata.ownProps k = getProp metadataRecord.metadata.ownProps k) ∧
      r1.patientId = metadataRecord.patientId ∧ r1.ownerMSPID = metadataRecord.ownerMSPID ∧
      r1.createdAt = metadataRecord.createdAt ∧ r1.status = metadataRecord.status ∧
      (∃ merged, r1.metadata = .obj merged ∧
        (∀ k w, getProp patchObject.ownProps k = some w → getProp merged k = some w) ∧
        (∀ k, getProp patchObject.ownProps k = none →
          getProp merged k = getProp metadataRecord.metadata.ownProps k)) ∧
      (∀ old new, metadataRecord.metadata = .obj old → patchObject = .obj new →
        ∃ merged, r1.metadata = .obj merged ∧
          (∀ k w, getProp new k = some w → getProp merged k = some w) ∧
          (∀ k, getProp new k = none → getProp merged k = getProp old k)) :=
  C9_update_success mergeRuntime (aliceCtx "tx2" 1700000100) metadataLedger
    "p1" "h2" "h1" patchText metadataRecord patchObject (by decide) (by decide) rfl
    (by decide) (Or.inr rfl) (by decide) rfl

/-- The update of the witness, evaluated: the metadata stored afterwards is
`{"a":1,"b":3,"c":4}`: `a` kept, `b` overwritten by the patch, `c` added. -/
theorem update_merges_metadata :
    (getState metadataLedger.patientRecord "p1").map (fun r => r.metadata) =
      some (.obj [(JsString.ofString "a", .num 1), (JsString.ofString "b", .num 2)]) ∧
    (getState (commit metadataLedger ⟨mergeRuntime, aliceCtx "tx2" 1700000100,
        .updatePatientRecord "p1" "h2" "h1" patchText⟩).patientRecord "p1").map
          (fun r => r.metadata) =
      some (.obj [(JsString.ofString "a", .num 1), (JsString.ofString "b", .num 3),
        (JsString.ofString "c", .num 4)]) := by
  constructor <;> rfl

/-! ## Version counter -/

theorem versionOf_of_patientRecord_eq (s s1 : WorldState) (R : String)
    (h : s1.patientRecord = s.patientRecord) : versionOf s1 R = versionOf s R := by
  simp [versionOf, h]

theorem invoke_readonly_patientRecord (rt : Runtime) (ctx : Ctx) (s s1 : WorldState) (op : Op)
    (resp : Response) (hop : ∀ R, isRecordMutation R op = false)
    (hreg : ∀ p h m o, op ≠ .registerPatientRecord p h m o)
    (h : invoke rt ctx s op = .ok (s1, resp)) : s1.patientRecord = s.patientRecord := by
  cases op <;> simp only [invoke] at h
  case registerPatientRecord p hh m o => exact absurd rfl (hreg p hh m o)
  case updatePatientRecord p _ _ _ => simpa [isRecordMutation] using hop p
  case deletePatientRecord p => simpa [isRecordMutation] using hop p
  all_goals
    simp only [PatientRecord.initLedger, PatientRecord.verifyPatientRecord,
      PatientRecord.getPatientRecord, PatientRecord.getAuditTrail, PatientRecord.grantAccess,
      PatientRecord.revokeAccess, AccessControl.initLedger, AccessControl.grantAccess,
      AccessControl.revokeAccess, AccessControl.getAccessControlList, AccessControl.checkAccess,
      AccessControl.updateAccessExpiry, AccessControl.updateAccessPermissions,
      AuditTrail.initLedger, AuditTrail.createAuditEntry, AuditTrail.getAuditTrail,
      AuditTrail.getAuditTrailByDateRange, AuditTrail.getAuditTrailByAction,
      AuditTrail.getAuditTrailBySubmitter, AuditTrail.getAuditEntryByTxId] at h
    repeat' split at h
    all_goals cases h <;> rfl

theorem PatientRecord.register_inv (rt : Runtime) (ctx : Ctx) (s s1 : WorldState)
    (p h m o : String) (resp : Response)
    (hok : PatientRecord.registerPatientRecord rt ctx s p h m o = .ok (s1, resp)) :
    getState s.patientRecord p = none ∧
    ∃ r : PatientRecordDoc, s1.patientRecord = putState s.patientRecord p r ∧ r.version = 1 := by
  unfold PatientRecord.registerPatientRecord at hok
  repeat' split at hok
  all_goals cases hok
  all_goals exact ⟨by assumption, _, rfl, rfl⟩

theorem PatientRecord.update_inv (rt : Runtime) (ctx : Ctx) (s s1 : WorldState)
    (p h ph m : String) (resp : Response)
    (hok : PatientRecord.updatePatientRecord rt ctx s p h ph m = .ok (s1, resp)) :
    ∃ r r1 : PatientRecordDoc, getState s.patientRecord p = some r ∧
      s1.patientRecord = putState s.patientRecord p r1 ∧ r1.version = r.version + 1 := by
  unfold PatientRecord.updatePatientRecord at hok
  by_cases hv : p = "" ∨ h = ""
  · simp [hv] at hok
  · cases hr : getState s.patientRecord p with
    | none => simp [hv, hr] at hok
    | some r =>
      by_cases hc : ph ≠ "" ∧ r.dataHash ≠ ph
      · simp [hv, hr, hc] at hok
      · by_cases ha : PatientRecord._checkAccess rt s p ctx.clientID "UPDATE" = true
        · by_cases hm : m = ""
          · simp only [if_neg hv, hr, if_neg hc, ha, hm] at hok
            simp at hok
            obtain ⟨hs, _⟩ := hok
            subst hs
            exact ⟨r, _, rfl, rfl, rfl⟩
          · cases hj : rt.jsonParse m with
            | none =>
              simp only [if_neg hv, hr, if_neg hc, ha, hj] at hok
              simp [hm] at hok
            | some patch =>
              simp only [if_neg hv, hr, if_neg hc, ha, hj] at hok
              simp [hm] at hok
              obtain ⟨hs, _⟩ := hok
              subst hs
              exact ⟨r, _, rfl, rfl, rfl⟩
        · simp only [if_neg hv, hr, if_neg hc] at hok
          simp [ha] at hok

theorem PatientRecord.delete_inv (rt : Runtime) (ctx : Ctx) (s s1 : WorldState)
    (p : String) (resp : Response)
    (hok : PatientRecord.deletePatientRecord rt ctx s p = .ok (s1, resp)) :
    ∃ r r1 : PatientRecordDoc, getState s.patientRecord p = some r ∧
      s1.patientRecord = putState s.patientRecord p r1 ∧ r1.version = r.version + 1 := by
  unfold PatientRecord.deletePatientRecord at hok
  by_cases hv : p = ""
  · simp [hv] at hok
  · cases hr : getState s.patientRecord p with
    | none => simp [hv, hr] at hok
    | some r =>
      by_cases ha : PatientRecord._checkAccess rt s p ctx.clientID "DELETE" = true
      · simp only [if_neg hv, hr, ha] at hok
        simp at hok
        obtain ⟨hs, _⟩ := hok
        subst hs
        exact ⟨r, _, rfl, rfl, rfl⟩
      · simp only [if_neg hv, hr] at hok
        simp [ha] at hok

theorem versionOf_putState_other (s s1 : WorldState) (R p : String) (r1 : PatientRecordDoc)
    (hput : s1.patientRecord = putState s.patientRecord p r1) (hne : p ≠ R) :
    versionOf s1 R = versionOf s R := by
  simp [versionOf, hput, getState_putState_other _ p R r1 hne]

theorem versionOf_putState_same (s s1 : WorldState) (R : String) (r1 : PatientRecordDoc)
    (hput : s1.patientRecord = putState s.patientRecord R r1) :
    versionOf s1 R = some r1.version := by
  simp [versionOf, hput, getState_putState_same]

theorem versionOf_eq_some (s : WorldState) (R : String) (r : PatientRecordDoc)
    (h : getState s.patientRecord R = some r) : versionOf s R = some r.version := by
  simp [versionOf, h]

/-- Effect of one transaction on the version of a stored record. -/
theorem commit_version (R : String) (s : WorldState) (tx : Tx) (v : Nat)
    (hv : versionOf s R = some v) :
    versionOf (commit s tx) R =
      some (if (isRecordMutation R tx.op && succeeds s tx) = true then v + 1 else v) := by
  obtain ⟨rt, ctx, op⟩ := tx
  cases hinv : invoke rt ctx s op with
  | error e =>
    have hc : commit s ⟨rt, ctx, op⟩ = s := by simp [commit, hinv]
    have hs : succeeds s ⟨rt, ctx, op⟩ = false := by simp [succeeds, hinv, Outcome.state?]
    simp [hc, hs, hv]
  | ok res =>
    obtain ⟨s1, resp⟩ := res
    have hc : commit s ⟨rt, ctx, op⟩ = s1 := by simp [commit, hinv]
    have hs : succeeds s ⟨rt, ctx, op⟩ = true := by simp [succeeds, hinv, Outcome.state?]
    rw [hc, hs, Bool.and_true]
    cases op
    case registerPatientRecord p h m o =>
      obtain ⟨hnone, r, hput, _⟩ := PatientRecord.register_inv rt ctx s s1 p h m o resp hinv
      have hne : p ≠ R := by
        intro hpR
        subst hpR
        simp [versionOf, hnone] at hv
      rw [versionOf_putState_other s s1 R p r hput hne, hv]
      simp [isRecordMutation]
    case updatePatientRecord p h ph m =>
      obtain ⟨r, r1, hget, hput, hver⟩ := PatientRecord.update_inv rt ctx s s1 p h ph m resp hinv
      by_cases hpR : p = R
      · subst hpR
        rw [versionOf_eq_some s p r hget] at hv
        rw [versionOf_putState_same s s1 p r1 hput, hver]
        simp only [Option.some.injEq] at hv
        simp [isRecordMutation, hv]
      · rw [versionOf_putState_other s s1 R p r1 hput hpR, hv]
        simp [isRecordMutation, hpR]
    case deletePatientRecord p =>
      obtain ⟨r, r1, hget, hput, hver⟩ := PatientRecord.delete_inv rt ctx s s1 p resp hinv
      by_cases hpR : p = R
      · subst hpR
        rw [versionOf_eq_some s p r hget] at hv
        rw [versionOf_putState_same s s1 p r1 hput, hver]
        simp only [Option.some.injEq] at hv
        simp [isRecordMutation, hv]
      · rw [versionOf_putState_other s s1 R p r1 hput hpR, hv]
        simp [isRecordMutation, hpR]
    all_goals
      have hro : s1.patientRecord = s.patientRecord := by
        refine invoke_readonly_patientRecord rt ctx s s1 _ resp ?_ ?_ hinv
        · intro _
          rfl
        · intro _ _ _ _ hcontra
          cases hcontra
      rw [versionOf_of_patientRecord_eq s s1 R hro, hv]
      simp [isRecordMutation]

/-- Version of a stored record after a sequence of transactions. -/
theorem run_version (R : String) (txs : List Tx) (s : WorldState) (v : Nat)
    (hv : versionOf s R = some v) :
    versionOf (run s txs) R = some (v + countRecordMutations R s txs) := by
  induction txs generalizing s v with
  | nil => simpa [run, countRecordMutations] using hv
  | cons tx rest ih =>
    have hstep := commit_version R s tx v hv
    have hrun : run s (tx :: rest) = run (commit s tx) rest := rfl
    rw [hrun, ih (commit s tx) _ hstep]
    by_cases hm : (isRecordMutation R tx.op && succeeds s tx) = true
    · simp [countRecordMutations, hm, Nat.add_assoc]
    · simp [countRecordMutations, hm]

theorem run_append (s : WorldState) (txs more : List Tx) :
    run s (txs ++ more) = run (run s txs) more := by
  simp [run, List.foldl_append]

theorem fixtureTxs_version :
    versionOf registeredLedger "p1" = some 1 ∧
    countRecordMutations "p1" registeredLedger fixtureTxs = 2 ∧
    versionOf (run registeredLedger fixtureTxs) "p1" = some 3 := by
  refine ⟨by decide, by decide, by decide⟩

/-- C10 (monotonic version): a successful `registerPatientRecord` on R leaves
R stored with version 1; from any ledger in which R is stored with version v,
one transaction leaves it stored with version v + 1 when it is a successful
`updatePatientRecord` or `deletePatientRecord` on R and with version v
otherwise (any other function of the three contracts, a call on another record,
a failed call); hence after the registration and any sequence of transactions
containing N successful update/delete calls on R the version is 1 + N, and the
version after a longer sequence is never below the version after a prefix. -/
theorem C10_monotonic_version (rt : Runtime) (ctx : Ctx) (s : WorldState)
    (R dataHash metadata ownerMSPID : String) (s1 : WorldState) (resp : Response)
    (hreg : PatientRecord.registerPatientRecord rt ctx s R dataHash metadata ownerMSPID
      = .ok (s1, resp)) :
    versionOf s1 R = some 1 ∧
    (∀ (s0 : WorldState) (tx : Tx) (v : Nat), versionOf s0 R = some v →
      versionOf (commit s0 tx) R =
        some (if (isRecordMutation R tx.op && succeeds s0 tx) = true then v + 1 else v)) ∧
    (∀ txs : List Tx,
      versionOf (run s1 txs) R = some (1 + countRecordMutations R s1 txs)) ∧
    (∀ txs more : List Tx, ∃ v w, versionOf (run s1 txs) R = some v ∧
      versionOf (run s1 (txs ++ more)) R = some w ∧ v ≤ w) := by
  obtain ⟨_, r, hput, hver⟩ :=
    PatientRecord.register_inv rt ctx s s1 R dataHash metadata ownerMSPID resp hreg
  have h1 : versionOf s1 R = some 1 := by
    rw [versionOf_putState_same s s1 R r hput, hver]
  refine ⟨h1, fun s0 tx v hv => commit_version R s0 tx v hv,
    fun txs => run_version R txs s1 1 h1, fun txs more => ?_⟩
  have hpre := run_version R txs s1 1 h1
  refine ⟨_, _, hpre, ?_, Nat.le_add_right _ (countRecordMutations R (run s1 txs) more)⟩
  rw [run_append]
  exact run_version R more (run s1 txs) _ hpre

/-- Witness for C10: the registration of `p1` by `alice` on the empty ledger. -/
theorem C10_monotonic_version_witness :
    versionOf registeredLedger "p1" = some 1 ∧
    (∀ (s0 : WorldState) (tx : Tx) (v : Nat), versionOf s0 "p1" = some v →
      versionOf (commit s0 tx) "p1" =
        some (if (isRecordMutation "p1" tx.op && succeeds s0 tx) = true then v + 1 else v)) ∧
    (∀ txs : List Tx, versionOf (run registeredLedger txs) "p1"
      = some (1 + countRecordMutations "p1" registeredLedger txs)) ∧
    (∀ txs more : List Tx, ∃ v w, versionOf (run registeredLedger txs) "p1" = some v ∧
      versionOf (run registeredLedger (txs ++ more)) "p1" = some w ∧ v ≤ w) :=
  C10_monotonic_version (fixtureRuntime 0 0) (aliceCtx "tx1" 1700000000) WorldState.empty
    "p1" "h1" "{}" "OrgA" registeredLedger (.registered "tx1" 1700000000000) rfl

/-! ## Verification -/

theorem commit_of_error (s : WorldState) (tx : Tx) (e : ChaincodeError)
    (h : invoke tx.rt tx.ctx s tx.op = .error e) : commit s tx = s := by
  simp [commit, h]

theorem commit_of_ok (s s1 : WorldState) (tx : Tx) (resp : Response)
    (h : invoke tx.rt tx.ctx s tx.op = .ok (s1, resp)) : commit s tx = s1 := by
  simp [commit, h]

theorem AccessControl.checkAccess_congr (rt : Runtime) (s s1 : WorldState) (R I p : String)
    (h : s1.accessControl = s.accessControl) :
    AccessControl._checkAccess rt s1 R I p = AccessControl._checkAccess rt s R I p := by
  simp [AccessControl._checkAccess, h]

theorem PatientRecord.verify_ok (rt : Runtime) (ctx : Ctx) (s : WorldState) (R h : String)
    (r : PatientRecordDoc) (hR : R ≠ "") (hh : h ≠ "")
    (hstored : getState s.patientRecord R = some r)
    (hacc : PatientRecord._checkAccess rt s R ctx.clientID "READ" = true) :
    PatientRecord.verifyPatientRecord rt ctx s R h =
      .ok (PatientRecord._createAuditEntry ctx s R "VERIFY" (some h) none ctx.clientID
            ctx.timestamp, .verified (decide (r.dataHash = h)) ctx.timestamp) := by
  simp [PatientRecord.verifyPatientRecord, hR, hh, hstored, hacc]

/-- C11 (verify result): for a record stored under a non-empty `patientId`, a
caller holding READ and a non-empty hash, `verifyPatientRecord` succeeds; its
`isValid` is true exactly when the supplied hash equals the stored data hash;
it writes one audit entry, under (patientId, txId), with action VERIFY, and
changes no other audit entry, no record, no grant and no access-audit entry. -/
theorem C11_verify_result (rt : Runtime) (ctx : Ctx) (s : WorldState) (R h : String)
    (r : PatientRecordDoc) (hR : R ≠ "") (hh : h ≠ "")
    (hstored : getState s.patientRecord R = some r)
    (hacc : PatientRecord._checkAccess rt s R ctx.clientID "READ" = true) :
    ∃ (s1 : WorldState) (isValid : Bool),
      PatientRecord.verifyPatientRecord rt ctx s R h = .ok (s1, .verified isValid ctx.timestamp) ∧
      (isValid = true ↔ h = r.dataHash) ∧
      (∃ e : AuditEntry, getState s1.auditTrail (R, ctx.txID) = some e ∧
        e.action = "VERIFY" ∧ e.patientId = R ∧ e.submitter = ctx.clientID ∧
        e.newHash = some h ∧ e.timestamp = ctx.timestamp ∧ e.txId = ctx.txID) ∧
      (∀ k, k ≠ (R, ctx.txID) → getState s1.auditTrail k = getState s.auditTrail k) ∧
      s1.patientRecord = s.patientRecord ∧ s1.accessControl = s.accessControl ∧
      s1.accessAudit = s.accessAudit := by
  refine ⟨_, _, PatientRecord.verify_ok rt ctx s R h r hR hh hstored hacc, ?_, ?_, ?_,
    rfl, rfl, rfl⟩
  · simp [eq_comm]
  · exact ⟨_, getState_putState_same _ _ _, rfl, rfl, rfl, rfl, rfl, rfl⟩
  · intro k hk
    exact getState_putState_other _ _ _ _ (fun h0 => hk h0.symm)

/-- Witness for C11: `alice` verifies `p1` on the fixture ledger with the
stored hash. -/
theorem C11_verify_result_witness :
    ∃ (s1 : WorldState) (isValid : Bool),
      PatientRecord.verifyPatientRecord (fixtureRuntime 0 0) (aliceCtx "tx2" 1700000100)
        fixtureLedger "p1" "h1" = .ok (s1, .verified isValid (aliceCtx "tx2" 1700000100).timestamp) ∧
      (isValid = true ↔ "h1" = fixtureRecord.dataHash) ∧
      (∃ e : AuditEntry, getState s1.auditTrail ("p1", (aliceCtx "tx2" 1700000100).txID) = some e ∧
        e.action = "VERIFY" ∧ e.patientId = "p1" ∧
        e.submitter = (aliceCtx "tx2" 1700000100).clientID ∧
        e.newHash = some "h1" ∧ e.timestamp = (aliceCtx "tx2" 1700000100).timestamp ∧
        e.txId = (aliceCtx "tx2" 1700000100).txID) ∧
      (∀ k, k ≠ ("p1", (aliceCtx "tx2" 1700000100).txID) →
        getState s1.auditTrail k = getState fixtureLedger.auditTrail k) ∧
      s1.patientRecord = fixtureLedger.patientRecord ∧
      s1.accessControl = fixtureLedger.accessControl ∧
      s1.accessAudit = fixtureLedger.accessAudit :=
  C11_verify_result (fixtureRuntime 0 0) (aliceCtx "tx2" 1700000100) fixtureLedger "p1" "h1"
    fixtureRecord (by decide) (by decide) rfl (by decide)

theorem PatientRecord.verify_error (rt : Runtime) (ctx : Ctx) (s : WorldState) (id h : String) :
    Outcome.error? (PatientRecord.verifyPatientRecord rt ctx s id h) =
      if id = "" ∨ h = "" then some .ValidationError
      else
        match getState s.patientRecord id with
        | none => some .NotFound
        | some _ =>
          if PatientRecord._checkAccess rt s id ctx.clientID "READ" = true then none
          else some .PermissionDenied := by
  unfold PatientRecord.verifyPatientRecord
  by_cases hv : id = "" ∨ h = ""
  · simp [hv, Outcome.error?]
  · cases hr : getState s.patientRecord id with
    | none => simp [hv, Outcome.error?]
    | some r =>
      by_cases ha : PatientRecord._checkAccess rt s id ctx.clientID "READ" = true
      · simp [hv, ha, Outcome.error?]
      · simp [hv, ha, Outcome.error?]

theorem PatientRecord.verify_isValid (rt : Runtime) (ctx : Ctx) (s : WorldState) (id h : String) :
    Outcome.isValid? (PatientRecord.verifyPatientRecord rt ctx s id h) =
      if id = "" ∨ h = "" then none
      else
        match getState s.patientRecord id with
        | none => none
        | some r =>
          if PatientRecord._checkAccess rt s id ctx.clientID "READ" = true then
            some (decide (r.dataHash = h))
          else none := by
  unfold PatientRecord.verifyPatientRecord
  by_cases hv : id = "" ∨ h = ""
  · simp [hv, Outcome.isValid?]
  · cases hr : getState s.patientRecord id with
    | none => simp [hv, Outcome.isValid?]
    | some r =>
      by_cases ha : PatientRecord._checkAccess rt s id ctx.clientID "READ" = true
      · simp [hv, ha, Outcome.isValid?]
      · simp [hv, ha, Outcome.isValid?]

theorem PatientRecord.verify_commit_frame (rt : Runtime) (ctx : Ctx) (s : WorldState)
    (id h : String) :
    (commit s ⟨rt, ctx, .verifyPatientRecord id h⟩).patientRecord = s.patientRecord ∧
    (commit s ⟨rt, ctx, .verifyPatientRecord id h⟩).accessControl = s.accessControl ∧
    (commit s ⟨rt, ctx, .verifyPatientRecord id h⟩).accessAudit = s.accessAudit := by
  cases hinv : invoke rt ctx s (.verifyPatientRecord id h) with
  | error e =>
    rw [commit_of_error s ⟨rt, ctx, .verifyPatientRecord id h⟩ e hinv]
    exact ⟨rfl, rfl, rfl⟩
  | ok res =>
    obtain ⟨s1, resp⟩ := res
    rw [commit_of_ok s s1 ⟨rt, ctx, .verifyPatientRecord id h⟩ resp hinv]
    simp only [invoke, PatientRecord.verifyPatientRecord] at hinv
    repeat' split at hinv
    all_goals cases hinv
    exact ⟨rfl, rfl, rfl⟩

/-- C12 (idempotent verify, as the code has it): for every ledger, caller,
`patientId` and hash, the transaction `verifyPatientRecord` leaves every stored
patient record and every stored access grant as they were; a second
`verifyPatientRecord` with the same arguments by the same caller, run directly
on the ledger left by the first, fails with the same error or succeeds with the
same `isValid` as the first whenever the READ check on the caller's grant
gives the same answer at the second evaluation as at the first. -/
theorem C12_idempotent_verify (rt1 : Runtime) (ctx1 : Ctx) (s : WorldState) (id h : String) :
    (commit s ⟨rt1, ctx1, .verifyPatientRecord id h⟩).patientRecord = s.patientRecord ∧
    (commit s ⟨rt1, ctx1, .verifyPatientRecord id h⟩).accessControl = s.accessControl ∧
    (∀ (rt2 : Runtime) (ctx2 : Ctx), ctx2.clientID = ctx1.clientID →
      PatientRecord._checkAccess rt2 s id ctx1.clientID "READ"
        = PatientRecord._checkAccess rt1 s id ctx1.clientID "READ" →
      Outcome.error? (PatientRecord.verifyPatientRecord rt2 ctx2
          (commit s ⟨rt1, ctx1, .verifyPatientRecord id h⟩) id h)
        = Outcome.error? (PatientRecord.verifyPatientRecord rt1 ctx1 s id h) ∧
      Outcome.isValid? (PatientRecord.verifyPatientRecord rt2 ctx2
          (commit s ⟨rt1, ctx1, .verifyPatientRecord id h⟩) id h)
        = Outcome.isValid? (PatientRecord.verifyPatientRecord rt1 ctx1 s id h)) := by
  obtain ⟨hrec, hacl, _⟩ := PatientRecord.verify_commit_frame rt1 ctx1 s id h
  refine ⟨hrec, hacl, fun rt2 ctx2 hcaller hsame => ?_⟩
  have hchk : PatientRecord._checkAccess rt2
      (commit s ⟨rt1, ctx1, .verifyPatientRecord id h⟩) id ctx2.clientID "READ"
        = PatientRecord._checkAccess rt1 s id ctx1.clientID "READ" := by
    rw [hcaller, PatientRecord.checkAccess_eq, AccessControl.checkAccess_congr rt2 s _ id
      ctx1.clientID "READ" hacl, ← PatientRecord.checkAccess_eq, hsame]
  rw [PatientRecord.verify_error, PatientRecord.verify_error, PatientRecord.verify_isValid,
    PatientRecord.verify_isValid, hrec, hchk]
  exact ⟨rfl, rfl⟩

/-- Witness for C12: `alice`, whose grant on `p1` has no expiry, verifies `p1`
twice, one hour apart. -/
theorem C12_idempotent_verify_witness :
    Outcome.error? (PatientRecord.verifyPatientRecord (fixtureRuntime 3600000 0)
        (aliceCtx "tx3" 1700003700)
        (commit fixtureLedger ⟨fixtureRuntime 0 0, aliceCtx "tx2" 1700000100,
          .verifyPatientRecord "p1" "h1"⟩) "p1" "h1")
      = Outcome.error? (PatientRecord.verifyPatientRecord (fixtureRuntime 0 0)
        (aliceCtx "tx2" 1700000100) fixtureLedger "p1" "h1") ∧
    Outcome.isValid? (PatientRecord.verifyPatientRecord (fixtureRuntime 3600000 0)
        (aliceCtx "tx3" 1700003700)
        (commit fixtureLedger ⟨fixtureRuntime 0 0, aliceCtx "tx2" 1700000100,
          .verifyPatientRecord "p1" "h1"⟩) "p1" "h1")
      = Outcome.isValid? (PatientRecord.verifyPatientRecord (fixtureRuntime 0 0)
        (aliceCtx "tx2" 1700000100) fixtureLedger "p1" "h1") :=
  (C12_idempotent_verify (fixtureRuntime 0 0) (aliceCtx "tx2" 1700000100) fixtureLedger
    "p1" "h1").2.2 (fixtureRuntime 3600000 0) (aliceCtx "tx3" 1700003700) rfl (by decide)

/-- Counterexample to C12 as stated: `bob` holds `READ` on `p1` until
2025-12-31T23:59:59Z.  His first `verifyPatientRecord(p1, h1)`, evaluated one
second before that instant, succeeds with `isValid = true`; the same call run
directly afterwards, evaluated one second after it, fails with
PermissionDenied. -/
theorem C12_expiry_between_calls_counterexample :
    Outcome.isValid? (PatientRecord.verifyPatientRecord (fixtureRuntime 1767225598000 0)
        (bobCtx "tx2" 1767225598) fixtureLedger "p1" "h1") = some true ∧
    Outcome.error? (PatientRecord.verifyPatientRecord (fixtureRuntime 1767225598000 0)
        (bobCtx "tx2" 1767225598) fixtureLedger "p1" "h1") = none ∧
    Outcome.error? (PatientRecord.verifyPatientRecord (fixtureRuntime 1767225600000 0)
        (bobCtx "tx3" 1767225600)
        (commit fixtureLedger ⟨fixtureRuntime 1767225598000 0, bobCtx "tx2" 1767225598,
          .verifyPatientRecord "p1" "h1"⟩) "p1" "h1") = some .PermissionDenied := by
  refine ⟨by decide, by decide, by decide⟩

/-! ## Soft deletion -/

theorem PatientRecord.delete_ok (rt : Runtime) (ctx : Ctx) (s : WorldState) (R : String)
    (r : PatientRecordDoc) (hR : R ≠ "") (hstored : getState s.patientRecord R = some r)
    (hacc : PatientRecord._checkAccess rt s R ctx.clientID "DELETE" = true) :
    PatientRecord.deletePatientRecord rt ctx s R =
      .ok (PatientRecord._createAuditEntry ctx
            { s with patientRecord := (putState s.patientRecord R
                { r with status := .INACTIVE, updatedAt := ctx.timestamp,
                         version := r.version + 1, txId := ctx.txID,
                         submitter := ctx.clientID }) }
            R "DELETE" none none ctx.clientID ctx.timestamp,
          .deleted ctx.txID ctx.timestamp) := by
  simp [PatientRecord.deletePatientRecord, hR, hstored, hacc]

/-- C13 (soft delete): for a record stored under a non-empty `patientId`, a
caller holding DELETE makes `deletePatientRecord` succeed, after which the
record is still stored under the same key with status INACTIVE, the old version
plus one, and unchanged `dataHash`, `metadata`, `ownerMSPID` and `createdAt`; a
caller for whom the DELETE check is false gets PermissionDenied and the ledger
after the transaction is the ledger before it. -/
theorem C13_soft_delete (rt : Runtime) (ctx : Ctx) (s : WorldState) (R : String)
    (r : PatientRecordDoc) (hR : R ≠ "") (hstored : getState s.patientRecord R = some r) :
    (PatientRecord._checkAccess rt s R ctx.clientID "DELETE" = true →
      ∃ (s1 : WorldState) (r1 : PatientRecordDoc),
        PatientRecord.deletePatientRecord rt ctx s R
          = .ok (s1, .deleted ctx.txID ctx.timestamp) ∧
        getState s1.patientRecord R = some r1 ∧
        r1.status = Status.INACTIVE ∧ r1.version = r.version + 1 ∧
        r1.dataHash = r.dataHash ∧ r1.metadata = r.metadata ∧
        r1.ownerMSPID = r.ownerMSPID ∧ r1.createdAt = r.createdAt ∧
        r1.patientId = r.patientId) ∧
    (PatientRecord._checkAccess rt s R ctx.clientID "DELETE" = false →
      PatientRecord.deletePatientRecord rt ctx s R = .error .PermissionDenied ∧
      commit s ⟨rt, ctx, .deletePatientRecord R⟩ = s) := by
  refine ⟨fun hacc => ?_, fun hno => ?_⟩
  · refine ⟨_, { r with status := .INACTIVE, updatedAt := ctx.timestamp,
                        version := r.version + 1, txId := ctx.txID,
                        submitter := ctx.clientID },
      PatientRecord.delete_ok rt ctx s R r hR hstored hacc, ?_, rfl, rfl, rfl, rfl, rfl, rfl, rfl⟩
    simp [PatientRecord._createAuditEntry, getState_putState_same]
  · simp [commit, invoke, PatientRecord.deletePatientRecord, hR, hstored, hno]

/-- Witness for C13: on the fixture ledger `alice` holds DELETE on `p1` and
`bob` does not. -/
theorem C13_soft_delete_witness :
    (∃ (s1 : WorldState) (r1 : PatientRecordDoc),
        PatientRecord.deletePatientRecord (fixtureRuntime 0 0) (aliceCtx "tx2" 1700000100)
          fixtureLedger "p1" = .ok (s1, .deleted (aliceCtx "tx2" 1700000100).txID
            (aliceCtx "tx2" 1700000100).timestamp) ∧
        getState s1.patientRecord "p1" = some r1 ∧
        r1.status = Status.INACTIVE ∧ r1.version = fixtureRecord.version + 1 ∧
        r1.dataHash = fixtureRecord.dataHash ∧ r1.metadata = fixtureRecord.metadata ∧
        r1.ownerMSPID = fixtureRecord.ownerMSPID ∧ r1.createdAt = fixtureRecord.createdAt ∧
        r1.patientId = fixtureRecord.patientId) ∧
    (PatientRecord.deletePatientRecord (fixtureRuntime 0 0) (bobCtx "tx2" 1700000100)
        fixtureLedger "p1" = .error .PermissionDenied ∧
      commit fixtureLedger ⟨fixtureRuntime 0 0, bobCtx "tx2" 1700000100,
        .deletePatientRecord "p1"⟩ = fixtureLedger) :=
  ⟨(C13_soft_delete (fixtureRuntime 0 0) (aliceCtx "tx2" 1700000100) fixtureLedger "p1"
      fixtureRecord (by decide) rfl).1 (by decide),
   (C13_soft_delete (fixtureRuntime 0 0) (bobCtx "tx2" 1700000100) fixtureLedger "p1"
      fixtureRecord (by decide) rfl).2 (by decide)⟩

theorem PatientRecord.update_inv_status (rt : Runtime) (ctx : Ctx) (s s1 : WorldState)
    (p h ph m : String) (resp : Response)
    (hok : PatientRecord.updatePatientRecord rt ctx s p h ph m = .ok (s1, resp)) :
    ∃ r r1 : PatientRecordDoc, getState s.patientRecord p = some r ∧
      s1.patientRecord = putState s.patientRecord p r1 ∧ r1.status = r.status := by
  unfold PatientRecord.updatePatientRecord at hok
  by_cases hv : p = "" ∨ h = ""
  · simp [hv] at hok
  · cases hr : getState s.patientRecord p with
    | none => simp [hv, hr] at hok
    | some r =>
      by_cases hc : ph ≠ "" ∧ r.dataHash ≠ ph
      · simp [hv, hr, hc] at hok
      · by_cases ha : PatientRecord._checkAccess rt s p ctx.clientID "UPDATE" = true
        · by_cases hm : m = ""
          · simp only [if_neg hv, hr, if_neg hc, ha, hm] at hok
            simp at hok
            obtain ⟨hs, _⟩ := hok
            subst hs
            exact ⟨r, _, rfl, rfl, rfl⟩
          · cases hj : rt.jsonParse m with
            | none =>
              simp only [if_neg hv, hr, if_neg hc, ha, hj] at hok
              simp [hm] at hok
            | some patch =>
              simp only [if_neg hv, hr, if_neg hc, ha, hj] at hok
              simp [hm] at hok
              obtain ⟨hs, _⟩ := hok
              subst hs
              exact ⟨r, _, rfl, rfl, rfl⟩
        · simp only [if_neg hv, hr, if_neg hc] at hok
          simp [ha] at hok

theorem PatientRecord.delete_inv_status (rt : Runtime) (ctx : Ctx) (s s1 : WorldState)
    (p : String) (resp : Response)
    (hok : PatientRecord.deletePatientRecord rt ctx s p = .ok (s1, resp)) :
    ∃ r r1 : PatientRecordDoc, getState s.patientRecord p = some r ∧
      s1.patientRecord = putState s.patientRecord p r1 ∧ r1.status = Status.INACTIVE := by
  unfold PatientRecord.deletePatientRecord at hok
  by_cases hv : p = ""
  · simp [hv] at hok
  · cases hr : getState s.patientRecord p with
    | none => simp [hv, hr] at hok
    | some r =>
      by_cases ha : PatientRecord._checkAccess rt s p ctx.clientID "DELETE" = true
      · simp only [if_neg hv, hr, ha] at hok
        simp at hok
        obtain ⟨hs, _⟩ := hok
        subst hs
        exact ⟨r, _, rfl, rfl, rfl⟩
      · simp only [if_neg hv, hr] at hok
        simp [ha] at hok

/-- Effect of one transaction on a stored record: it stays stored, and stays
INACTIVE when it was. -/
theorem commit_record_kept (R : String) (s : WorldState) (tx : Tx) (r : PatientRecordDoc)
    (hstored : getState s.patientRecord R = some r) :
    ∃ r1 : PatientRecordDoc, getState (commit s tx).patientRecord R = some r1 ∧
      (r.status = Status.INACTIVE → r1.status = Status.INACTIVE) := by
  obtain ⟨rt, ctx, op⟩ := tx
  cases hinv : invoke rt ctx s op with
  | error e =>
    rw [commit_of_error s ⟨rt, ctx, op⟩ e hinv]
    exact ⟨r, hstored, fun h => h⟩
  | ok res =>
    obtain ⟨s1, resp⟩ := res
    rw [commit_of_ok s s1 ⟨rt, ctx, op⟩ resp hinv]
    cases op
    case registerPatientRecord p h m o =>
      obtain ⟨hnone, r0, hput, _⟩ := PatientRecord.register_inv rt ctx s s1 p h m o resp hinv
      have hne : p ≠ R := by
        intro hpR
        subst hpR
        rw [hnone] at hstored
        cases hstored
      rw [hput, getState_putState_other _ p R r0 hne]
      exact ⟨r, hstored, fun h => h⟩
    case updatePatientRecord p h ph m =>
      obtain ⟨r0, r1, hget, hput, hst⟩ :=
        PatientRecord.update_inv_status rt ctx s s1 p h ph m resp hinv
      by_cases hpR : p = R
      · subst hpR
        rw [hstored] at hget
        cases hget
        rw [hput, getState_putState_same]
        exact ⟨r1, rfl, fun h => hst.trans h⟩
      · rw [hput, getState_putState_other _ p R r1 hpR]
        exact ⟨r, hstored, fun h => h⟩
    case deletePatientRecord p =>
      obtain ⟨r0, r1, hget, hput, hst⟩ :=
        PatientRecord.delete_inv_status rt ctx s s1 p resp hinv
      by_cases hpR : p = R
      · subst hpR
        rw [hput, getState_putState_same]
        exact ⟨r1, rfl, fun _ => hst⟩
      · rw [hput, getState_putState_other _ p R r1 hpR]
        exact ⟨r, hstored, fun h => h⟩
    all_goals
      have hro : s1.patientRecord = s.patientRecord := by
        refine invoke_readonly_patientRecord rt ctx s s1 _ resp ?_ ?_ hinv
        · intro _
          rfl
        · intro _ _ _ _ hcontra
          cases hcontra
      rw [hro]
      exact ⟨r, hstored, fun h => h⟩

theorem run_record_kept (R : String) (txs : List Tx) (s : WorldState) (r : PatientRecordDoc)
    (hstored : getState s.patientRecord R = some r) :
    ∃ r1 : PatientRecordDoc, getState (run s txs).patientRecord R = some r1 ∧
      (r.status = Status.INACTIVE → r1.status = Status.INACTIVE) := by
  induction txs generalizing s r with
  | nil => exact ⟨r, hstored, fun h => h⟩
  | cons tx rest ih =>
    obtain ⟨r1, h1, hst1⟩ := commit_record_kept R s tx r hstored
    obtain ⟨r2, h2, hst2⟩ := ih (commit s tx) r1 h1
    exact ⟨r2, h2, fun h => hst2 (hst1 h)⟩

/-- C14 (INACTIVE is terminal): when a record for R is stored with status
INACTIVE, then after any one transaction of the three contracts, with any
caller, runtime and arguments, and after any sequence of them, a record for R
is still stored and its status is INACTIVE; and from any ledger no transaction
removes a stored patient record. -/
theorem C14_inactive_terminal (s : WorldState) (R : String) (r : PatientRecordDoc)
    (hstored : getState s.patientRecord R = some r) (hin : r.status = Status.INACTIVE) :
    (∀ tx : Tx, ∃ r1 : PatientRecordDoc,
      getState (commit s tx).patientRecord R = some r1 ∧ r1.status = Status.INACTIVE) ∧
    (∀ txs : List Tx, ∃ r1 : PatientRecordDoc,
      getState (run s txs).patientRecord R = some r1 ∧ r1.status = Status.INACTIVE) ∧
    (∀ (s0 : WorldState) (r0 : PatientRecordDoc) (tx : Tx),
      getState s0.patientRecord R = some r0 →
      ∃ r1 : PatientRecordDoc, getState (commit s0 tx).patientRecord R = some r1) := by
  refine ⟨fun tx => ?_, fun txs => ?_, fun s0 r0 tx h0 => ?_⟩
  · obtain ⟨r1, h1, hst⟩ := commit_record_kept R s tx r hstored
    exact ⟨r1, h1, hst hin⟩
  · obtain ⟨r1, h1, hst⟩ := run_record_kept R txs s r hstored
    exact ⟨r1, h1, hst hin⟩
  · obtain ⟨r1, h1, _⟩ := commit_record_kept R s0 tx r0 h0
    exact ⟨r1, h1⟩

/-- Witness for C14: record `p1` of the ledger left by `fixtureTxs` is
INACTIVE. -/
theorem C14_inactive_terminal_witness :
    (∀ tx : Tx, ∃ r1 : PatientRecordDoc,
      getState (commit deletedLedger tx).patientRecord "p1" = some r1 ∧
        r1.status = Status.INACTIVE) ∧
    (∀ txs : List Tx, ∃ r1 : PatientRecordDoc,
      getState (run deletedLedger txs).patientRecord "p1" = some r1 ∧
        r1.status = Status.INACTIVE) ∧
    (∀ (s0 : WorldState) (r0 : PatientRecordDoc) (tx : Tx),
      getState s0.patientRecord "p1" = some r0 →
      ∃ r1 : PatientRecordDoc, getState (commit s0 tx).patientRecord "p1" = some r1) :=
  C14_inactive_terminal deletedLedger "p1"
    { fixtureRecord with dataHash := "h2", metadata := spread (.obj []) (.obj []),
                         createdAt := 1700000000000, updatedAt := 1700000400000, version := 3,
                         status := .INACTIVE, txId := "tx5" }
    rfl rfl

/-! ## Grant mutations -/

theorem PatientRecord.update_inv_frame (rt : Runtime) (ctx : Ctx) (s s1 : WorldState)
    (p h ph m : String) (resp : Response)
    (hok : PatientRecord.updatePatientRecord rt ctx s p h ph m = .ok (s1, resp)) :
    s1.accessControl = s.accessControl ∧ s1.accessAudit = s.accessAudit := by
  unfold PatientRecord.updatePatientRecord at hok
  by_cases hv : p = "" ∨ h = ""
  · simp [hv] at hok
  · cases hr : getState s.patientRecord p with
    | none => simp [hv, hr] at hok
    | some r =>
      by_cases hc : ph ≠ "" ∧ r.dataHash ≠ ph
      · simp [hv, hr, hc] at hok
      · by_cases ha : PatientRecord._checkAccess rt s p ctx.clientID "UPDATE" = true
        · by_cases hm : m = ""
          · simp only [if_neg hv, hr, if_neg hc, ha, hm] at hok
            simp at hok
            obtain ⟨hs, _⟩ := hok
            subst hs
            exact ⟨rfl, rfl⟩
          · cases hj : rt.jsonParse m with
            | none =>
              simp only [if_neg hv, hr, if_neg hc, ha, hj] at hok
              simp [hm] at hok
            | some patch =>
              simp only [if_neg hv, hr, if_neg hc, ha, hj] at hok
              simp [hm] at hok
              obtain ⟨hs, _⟩ := hok
              subst hs
              exact ⟨rfl, rfl⟩
        · simp only [if_neg hv, hr, if_neg hc] at hok
          simp [ha] at hok

theorem PatientRecord.delete_inv_frame (rt : Runtime) (ctx : Ctx) (s s1 : WorldState)
    (p : String) (resp : Response)
    (hok : PatientRecord.deletePatientRecord rt ctx s p = .ok (s1, resp)) :
    s1.accessControl = s.accessControl ∧ s1.accessAudit = s.accessAudit := by
  unfold PatientRecord.deletePatientRecord at hok
  by_cases hv : p = ""
  · simp [hv] at hok
  · cases hr : getState s.patientRecord p with
    | none => simp [hv, hr] at hok
    | some r =>
      by_cases ha : PatientRecord._checkAccess rt s p ctx.clientID "DELETE" = true
      · simp only [if_neg hv, hr, ha] at hok
        simp at hok
        obtain ⟨hs, _⟩ := hok
        subst hs
        exact ⟨rfl, rfl⟩
      · simp only [if_neg hv, hr] at hok
        simp [ha] at hok

/-- Each of the six grant-mutating functions throws when the submitter's
`GRANT` check is false. -/
theorem invoke_grant_denied (rt : Runtime) (ctx : Ctx) (s : WorldState) (op : Op) (R : String)
    (htarget : grantTarget op = some R)
    (hno : AccessControl._checkAccess rt s R ctx.clientID "GRANT" = false) :
    ∃ e, invoke rt ctx s op = .error e := by
  have hno1 : PatientRecord._checkAccess rt s R ctx.clientID "GRANT" = false := hno
  cases op <;> simp only [grantTarget, Option.some.injEq] at htarget <;> try cases htarget
  case prGrantAccess g ps e =>
    by_cases hv : R = "" ∨ g = "" ∨ ps = ""
    · exact ⟨.ValidationError, by simp [invoke, PatientRecord.grantAccess, hv]⟩
    · exact ⟨.PermissionDenied, by simp [invoke, PatientRecord.grantAccess, hv, hno1]⟩
  case prRevokeAccess g =>
    by_cases hv : R = "" ∨ g = ""
    · exact ⟨.ValidationError, by simp [invoke, PatientRecord.revokeAccess, hv]⟩
    · exact ⟨.PermissionDenied, by simp [invoke, PatientRecord.revokeAccess, hv, hno1]⟩
  case grantAccess g ps e =>
    by_cases hv : R = "" ∨ g = "" ∨ ps = ""
    · exact ⟨.ValidationError, by simp [invoke, AccessControl.grantAccess, hv]⟩
    · exact ⟨.PermissionDenied, by simp [invoke, AccessControl.grantAccess, hv, hno]⟩
  case revokeAccess g =>
    by_cases hv : R = "" ∨ g = ""
    · exact ⟨.ValidationError, by simp [invoke, AccessControl.revokeAccess, hv]⟩
    · exact ⟨.PermissionDenied, by simp [invoke, AccessControl.revokeAccess, hv, hno]⟩
  case updateAccessExpiry g e =>
    by_cases hv : R = "" ∨ g = ""
    · exact ⟨.ValidationError, by simp [invoke, AccessControl.updateAccessExpiry, hv]⟩
    · exact ⟨.PermissionDenied, by simp [invoke, AccessControl.updateAccessExpiry, hv, hno]⟩
  case updateAccessPermissions g ps =>
    by_cases hv : R = "" ∨ g = "" ∨ ps = ""
    · exact ⟨.ValidationError, by simp [invoke, AccessControl.updateAccessPermissions, hv]⟩
    · exact ⟨.PermissionDenied, by simp [invoke, AccessControl.updateAccessPermissions, hv, hno]⟩

/-- A transaction that is neither a registration nor a grant mutation whose
`GRANT` check passes leaves every stored grant as it was. -/
theorem commit_accessControl_frame (s : WorldState) (tx : Tx)
    (hreg : isRegister tx.op = false)
    (hgt : ∀ R, grantTarget tx.op = some R →
      AccessControl._checkAccess tx.rt s R tx.ctx.clientID "GRANT" = false) :
    (commit s tx).accessControl = s.accessControl := by
  obtain ⟨rt, ctx, op⟩ := tx
  cases hinv : invoke rt ctx s op with
  | error e => rw [commit_of_error s ⟨rt, ctx, op⟩ e hinv]
  | ok res =>
    obtain ⟨s1, resp⟩ := res
    rw [commit_of_ok s s1 ⟨rt, ctx, op⟩ resp hinv]
    cases op
    case registerPatientRecord p h m o => simp [isRegister] at hreg
    case updatePatientRecord p h ph m =>
      exact (PatientRecord.update_inv_frame rt ctx s s1 p h ph m resp hinv).1
    case deletePatientRecord p =>
      exact (PatientRecord.delete_inv_frame rt ctx s s1 p resp hinv).1
    case prGrantAccess p g ps e =>
      obtain ⟨e1, he1⟩ := invoke_grant_denied rt ctx s (.prGrantAccess p g ps e) p rfl (hgt p rfl)
      rw [he1] at hinv
      cases hinv
    case prRevokeAccess p g =>
      obtain ⟨e1, he1⟩ := invoke_grant_denied rt ctx s (.prRevokeAccess p g) p rfl (hgt p rfl)
      rw [he1] at hinv
      cases hinv
    case grantAccess p g ps e =>
      obtain ⟨e1, he1⟩ := invoke_grant_denied rt ctx s (.grantAccess p g ps e) p rfl (hgt p rfl)
      rw [he1] at hinv
      cases hinv
    case revokeAccess p g =>
      obtain ⟨e1, he1⟩ := invoke_grant_denied rt ctx s (.revokeAccess p g) p rfl (hgt p rfl)
      rw [he1] at hinv
      cases hinv
    case updateAccessExpiry p g e =>
      obtain ⟨e1, he1⟩ := invoke_grant_denied rt ctx s (.updateAccessExpiry p g e) p rfl (hgt p rfl)
      rw [he1] at hinv
      cases hinv
    case updateAccessPermissions p g ps =>
      obtain ⟨e1, he1⟩ := invoke_grant_denied rt ctx s (.updateAccessPermissions p g ps) p rfl (hgt p rfl)
      rw [he1] at hinv
      cases hinv
    all_goals
      simp only [invoke, PatientRecord.initLedger, PatientRecord.verifyPatientRecord,
        PatientRecord.getPatientRecord, PatientRecord.getAuditTrail, AccessControl.initLedger,
        AccessControl.getAccessControlList, AccessControl.checkAccess,
        AuditTrail.initLedger, AuditTrail.createAuditEntry, AuditTrail.getAuditTrail,
        AuditTrail.getAuditTrailByDateRange, AuditTrail.getAuditTrailByAction,
        AuditTrail.getAuditTrailBySubmitter, AuditTrail.getAuditEntryByTxId] at hinv
      repeat' split at hinv
      all_goals cases hinv <;> rfl

/-- C15 (grant mutations require GRANT): when the submitter's GRANT check on
a (non-empty) resource R is false, `grantAccess`, `revokeAccess`,
`updateAccessExpiry` and `updateAccessPermissions` of `access-control.js` and
`grantAccess`, `revokeAccess` of `patient-record.js`, called with their
required arguments present, fail with PermissionDenied and the ledger after
the transaction is the ledger before it; and from any ledger, a transaction
that changes a stored grant is either `registerPatientRecord` or one of these
six functions with the submitter's GRANT check true. -/
theorem C15_grant_mutations_require_GRANT (rt : Runtime) (ctx : Ctx) (s : WorldState)
    (R G ps e : String) (hR : R ≠ "") (hG : G ≠ "") (hps : ps ≠ "")
    (hno : AccessControl._checkAccess rt s R ctx.clientID "GRANT" = false) :
    (AccessControl.grantAccess rt ctx s R G ps e = .error .PermissionDenied ∧
      AccessControl.revokeAccess rt ctx s R G = .error .PermissionDenied ∧
      AccessControl.updateAccessExpiry rt ctx s R G e = .error .PermissionDenied ∧
      AccessControl.updateAccessPermissions rt ctx s R G ps = .error .PermissionDenied ∧
      PatientRecord.grantAccess rt ctx s R G ps e = .error .PermissionDenied ∧
      PatientRecord.revokeAccess rt ctx s R G = .error .PermissionDenied) ∧
    (commit s ⟨rt, ctx, .grantAccess R G ps e⟩ = s ∧
      commit s ⟨rt, ctx, .revokeAccess R G⟩ = s ∧
      commit s ⟨rt, ctx, .updateAccessExpiry R G e⟩ = s ∧
      commit s ⟨rt, ctx, .updateAccessPermissions R G ps⟩ = s ∧
      commit s ⟨rt, ctx, .prGrantAccess R G ps e⟩ = s ∧
      commit s ⟨rt, ctx, .prRevokeAccess R G⟩ = s) ∧
    (∀ (s0 : WorldState) (tx : Tx), (commit s0 tx).accessControl ≠ s0.accessControl →
      isRegister tx.op = true ∨
      ∃ R0, grantTarget tx.op = some R0 ∧
        AccessControl._checkAccess tx.rt s0 R0 tx.ctx.clientID "GRANT" = true) := by
  have hno1 : PatientRecord._checkAccess rt s R ctx.clientID "GRANT" = false := hno
  have h1 : AccessControl.grantAccess rt ctx s R G ps e = .error .PermissionDenied := by
    simp [AccessControl.grantAccess, hR, hG, hps, hno]
  have h2 : AccessControl.revokeAccess rt ctx s R G = .error .PermissionDenied := by
    simp [AccessControl.revokeAccess, hR, hG, hno]
  have h3 : AccessControl.updateAccessExpiry rt ctx s R G e = .error .PermissionDenied := by
    simp [AccessControl.updateAccessExpiry, hR, hG, hno]
  have h4 : AccessControl.updateAccessPermissions rt ctx s R G ps = .error .PermissionDenied := by
    simp [AccessControl.updateAccessPermissions, hR, hG, hps, hno]
  have h5 : PatientRecord.grantAccess rt ctx s R G ps e = .error .PermissionDenied := by
    simp [PatientRecord.grantAccess, hR, hG, hps, hno1]
  have h6 : PatientRecord.revokeAccess rt ctx s R G = .error .PermissionDenied := by
    simp [PatientRecord.revokeAccess, hR, hG, hno1]
  refine ⟨⟨h1, h2, h3, h4, h5, h6⟩,
    ⟨commit_of_error s ⟨rt, ctx, .grantAccess R G ps e⟩ _ h1,
     commit_of_error s ⟨rt, ctx, .revokeAccess R G⟩ _ h2,
     commit_of_error s ⟨rt, ctx, .updateAccessExpiry R G e⟩ _ h3,
     commit_of_error s ⟨rt, ctx, .updateAccessPermissions R G ps⟩ _ h4,
     commit_of_error s ⟨rt, ctx, .prGrantAccess R G ps e⟩ _ h5,
     commit_of_error s ⟨rt, ctx, .prRevokeAccess R G⟩ _ h6⟩, fun s0 tx hchg => ?_⟩
  by_contra hcon
  rw [not_or] at hcon
  obtain ⟨hnreg, hngt⟩ := hcon
  refine hchg (commit_accessControl_frame s0 tx (by simpa using hnreg) (fun R0 hR0 => ?_))
  cases hchk : AccessControl._checkAccess tx.rt s0 R0 tx.ctx.clientID "GRANT" with
  | false => rfl
  | true => exact absurd ⟨R0, hR0, hchk⟩ hngt

/-- Witness for C15: `bob`, who holds only `READ` on `p1`, submits the six
grant mutations for `carol`. -/
theorem C15_grant_mutations_require_GRANT_witness :
    (AccessControl.grantAccess (fixtureRuntime 0 0) (bobCtx "tx2" 1700000100) fixtureLedger
        "p1" "carol" "READ" "" = .error .PermissionDenied ∧
      AccessControl.revokeAccess (fixtureRuntime 0 0) (bobCtx "tx2" 1700000100) fixtureLedger
        "p1" "carol" = .error .PermissionDenied ∧
      AccessControl.updateAccessExpiry (fixtureRuntime 0 0) (bobCtx "tx2" 1700000100)
        fixtureLedger "p1" "carol" "" = .error .PermissionDenied ∧
      AccessControl.updateAccessPermissions (fixtureRuntime 0 0) (bobCtx "tx2" 1700000100)
        fixtureLedger "p1" "carol" "READ" = .error .PermissionDenied ∧
      PatientRecord.grantAccess (fixtureRuntime 0 0) (bobCtx "tx2" 1700000100) fixtureLedger
        "p1" "carol" "READ" "" = .error .PermissionDenied ∧
      PatientRecord.revokeAccess (fixtureRuntime 0 0) (bobCtx "tx2" 1700000100) fixtureLedger
        "p1" "carol" = .error .PermissionDenied) ∧
    (commit fixtureLedger ⟨fixtureRuntime 0 0, bobCtx "tx2" 1700000100,
        .grantAccess "p1" "carol" "READ" ""⟩ = fixtureLedger ∧
      commit fixtureLedger ⟨fixtureRuntime 0 0, bobCtx "tx2" 1700000100,
        .revokeAccess "p1" "carol"⟩ = fixtureLedger ∧
      commit fixtureLedger ⟨fixtureRuntime 0 0, bobCtx "tx2" 1700000100,
        .updateAccessExpiry "p1" "carol" ""⟩ = fixtureLedger ∧
      commit fixtureLedger ⟨fixtureRuntime 0 0, bobCtx "tx2" 1700000100,
        .updateAccessPermissions "p1" "carol" "READ"⟩ = fixtureLedger ∧
      commit fixtureLedger ⟨fixtureRuntime 0 0, bobCtx "tx2" 1700000100,
        .prGrantAccess "p1" "carol" "READ" ""⟩ = fixtureLedger ∧
      commit fixtureLedger ⟨fixtureRuntime 0 0, bobCtx "tx2" 1700000100,
        .prRevokeAccess "p1" "carol"⟩ = fixtureLedger) ∧
    (∀ (s0 : WorldState) (tx : Tx), (commit s0 tx).accessControl ≠ s0.accessControl →
      isRegister tx.op = true ∨
      ∃ R0, grantTarget tx.op = some R0 ∧
        AccessControl._checkAccess tx.rt s0 R0 tx.ctx.clientID "GRANT" = true) :=
  C15_grant_mutations_require_GRANT (fixtureRuntime 0 0) (bobCtx "tx2" 1700000100)
    fixtureLedger "p1" "carol" "READ" "" (by decide) (by decide) (by decide) (by decide)

/-! ## Permission tokens -/

theorem parsePermissions_examples :
    parsePermissions (fixtureRuntime 0 0) "READ," = ["READ", ""] ∧
    parsePermissions (fixtureRuntime 0 0) " read , Update" = ["READ", "UPDATE"] ∧
    parsePermissions (fixtureRuntime 0 0) "ADMIN" = ["ADMIN"] := by
  refine ⟨by decide, by decide, by decide⟩

theorem all_valid_eq_false (tokens : List String)
    (hbad : ∃ t ∈ tokens, t ∉ validPermissions) :
    tokens.all (fun permission => validPermissions.contains permission) = false := by
  obtain ⟨t, ht, hnot⟩ := hbad
  rw [Bool.eq_false_iff]
  intro hall
  rw [List.all_eq_true] at hall
  have := hall t ht
  simp at this
  exact hnot this

/-- C16 (unrecognised permission tokens): `grantAccess` and
`updateAccessPermissions` of `access-control.js`, called by a GRANT holder with
non-empty `patientId`, grantee and permission string in which at least one
token, after trimming and upper-casing, is not one of READ, UPDATE, DELETE,
GRANT, fail with InvalidPermission, and the ledger after the transaction is the
ledger before it: no grant and no audit entry is stored. -/
theorem C16_unrecognized_tokens (rt : Runtime) (ctx : Ctx) (s : WorldState)
    (R G ps e : String) (hR : R ≠ "") (hG : G ≠ "") (hps : ps ≠ "")
    (hacc : AccessControl._checkAccess rt s R ctx.clientID "GRANT" = true)
    (hbad : ∃ t ∈ parsePermissions rt ps, t ∉ validPermissions) :
    AccessControl.grantAccess rt ctx s R G ps e = .error .InvalidPermission ∧
    AccessControl.updateAccessPermissions rt ctx s R G ps = .error .InvalidPermission ∧
    commit s ⟨rt, ctx, .grantAccess R G ps e⟩ = s ∧
    commit s ⟨rt, ctx, .updateAccessPermissions R G ps⟩ = s := by
  have hall := all_valid_eq_false (parsePermissions rt ps) hbad
  have h1 : AccessControl.grantAccess rt ctx s R G ps e = .error .InvalidPermission := by
    unfold AccessControl.grantAccess
    rw [if_neg (by simp [hR, hG, hps])]
    simp only [hacc, hall]
    rfl
  have h2 : AccessControl.updateAccessPermissions rt ctx s R G ps
      = .error .InvalidPermission := by
    unfold AccessControl.updateAccessPermissions
    rw [if_neg (by simp [hR, hG, hps])]
    simp only [hacc, hall]
    rfl
  exact ⟨h1, h2, commit_of_error s ⟨rt, ctx, .grantAccess R G ps e⟩ _ h1,
    commit_of_error s ⟨rt, ctx, .updateAccessPermissions R G ps⟩ _ h2⟩

/-- Witness for C16: `alice`, who holds GRANT on `p1`, passes the permission
string `READ,` whose second token is empty. -/
theorem C16_unrecognized_tokens_witness :
    AccessControl.grantAccess (fixtureRuntime 0 0) (aliceCtx "tx2" 1700000100) fixtureLedger
      "p1" "carol" "READ," "" = .error .InvalidPermission ∧
    AccessControl.updateAccessPermissions (fixtureRuntime 0 0) (aliceCtx "tx2" 1700000100)
      fixtureLedger "p1" "carol" "READ," = .error .InvalidPermission ∧
    commit fixtureLedger ⟨fixtureRuntime 0 0, aliceCtx "tx2" 1700000100,
      .grantAccess "p1" "carol" "READ," ""⟩ = fixtureLedger ∧
    commit fixtureLedger ⟨fixtureRuntime 0 0, aliceCtx "tx2" 1700000100,
      .updateAccessPermissions "p1" "carol" "READ,"⟩ = fixtureLedger :=
  C16_unrecognized_tokens (fixtureRuntime 0 0) (aliceCtx "tx2" 1700000100) fixtureLedger
    "p1" "carol" "READ," "" (by decide) (by decide) (by decide) (by decide)
    ⟨"", by decide, by decide⟩

/-- C17 (stored permission sets are valid), evaluation of the code: from the
empty ledger, `alice` registers `p1` and calls `grantAccess` of
`patient-record.js` for `bob` with the token `ADMIN`; both transactions
succeed and the grant stored for (p1, bob) has permissions `["ADMIN"]`, which
is outside {READ, UPDATE, DELETE, GRANT}.  The same call through `grantAccess`
of `access-control.js` fails with InvalidPermission. -/
theorem C17_unvalidated_grant_reaches_ledger :
    succeeds WorldState.empty ⟨fixtureRuntime 0 0, aliceCtx "tx1" 1700000000,
      .registerPatientRecord "p1" "h1" "{}" "OrgA"⟩ = true ∧
    succeeds registeredLedger ⟨fixtureRuntime 0 0, aliceCtx "tx2" 1700000100,
      .prGrantAccess "p1" "bob" "ADMIN" ""⟩ = true ∧
    (getState (run WorldState.empty unvalidatedGrantTxs).accessControl (accessControlKey "p1" "bob")).map
      (fun g => g.permissions) = some ["ADMIN"] ∧
    "ADMIN" ∉ validPermissions ∧
    Outcome.error? (AccessControl.grantAccess (fixtureRuntime 0 0) (aliceCtx "tx2" 1700000100)
      registeredLedger "p1" "bob" "ADMIN" "") = some .InvalidPermission := by
  refine ⟨by decide, by decide, by decide, by decide, by decide⟩

/-- C18 (case-insensitive permission input), evaluation of the code: the
permission string `read,update` passed to `grantAccess` is stored normalised
as `["READ", "UPDATE"]`, but `checkAccess(p1, bob, 'read')` on the resulting
ledger answers `hasAccess = false` while `checkAccess(p1, bob, 'READ')` answers
`hasAccess = true`: the check compares its argument without normalising it. -/
theorem C18_check_is_case_sensitive :
    (getState lowerCaseGrantLedger.accessControl (accessControlKey "p1" "bob")).map (fun g => g.permissions)
      = some ["READ", "UPDATE"] ∧
    Outcome.hasAccess? (AccessControl.checkAccess (fixtureRuntime 0 0) lowerCaseGrantLedger
      "p1" "bob" "read") = some false ∧
    Outcome.hasAccess? (AccessControl.checkAccess (fixtureRuntime 0 0) lowerCaseGrantLedger
      "p1" "bob" "READ") = some true ∧
    PatientRecord._checkAccess (fixtureRuntime 0 0) lowerCaseGrantLedger "p1" "bob" "read"
      = false ∧
    PatientRecord._checkAccess (fixtureRuntime 0 0) lowerCaseGrantLedger "p1" "bob" "READ"
      = true := by
  refine ⟨by decide, by decide, by decide, by decide, by decide⟩

/-! ## Missing records and grants -/

/-- C19 (NotFound): with no record stored for a non-empty `patientId`,
`getPatientRecord` and `deletePatientRecord`, and `updatePatientRecord` and
`verifyPatientRecord` called with a non-empty hash, fail with NotFound; with no
grant stored for a non-empty grantee on the resource, `revokeAccess` (of both
contracts) and `updateAccessExpiry`, and `updateAccessPermissions` called with
a non-empty permission string of valid tokens, called by a GRANT holder, fail
with NotFound; in each case the ledger after the transaction is the ledger
before it. -/
theorem C19_not_found (rt : Runtime) (ctx : Ctx) (s : WorldState)
    (R h ph m G e ps : String) (hR : R ≠ "") :
    (getState s.patientRecord R = none →
      (PatientRecord.getPatientRecord rt ctx s R = .error .NotFound ∧
        commit s ⟨rt, ctx, .getPatientRecord R⟩ = s) ∧
      (PatientRecord.deletePatientRecord rt ctx s R = .error .NotFound ∧
        commit s ⟨rt, ctx, .deletePatientRecord R⟩ = s) ∧
      (h ≠ "" →
        PatientRecord.updatePatientRecord rt ctx s R h ph m = .error .NotFound ∧
        commit s ⟨rt, ctx, .updatePatientRecord R h ph m⟩ = s) ∧
      (h ≠ "" →
        PatientRecord.verifyPatientRecord rt ctx s R h = .error .NotFound ∧
        commit s ⟨rt, ctx, .verifyPatientRecord R h⟩ = s)) ∧
    (G ≠ "" → getState s.accessControl (accessControlKey R G) = none →
      AccessControl._checkAccess rt s R ctx.clientID "GRANT" = true →
      (AccessControl.revokeAccess rt ctx s R G = .error .NotFound ∧
        commit s ⟨rt, ctx, .revokeAccess R G⟩ = s) ∧
      (PatientRecord.revokeAccess rt ctx s R G = .error .NotFound ∧
        commit s ⟨rt, ctx, .prRevokeAccess R G⟩ = s) ∧
      (AccessControl.updateAccessExpiry rt ctx s R G e = .error .NotFound ∧
        commit s ⟨rt, ctx, .updateAccessExpiry R G e⟩ = s) ∧
      (ps ≠ "" →
        (parsePermissions rt ps).all (fun permission => validPermissions.contains permission)
          = true →
        AccessControl.updateAccessPermissions rt ctx s R G ps = .error .NotFound ∧
        commit s ⟨rt, ctx, .updateAccessPermissions R G ps⟩ = s)) := by
  refine ⟨fun hnone => ⟨?_, ?_, fun hh => ?_, fun hh => ?_⟩,
    fun hG hnog hacc => ⟨?_, ?_, ?_, fun hps hall => ?_⟩⟩
  · have h1 : PatientRecord.getPatientRecord rt ctx s R = .error .NotFound := by
      simp [PatientRecord.getPatientRecord, hR, hnone]
    exact ⟨h1, commit_of_error s ⟨rt, ctx, .getPatientRecord R⟩ _ h1⟩
  · have h1 : PatientRecord.deletePatientRecord rt ctx s R = .error .NotFound := by
      simp [PatientRecord.deletePatientRecord, hR, hnone]
    exact ⟨h1, commit_of_error s ⟨rt, ctx, .deletePatientRecord R⟩ _ h1⟩
  · have h1 : PatientRecord.updatePatientRecord rt ctx s R h ph m = .error .NotFound := by
      simp [PatientRecord.updatePatientRecord, hR, hh, hnone]
    exact ⟨h1, commit_of_error s ⟨rt, ctx, .updatePatientRecord R h ph m⟩ _ h1⟩
  · have h1 : PatientRecord.verifyPatientRecord rt ctx s R h = .error .NotFound := by
      simp [PatientRecord.verifyPatientRecord, hR, hh, hnone]
    exact ⟨h1, commit_of_error s ⟨rt, ctx, .verifyPatientRecord R h⟩ _ h1⟩
  · have h1 : AccessControl.revokeAccess rt ctx s R G = .error .NotFound := by
      simp [AccessControl.revokeAccess, hR, hG, hacc, hnog]
    exact ⟨h1, commit_of_error s ⟨rt, ctx, .revokeAccess R G⟩ _ h1⟩
  · have hacc1 : PatientRecord._checkAccess rt s R ctx.clientID "GRANT" = true := hacc
    have h1 : PatientRecord.revokeAccess rt ctx s R G = .error .NotFound := by
      simp [PatientRecord.revokeAccess, hR, hG, hacc1, hnog]
    exact ⟨h1, commit_of_error s ⟨rt, ctx, .prRevokeAccess R G⟩ _ h1⟩
  · have h1 : AccessControl.updateAccessExpiry rt ctx s R G e = .error .NotFound := by
      simp [AccessControl.updateAccessExpiry, hR, hG, hacc, hnog]
    exact ⟨h1, commit_of_error s ⟨rt, ctx, .updateAccessExpiry R G e⟩ _ h1⟩
  · have h1 : AccessControl.updateAccessPermissions rt ctx s R G ps = .error .NotFound := by
      unfold AccessControl.updateAccessPermissions
      rw [if_neg (by simp [hR, hG, hps])]
      simp only [hacc, hall, hnog]
      rfl
    exact ⟨h1, commit_of_error s ⟨rt, ctx, .updateAccessPermissions R G ps⟩ _ h1⟩

/-- Witness for C19: on the fixture ledger no record `p2` is stored, and
`carol` has no grant on `p1`, on which `alice` holds GRANT. -/
theorem C19_not_found_witness :
    (PatientRecord.getPatientRecord (fixtureRuntime 0 0) (aliceCtx "tx2" 1700000100)
        fixtureLedger "p2" = .error .NotFound ∧
      commit fixtureLedger ⟨fixtureRuntime 0 0, aliceCtx "tx2" 1700000100,
        .getPatientRecord "p2"⟩ = fixtureLedger) ∧
    (PatientRecord.deletePatientRecord (fixtureRuntime 0 0) (aliceCtx "tx2" 1700000100)
        fixtureLedger "p2" = .error .NotFound ∧
      commit fixtureLedger ⟨fixtureRuntime 0 0, aliceCtx "tx2" 1700000100,
        .deletePatientRecord "p2"⟩ = fixtureLedger) ∧
    (PatientRecord.updatePatientRecord (fixtureRuntime 0 0) (aliceCtx "tx2" 1700000100)
        fixtureLedger "p2" "h2" "h1" "{}" = .error .NotFound ∧
      commit fixtureLedger ⟨fixtureRuntime 0 0, aliceCtx "tx2" 1700000100,
        .updatePatientRecord "p2" "h2" "h1" "{}"⟩ = fixtureLedger) ∧
    (PatientRecord.verifyPatientRecord (fixtureRuntime 0 0) (aliceCtx "tx2" 1700000100)
        fixtureLedger "p2" "h2" = .error .NotFound ∧
      commit fixtureLedger ⟨fixtureRuntime 0 0, aliceCtx "tx2" 1700000100,
        .verifyPatientRecord "p2" "h2"⟩ = fixtureLedger) ∧
    (AccessControl.revokeAccess (fixtureRuntime 0 0) (aliceCtx "tx2" 1700000100)
        fixtureLedger "p1" "carol" = .error .NotFound ∧
      commit fixtureLedger ⟨fixtureRuntime 0 0, aliceCtx "tx2" 1700000100,
        .revokeAccess "p1" "carol"⟩ = fixtureLedger) ∧
    (PatientRecord.revokeAccess (fixtureRuntime 0 0) (aliceCtx "tx2" 1700000100)
        fixtureLedger "p1" "carol" = .error .NotFound ∧
      commit fixtureLedger ⟨fixtureRuntime 0 0, aliceCtx "tx2" 1700000100,
        .prRevokeAccess "p1" "carol"⟩ = fixtureLedger) ∧
    (AccessControl.updateAccessExpiry (fixtureRuntime 0 0) (aliceCtx "tx2" 1700000100)
        fixtureLedger "p1" "carol" "" = .error .NotFound ∧
      commit fixtureLedger ⟨fixtureRuntime 0 0, aliceCtx "tx2" 1700000100,
        .updateAccessExpiry "p1" "carol" ""⟩ = fixtureLedger) ∧
    (AccessControl.updateAccessPermissions (fixtureRuntime 0 0) (aliceCtx "tx2" 1700000100)
        fixtureLedger "p1" "carol" "READ" = .error .NotFound ∧
      commit fixtureLedger ⟨fixtureRuntime 0 0, aliceCtx "tx2" 1700000100,
        .updateAccessPermissions "p1" "carol" "READ"⟩ = fixtureLedger) := by
  have hA := (C19_not_found (fixtureRuntime 0 0) (aliceCtx "tx2" 1700000100) fixtureLedger
    "p2" "h2" "h1" "{}" "carol" "" "READ" (by decide)).1 rfl
  have hB := (C19_not_found (fixtureRuntime 0 0) (aliceCtx "tx2" 1700000100) fixtureLedger
    "p1" "h2" "h1" "{}" "carol" "" "READ" (by decide)).2 (by decide) (by decide) (by decide)
  exact ⟨hA.1, hA.2.1, hA.2.2.1 (by decide), hA.2.2.2 (by decide),
    hB.1, hB.2.1, hB.2.2.1, hB.2.2.2 (by decide) (by decide)⟩

/-! ## Revocation -/

theorem AccessControl.revoke_inv (rt : Runtime) (ctx : Ctx) (s s1 : WorldState) (R G : String)
    (resp : Response)
    (hok : AccessControl.revokeAccess rt ctx s R G = .ok (s1, resp) ∨
      PatientRecord.revokeAccess rt ctx s R G = .ok (s1, resp)) :
    s1.accessControl = deleteState s.accessControl (accessControlKey R G) ∧
    s1.patientRecord = s.patientRecord := by
  rcases hok with hok | hok
  · unfold AccessControl.revokeAccess at hok
    by_cases hv : R = "" ∨ G = ""
    · simp [hv] at hok
    · by_cases ha : AccessControl._checkAccess rt s R ctx.clientID "GRANT" = true
      · cases hg : getState s.accessControl (accessControlKey R G) with
        | none => simp [hv, ha, hg] at hok
        | some g =>
          simp only [if_neg hv, ha, hg] at hok
          simp at hok
          obtain ⟨hs, _⟩ := hok
          subst hs
          exact ⟨rfl, rfl⟩
      · simp [hv, ha] at hok
  · unfold PatientRecord.revokeAccess at hok
    by_cases hv : R = "" ∨ G = ""
    · simp [hv] at hok
    · by_cases ha : PatientRecord._checkAccess rt s R ctx.clientID "GRANT" = true
      · cases hg : getState s.accessControl (accessControlKey R G) with
        | none => simp [hv, ha, hg] at hok
        | some g =>
          simp only [if_neg hv, ha, hg] at hok
          simp at hok
          obtain ⟨hs, _⟩ := hok
          subst hs
          exact ⟨rfl, rfl⟩
      · simp [hv, ha] at hok

/-- C20 (revoke destroys the grant, as the code has it): in the ledger left by
a successful `revokeAccess(R, G)` of either contract, no grant is stored for
(R, G), `_checkAccess(R, G, p)` of both contracts is false for every permission
p under every runtime, and what is stored under every key other than the key of
(R, G) is as it was: so is the grant of every other (resource, identity) pair
whose key differs from that of (R, G), which is every other pair when neither
resource contains U+0000. -/
theorem C20_revoke_destroys_grant (rt : Runtime) (ctx : Ctx) (s s1 : WorldState)
    (R G : String) (resp : Response)
    (hok : AccessControl.revokeAccess rt ctx s R G = .ok (s1, resp) ∨
      PatientRecord.revokeAccess rt ctx s R G = .ok (s1, resp)) :
    getState s1.accessControl (accessControlKey R G) = none ∧
    (∀ (rt1 : Runtime) (p : String),
      AccessControl._checkAccess rt1 s1 R G p = false ∧
      PatientRecord._checkAccess rt1 s1 R G p = false) ∧
    (∀ k : String, k ≠ accessControlKey R G →
      getState s1.accessControl k = getState s.accessControl k) ∧
    (∀ R1 I1 : String, accessControlKey R1 I1 ≠ accessControlKey R G →
      getState s1.accessControl (accessControlKey R1 I1) =
        getState s.accessControl (accessControlKey R1 I1)) ∧
    (nulFree R = true → ∀ R1 I1 : String, nulFree R1 = true → (R1, I1) ≠ (R, G) →
      getState s1.accessControl (accessControlKey R1 I1) =
        getState s.accessControl (accessControlKey R1 I1)) := by
  obtain ⟨hacl, _⟩ := AccessControl.revoke_inv rt ctx s s1 R G resp hok
  have hnone : getState s1.accessControl (accessControlKey R G) = none := by
    rw [hacl]
    exact getState_deleteState_same _ _
  have hother : ∀ k : String, k ≠ accessControlKey R G →
      getState s1.accessControl k = getState s.accessControl k := by
    intro k hk
    rw [hacl]
    exact getState_deleteState_other _ _ _ (fun h0 => hk h0.symm)
  refine ⟨hnone, fun rt1 p => ?_, hother, fun R1 I1 hk => hother _ hk,
    fun hR R1 I1 hR1 hne => hother _ (fun hkey => ?_)⟩
  · have h1 := AccessControl.checkAccess_absent rt1 s1 R G p hnone
    exact ⟨h1, (PatientRecord.checkAccess_eq rt1 s1 R G p).trans h1⟩
  · obtain ⟨h1, h2⟩ := accessControlKey_injective R1 I1 R G hR1 hR hkey
    exact hne (by rw [h1, h2])

/-- Witness for C20: `alice` revokes the grant of `bob` on `p1`; her own grant
on `p1` is as it was. -/
theorem C20_revoke_destroys_grant_witness :
    getState (commit fixtureLedger ⟨fixtureRuntime 0 0, aliceCtx "tx2" 1700000100,
      .revokeAccess "p1" "bob"⟩).accessControl (accessControlKey "p1" "bob") = none ∧
    (∀ (rt1 : Runtime) (p : String),
      AccessControl._checkAccess rt1 (commit fixtureLedger ⟨fixtureRuntime 0 0,
        aliceCtx "tx2" 1700000100, .revokeAccess "p1" "bob"⟩) "p1" "bob" p = false ∧
      PatientRecord._checkAccess rt1 (commit fixtureLedger ⟨fixtureRuntime 0 0,
        aliceCtx "tx2" 1700000100, .revokeAccess "p1" "bob"⟩) "p1" "bob" p = false) ∧
    (∀ k : String, k ≠ accessControlKey "p1" "bob" →
      getState (commit fixtureLedger ⟨fixtureRuntime 0 0, aliceCtx "tx2" 1700000100,
        .revokeAccess "p1" "bob"⟩).accessControl k = getState fixtureLedger.accessControl k) ∧
    getState (commit fixtureLedger ⟨fixtureRuntime 0 0, aliceCtx "tx2" 1700000100,
      .revokeAccess "p1" "bob"⟩).accessControl (accessControlKey "p1" "alice") =
        getState fixtureLedger.accessControl (accessControlKey "p1" "alice") :=
  have h := C20_revoke_destroys_grant (fixtureRuntime 0 0) (aliceCtx "tx2" 1700000100)
    fixtureLedger (commit fixtureLedger ⟨fixtureRuntime 0 0, aliceCtx "tx2" 1700000100,
      .revokeAccess "p1" "bob"⟩) "p1" "bob" (.revoked (some "tx2")) (Or.inl rfl)
  ⟨h.1, h.2.1, h.2.2.1, h.2.2.2.2 (by decide) "p1" "alice" (by decide) (by decide)⟩

/-- Counterexample to C20 as stated: after `alice` registers `p1` and grants
`READ,GRANT` on it to the identity `bob<U+0000>x`, the pair
(`p1<U+0000>bob`, `x`) differs from (`p1`, `bob<U+0000>x`) and the check
`_checkAccess(p1<U+0000>bob, x, READ)` is true; `alice` then revokes
(`p1`, `bob<U+0000>x`) and the check for the other pair is false: its grant was
removed with the one revoked, both having one key. -/
theorem C20_key_collision_counterexample :
    (("p1\x00bob", "x") : String × String) ≠ ("p1", "bob\x00x") ∧
    accessControlKey "p1\x00bob" "x" = accessControlKey "p1" "bob\x00x" ∧
    AccessControl._checkAccess (fixtureRuntime 0 0) (run WorldState.empty collidingGrantTxs)
      "p1\x00bob" "x" "READ" = true ∧
    succeeds (run WorldState.empty collidingGrantTxs)
      ⟨fixtureRuntime 0 0, aliceCtx "tx3" 1700000200, .revokeAccess "p1" "bob\x00x"⟩ = true ∧
    AccessControl._checkAccess (fixtureRuntime 0 0)
      (commit (run WorldState.empty collidingGrantTxs)
        ⟨fixtureRuntime 0 0, aliceCtx "tx3" 1700000200, .revokeAccess "p1" "bob\x00x"⟩)
      "p1\x00bob" "x" "READ" = false ∧
    (getState (run WorldState.empty collidingGrantTxs).accessControl
      (accessControlKey "p1\x00bob" "x")).isSome = true ∧
    (getState (commit (run WorldState.empty collidingGrantTxs)
        ⟨fixtureRuntime 0 0, aliceCtx "tx3" 1700000200, .revokeAccess "p1" "bob\x00x"⟩).accessControl
      (accessControlKey "p1\x00bob" "x")).isSome = false := by
  refine ⟨by decide, by decide, by decide, by decide, by decide, by decide, by decide⟩

/-! ## Audit log -/

/-- C30 (unguarded audit append): `createAuditEntry` of `audit-trail.js`, for
every caller, ledger and runtime, every non-empty `patientId` and action and
every metadata that is empty or parseable, succeeds and stores under
(patientId, txId) an audit entry carrying the supplied action, data hash and
previous hash and the caller as submitter; no grant and no record is consulted
or changed. -/
theorem C30_unguarded_audit_append (rt : Runtime) (ctx : Ctx) (s : WorldState)
    (patientId action dataHash previousHash metadata : String)
    (hid : patientId ≠ "") (hact : action ≠ "")
    (hmeta : metadata = "" ∨ ∃ j, rt.jsonParse metadata = some j) :
    ∃ (s1 : WorldState) (e : AuditEntry),
      AuditTrail.createAuditEntry rt ctx s patientId action dataHash previousHash metadata
        = .ok (s1, .auditCreated ctx.txID ctx.timestamp) ∧
      getState s1.auditTrail (patientId, ctx.txID) = some e ∧
      e.patientId = patientId ∧ e.action = action ∧ e.dataHash = some dataHash ∧
      e.previousHash = some previousHash ∧ e.submitter = ctx.clientID ∧
      e.txId = ctx.txID ∧ e.timestamp = ctx.timestamp ∧
      s1.patientRecord = s.patientRecord ∧ s1.accessControl = s.accessControl ∧
      s1.accessAudit = s.accessAudit := by
  by_cases hm : metadata = ""
  · refine ⟨{ s with auditTrail := (putState s.auditTrail (patientId, ctx.txID)
        ⟨patientId, action, none, some dataHash, some previousHash, some (.obj []),
          ctx.clientID, ctx.timestamp, ctx.txID⟩) },
      ⟨patientId, action, none, some dataHash, some previousHash, some (.obj []),
        ctx.clientID, ctx.timestamp, ctx.txID⟩, ?_, getState_putState_same _ _ _,
      rfl, rfl, rfl, rfl, rfl, rfl, rfl, rfl, rfl, rfl⟩
    simp [AuditTrail.createAuditEntry, hid, hact, hm]
  · rcases hmeta with h0 | ⟨j, hj⟩
    · exact absurd h0 hm
    · refine ⟨{ s with auditTrail := (putState s.auditTrail (patientId, ctx.txID)
          ⟨patientId, action, none, some dataHash, some previousHash, some j,
            ctx.clientID, ctx.timestamp, ctx.txID⟩) },
        ⟨patientId, action, none, some dataHash, some previousHash, some j,
          ctx.clientID, ctx.timestamp, ctx.txID⟩, ?_, getState_putState_same _ _ _,
        rfl, rfl, rfl, rfl, rfl, rfl, rfl, rfl, rfl, rfl⟩
      simp [AuditTrail.createAuditEntry, hid, hact, hm, hj]

/-- Witness for C30: `carol`, who holds no grant, appends an entry with action
`UPDATE` for the unregistered id `ghost` on the empty ledger. -/
theorem C30_unguarded_audit_append_witness :
    ∃ (s1 : WorldState) (e : AuditEntry),
      AuditTrail.createAuditEntry (fixtureRuntime 0 0) (carolCtx "tx9" 1700000900)
        WorldState.empty "ghost" "UPDATE" "hA" "hB" ""
        = .ok (s1, .auditCreated (carolCtx "tx9" 1700000900).txID
            (carolCtx "tx9" 1700000900).timestamp) ∧
      getState s1.auditTrail ("ghost", (carolCtx "tx9" 1700000900).txID) = some e ∧
      e.patientId = "ghost" ∧ e.action = "UPDATE" ∧ e.dataHash = some "hA" ∧
      e.previousHash = some "hB" ∧ e.submitter = (carolCtx "tx9" 1700000900).clientID ∧
      e.txId = (carolCtx "tx9" 1700000900).txID ∧
      e.timestamp = (carolCtx "tx9" 1700000900).timestamp ∧
      s1.patientRecord = WorldState.empty.patientRecord ∧
      s1.accessControl = WorldState.empty.accessControl ∧
      s1.accessAudit = WorldState.empty.accessAudit :=
  C30_unguarded_audit_append (fixtureRuntime 0 0) (carolCtx "tx9" 1700000900) WorldState.empty
    "ghost" "UPDATE" "hA" "hB" "" (by decide) (by decide) (Or.inl rfl)

/-- C25 (hash chain in the audit log), evaluation of the code: `alice` updates
`p1`, whose stored data hash is `h1`, to `h2` with previous hash `h1`; the call
succeeds and the UPDATE audit entry it writes has `newHash = h2` and
`previousHash = h2`, not `h1`. -/
theorem C25_update_audit_previousHash :
    (getState fixtureLedger.patientRecord "p1").map (fun r => r.dataHash) = some "h1" ∧
    Outcome.error? (PatientRecord.updatePatientRecord (fixtureRuntime 0 0)
      (aliceCtx "tx2" 1700000100) fixtureLedger "p1" "h2" "h1" "{}") = none ∧
    (Outcome.auditEntry? (PatientRecord.updatePatientRecord (fixtureRuntime 0 0)
      (aliceCtx "tx2" 1700000100) fixtureLedger "p1" "h2" "h1" "{}") "p1" "tx2").map
        (fun e => (e.action, e.newHash, e.previousHash))
      = some ("UPDATE", some "h2", some "h2") := by
  refine ⟨by decide, by decide, by decide⟩

/-- C22 (audit accessors are READ-gated with expiry), evaluation of the code:
the `READ` grant of `bob` on `p1` expired at 2025-12-31T23:59:59Z; one hour
later `_checkAccess(p1, bob, READ)` is false and `getAuditTrail` of
`patient-record.js` fails with PermissionDenied, but the five accessors of
`audit-trail.js` called by `bob` do not fail with PermissionDenied:
four succeed and `getAuditEntryByTxId` passes the gate and reports the missing
entry. -/
theorem C22_audit_accessors_ignore_expiry :
    PatientRecord._checkAccess (fixtureRuntime 1767229199000 0) fixtureLedger "p1"
      (bobCtx "tx7" 1767229199).clientID "READ" = false ∧
    Outcome.error? (PatientRecord.getAuditTrail (fixtureRuntime 1767229199000 0)
      (bobCtx "tx7" 1767229199) fixtureLedger "p1") = some .PermissionDenied ∧
    Outcome.error? (AuditTrail.getAuditTrail (bobCtx "tx7" 1767229199) fixtureLedger "p1")
      = none ∧
    Outcome.error? (AuditTrail.getAuditTrailByDateRange (fixtureRuntime 1767229199000 0)
      (bobCtx "tx7" 1767229199) fixtureLedger "p1" "2025-12-31T23:59:59Z"
      "2025-12-31T23:59:59Z") = none ∧
    Outcome.error? (AuditTrail.getAuditTrailByAction (bobCtx "tx7" 1767229199) fixtureLedger
      "p1" "UPDATE") = none ∧
    Outcome.error? (AuditTrail.getAuditTrailBySubmitter (bobCtx "tx7" 1767229199) fixtureLedger
      "p1" "alice") = none ∧
    Outcome.error? (AuditTrail.getAuditEntryByTxId (bobCtx "tx7" 1767229199) fixtureLedger
      "p1" "tx1") = some .NotFound := by
  refine ⟨by decide, by decide, by decide, by decide, by decide, by decide, by decide⟩

/-! ## Grants issued by a GRANT holder -/

theorem parsePermissions_full (rt : Runtime) :
    parsePermissions rt "READ,UPDATE,DELETE,GRANT" = ["READ", "UPDATE", "DELETE", "GRANT"] := by
  rfl

theorem AccessControl.grant_full_ok (rt : Runtime) (ctx : Ctx) (s : WorldState) (R G e : String)
    (hR : R ≠ "") (hG : G ≠ "")
    (hacc : AccessControl._checkAccess rt s R ctx.clientID "GRANT" = true) :
    AccessControl.grantAccess rt ctx s R G "READ,UPDATE,DELETE,GRANT" e =
      .ok (AccessControl._createAuditEntry ctx
            (AccessControl._setAccessControl rt ctx s R G
              ["READ", "UPDATE", "DELETE", "GRANT"] (some e))
            R "GRANT_ACCESS" G (some "READ,UPDATE,DELETE,GRANT") ctx.clientID ctx.timestamp,
          .granted ["READ", "UPDATE", "DELETE", "GRANT"] e (some ctx.txID)) := by
  unfold AccessControl.grantAccess
  rw [if_neg (by simp [hR, hG])]
  simp only [hacc, parsePermissions_full]
  rfl

/-- C28 (self-escalation through GRANT): when the GRANT check of identity X
on R is true (X holds an unexpired grant containing GRANT, whatever else it
contains), `grantAccess(R, X, 'READ,UPDATE,DELETE,GRANT', '')` of
`access-control.js` submitted by X succeeds; the grant then stored for (R, X)
is a new document with exactly the four permissions and the empty expiry,
whatever the old grant held; and afterwards `_checkAccess(R, X, p)` of both
contracts is true for every p in {READ, UPDATE, DELETE, GRANT} under every
runtime. -/
theorem C28_self_escalation (rt : Runtime) (ctx : Ctx) (s : WorldState) (R : String)
    (hR : R ≠ "") (hX : ctx.clientID ≠ "")
    (hacc : AccessControl._checkAccess rt s R ctx.clientID "GRANT" = true) :
    ∃ (s1 : WorldState) (g : AccessControlDoc),
      AccessControl.grantAccess rt ctx s R ctx.clientID "READ,UPDATE,DELETE,GRANT" ""
        = .ok (s1, .granted ["READ", "UPDATE", "DELETE", "GRANT"] "" (some ctx.txID)) ∧
      getState s1.accessControl (accessControlKey R ctx.clientID) = some g ∧
      g.permissions = ["READ", "UPDATE", "DELETE", "GRANT"] ∧ g.expiryDate = some "" ∧
      g.createdBy = ctx.clientID ∧ g.updatedAt = none ∧ g.updatedBy = none ∧
      (∀ (rt1 : Runtime) (p : String), p ∈ validPermissions →
        AccessControl._checkAccess rt1 s1 R ctx.clientID p = true ∧
        PatientRecord._checkAccess rt1 s1 R ctx.clientID p = true) := by
  refine ⟨_, ⟨R, ctx.clientID, ["READ", "UPDATE", "DELETE", "GRANT"], some "", rt.nowAtWrite,
      ctx.clientID, none, none⟩,
    AccessControl.grant_full_ok rt ctx s R ctx.clientID "" hR hX hacc,
    getState_putState_same _ _ _, rfl, rfl, rfl, rfl, rfl, fun rt1 p hp => ?_⟩
  have hc : (["READ", "UPDATE", "DELETE", "GRANT"] : List String).contains p = true := by
    simpa [validPermissions] using hp
  have hchk := AccessControl.checkAccess_noExpiry rt1
    (AccessControl._createAuditEntry ctx
      (AccessControl._setAccessControl rt ctx s R ctx.clientID
        ["READ", "UPDATE", "DELETE", "GRANT"] (some ""))
      R "GRANT_ACCESS" ctx.clientID (some "READ,UPDATE,DELETE,GRANT") ctx.clientID ctx.timestamp)
    R ctx.clientID p
    ⟨R, ctx.clientID, ["READ", "UPDATE", "DELETE", "GRANT"], some "", rt.nowAtWrite,
      ctx.clientID, none, none⟩ (getState_putState_same _ _ _) rfl
  exact ⟨hchk.trans hc, (PatientRecord.checkAccess_eq _ _ _ _ _).trans (hchk.trans hc)⟩

/-- Witness for C28: `dave` holds only `GRANT` on `p1`, until
2025-12-31T23:59:59Z, and grants himself the full set before that instant. -/
theorem C28_self_escalation_witness :
    ∃ (s1 : WorldState) (g : AccessControlDoc),
      AccessControl.grantAccess (fixtureRuntime 1700000100000 1700000100000)
        (daveCtx "tx2" 1700000100) grantOnlyLedger "p1" (daveCtx "tx2" 1700000100).clientID
        "READ,UPDATE,DELETE,GRANT" ""
        = .ok (s1, .granted ["READ", "UPDATE", "DELETE", "GRANT"] ""
            (some (daveCtx "tx2" 1700000100).txID)) ∧
      getState s1.accessControl (accessControlKey "p1" (daveCtx "tx2" 1700000100).clientID) = some g ∧
      g.permissions = ["READ", "UPDATE", "DELETE", "GRANT"] ∧ g.expiryDate = some "" ∧
      g.createdBy = (daveCtx "tx2" 1700000100).clientID ∧ g.updatedAt = none ∧
      g.updatedBy = none ∧
      (∀ (rt1 : Runtime) (p : String), p ∈ validPermissions →
        AccessControl._checkAccess rt1 s1 "p1" (daveCtx "tx2" 1700000100).clientID p = true ∧
        PatientRecord._checkAccess rt1 s1 "p1" (daveCtx "tx2" 1700000100).clientID p = true) :=
  C28_self_escalation (fixtureRuntime 1700000100000 1700000100000) (daveCtx "tx2" 1700000100)
    grantOnlyLedger "p1" (by decide) (by decide) (by decide)

/-! ## Record status -/

theorem PatientRecord.update_error (rt : Runtime) (ctx : Ctx) (s : WorldState)
    (id h ph m : String) :
    Outcome.error? (PatientRecord.updatePatientRecord rt ctx s id h ph m) =
      if id = "" ∨ h = "" then some .ValidationError
      else
        match getState s.patientRecord id with
        | none => some .NotFound
        | some r =>
          if ph ≠ "" ∧ r.dataHash ≠ ph then some .IntegrityConflict
          else if PatientRecord._checkAccess rt s id ctx.clientID "UPDATE" = true then
            (if m ≠ "" then
              match rt.jsonParse m with
              | some _ => none
              | none => some .MetadataFormatError
            else none)
          else some .PermissionDenied := by
  unfold PatientRecord.updatePatientRecord
  by_cases hv : id = "" ∨ h = ""
  · simp [hv, Outcome.error?]
  · cases hr : getState s.patientRecord id with
    | none => simp [hv, Outcome.error?]
    | some r =>
      by_cases hc : ph ≠ "" ∧ r.dataHash ≠ ph
      · simp [hv, hc, Outcome.error?]
      · by_cases ha : PatientRecord._checkAccess rt s id ctx.clientID "UPDATE" = true
        · by_cases hm : m = ""
          · simp only [if_neg hv, if_neg hc, ha, hm]
            simp [Outcome.error?]
          · cases hj : rt.jsonParse m with
            | none =>
              simp only [if_neg hv, if_neg hc, ha, hj]
              simp [hm, Outcome.error?]
            | some patch =>
              simp only [if_neg hv, if_neg hc, ha, hj]
              simp [hm, Outcome.error?]
        · simp only [if_neg hv, if_neg hc]
          simp [ha, Outcome.error?]

theorem PatientRecord.get_error (rt : Runtime) (ctx : Ctx) (s : WorldState) (id : String) :
    Outcome.error? (PatientRecord.getPatientRecord rt ctx s id) =
      if id = "" then some .ValidationError
      else
        match getState s.patientRecord id with
        | none => some .NotFound
        | some _ =>
          if PatientRecord._checkAccess rt s id ctx.clientID "READ" = true then none
          else some .PermissionDenied := by
  unfold PatientRecord.getPatientRecord
  by_cases hv : id = ""
  · simp [hv, Outcome.error?]
  · cases hr : getState s.patientRecord id with
    | none => simp [hv, Outcome.error?]
    | some r =>
      by_cases ha : PatientRecord._checkAccess rt s id ctx.clientID "READ" = true
      · simp [hv, ha, Outcome.error?]
      · simp [hv, ha, Outcome.error?]

theorem PatientRecord.delete_error (rt : Runtime) (ctx : Ctx) (s : WorldState) (id : String) :
    Outcome.error? (PatientRecord.deletePatientRecord rt ctx s id) =
      if id = "" then some .ValidationError
      else
        match getState s.patientRecord id with
        | none => some .NotFound
        | some _ =>
          if PatientRecord._checkAccess rt s id ctx.clientID "DELETE" = true then none
          else some .PermissionDenied := by
  unfold PatientRecord.deletePatientRecord
  by_cases hv : id = ""
  · simp [hv, Outcome.error?]
  · cases hr : getState s.patientRecord id with
    | none => simp [hv, Outcome.error?]
    | some r =>
      by_cases ha : PatientRecord._checkAccess rt s id ctx.clientID "DELETE" = true
      · simp [hv, ha, Outcome.error?]
      · simp [hv, ha, Outcome.error?]

theorem withStatus_record (s : WorldState) (R : String) (r : PatientRecordDoc) (st : Status) :
    getState (withStatus s R r st).patientRecord R = some { r with status := st } := by
  simp [withStatus, getState_putState_same]

theorem withStatus_checkAccess (rt : Runtime) (s : WorldState) (R : String)
    (r : PatientRecordDoc) (st : Status) (I p : String) :
    PatientRecord._checkAccess rt (withStatus s R r st) R I p
      = PatientRecord._checkAccess rt s R I p := rfl

theorem PatientRecord.update_ok_noPatch (rt : Runtime) (ctx : Ctx) (s : WorldState)
    (R h : String) (r : PatientRecordDoc) (hR : R ≠ "") (hh : h ≠ "")
    (hstored : getState s.patientRecord R = some r)
    (hacc : PatientRecord._checkAccess rt s R ctx.clientID "UPDATE" = true) :
    PatientRecord.updatePatientRecord rt ctx s R h "" "" =
      .ok (PatientRecord._createAuditEntry ctx
            { s with patientRecord := (putState s.patientRecord R
                { r with dataHash := h, updatedAt := ctx.timestamp, version := r.version + 1,
                         txId := ctx.txID, submitter := ctx.clientID }) }
            R "UPDATE" (some h) (some h) ctx.clientID ctx.timestamp,
          .updated ctx.txID ctx.timestamp (r.version + 1)) := by
  unfold PatientRecord.updatePatientRecord
  rw [if_neg (by simp [hR, hh])]
  simp only [hstored]
  rw [if_neg (by simp)]
  simp [hacc]

/-- C29 (record operations ignore status): for a record stored under R, the
outcome kind (success, or the error raised) of `updatePatientRecord`,
`getPatientRecord`, `verifyPatientRecord` and `deletePatientRecord` on R is the
same whatever status the record carries, all else equal; in particular on an
INACTIVE record an `updatePatientRecord` by an UPDATE holder succeeds and
overwrites the data hash, and a `deletePatientRecord` by a DELETE holder
succeeds and increments the version again. -/
theorem C29_operations_ignore_status (rt : Runtime) (ctx : Ctx) (s : WorldState) (R : String)
    (r : PatientRecordDoc) (hR : R ≠ "") (hstored : getState s.patientRecord R = some r) :
    (∀ (st : Status) (h ph m : String),
      Outcome.error? (PatientRecord.updatePatientRecord rt ctx (withStatus s R r st) R h ph m)
        = Outcome.error? (PatientRecord.updatePatientRecord rt ctx s R h ph m)) ∧
    (∀ st : Status,
      Outcome.error? (PatientRecord.getPatientRecord rt ctx (withStatus s R r st) R)
        = Outcome.error? (PatientRecord.getPatientRecord rt ctx s R)) ∧
    (∀ (st : Status) (h : String),
      Outcome.error? (PatientRecord.verifyPatientRecord rt ctx (withStatus s R r st) R h)
        = Outcome.error? (PatientRecord.verifyPatientRecord rt ctx s R h)) ∧
    (∀ st : Status,
      Outcome.error? (PatientRecord.deletePatientRecord rt ctx (withStatus s R r st) R)
        = Outcome.error? (PatientRecord.deletePatientRecord rt ctx s R)) ∧
    (∀ h : String, h ≠ "" → PatientRecord._checkAccess rt s R ctx.clientID "UPDATE" = true →
      ∃ (s1 : WorldState) (r1 : PatientRecordDoc),
        PatientRecord.updatePatientRecord rt ctx (withStatus s R r .INACTIVE) R h "" ""
          = .ok (s1, .updated ctx.txID ctx.timestamp (r.version + 1)) ∧
        getState s1.patientRecord R = some r1 ∧ r1.dataHash = h ∧
        r1.status = Status.INACTIVE ∧ r1.version = r.version + 1) ∧
    (PatientRecord._checkAccess rt s R ctx.clientID "DELETE" = true →
      ∃ (s1 : WorldState) (r1 : PatientRecordDoc),
        PatientRecord.deletePatientRecord rt ctx (withStatus s R r .INACTIVE) R
          = .ok (s1, .deleted ctx.txID ctx.timestamp) ∧
        getState s1.patientRecord R = some r1 ∧
        r1.status = Status.INACTIVE ∧ r1.version = r.version + 1) := by
  refine ⟨fun st h ph m => ?_, fun st => ?_, fun st h => ?_, fun st => ?_,
    fun h hh hacc => ?_, fun hacc => ?_⟩
  · rw [PatientRecord.update_error, PatientRecord.update_error, withStatus_record,
      withStatus_checkAccess, hstored]
  · rw [PatientRecord.get_error, PatientRecord.get_error, withStatus_record,
      withStatus_checkAccess, hstored]
  · rw [PatientRecord.verify_error, PatientRecord.verify_error, withStatus_record,
      withStatus_checkAccess, hstored]
  · rw [PatientRecord.delete_error, PatientRecord.delete_error, withStatus_record,
      withStatus_checkAccess, hstored]
  · refine ⟨_, { r with status := .INACTIVE, dataHash := h, updatedAt := ctx.timestamp,
                        version := r.version + 1, txId := ctx.txID, submitter := ctx.clientID },
      PatientRecord.update_ok_noPatch rt ctx (withStatus s R r .INACTIVE) R h
        { r with status := .INACTIVE } hR hh (withStatus_record s R r .INACTIVE) hacc,
      ?_, rfl, rfl, rfl⟩
    simp [PatientRecord._createAuditEntry, getState_putState_same]
  · refine ⟨_, { r with status := .INACTIVE, updatedAt := ctx.timestamp,
                        version := r.version + 1, txId := ctx.txID, submitter := ctx.clientID },
      PatientRecord.delete_ok rt ctx (withStatus s R r .INACTIVE) R
        { r with status := .INACTIVE } hR (withStatus_record s R r .INACTIVE) hacc,
      ?_, rfl, rfl⟩
    simp [PatientRecord._createAuditEntry, getState_putState_same]

/-- Witness for C29: record `p1` of the fixture ledger, operated on by `alice`
with its status set to INACTIVE. -/
theorem C29_operations_ignore_status_witness :
    Outcome.error? (PatientRecord.updatePatientRecord (fixtureRuntime 0 0)
        (aliceCtx "tx2" 1700000100) (withStatus fixtureLedger "p1" fixtureRecord .INACTIVE)
        "p1" "h2" "h1" "{}")
      = Outcome.error? (PatientRecord.updatePatientRecord (fixtureRuntime 0 0)
        (aliceCtx "tx2" 1700000100) fixtureLedger "p1" "h2" "h1" "{}") ∧
    Outcome.error? (PatientRecord.getPatientRecord (fixtureRuntime 0 0)
        (aliceCtx "tx2" 1700000100) (withStatus fixtureLedger "p1" fixtureRecord .INACTIVE) "p1")
      = Outcome.error? (PatientRecord.getPatientRecord (fixtureRuntime 0 0)
        (aliceCtx "tx2" 1700000100) fixtureLedger "p1") ∧
    Outcome.error? (PatientRecord.verifyPatientRecord (fixtureRuntime 0 0)
        (aliceCtx "tx2" 1700000100) (withStatus fixtureLedger "p1" fixtureRecord .INACTIVE)
        "p1" "h1")
      = Outcome.error? (PatientRecord.verifyPatientRecord (fixtureRuntime 0 0)
        (aliceCtx "tx2" 1700000100) fixtureLedger "p1" "h1") ∧
    Outcome.error? (PatientRecord.deletePatientRecord (fixtureRuntime 0 0)
        (aliceCtx "tx2" 1700000100) (withStatus fixtureLedger "p1" fixtureRecord .INACTIVE) "p1")
      = Outcome.error? (PatientRecord.deletePatientRecord (fixtureRuntime 0 0)
        (aliceCtx "tx2" 1700000100) fixtureLedger "p1") ∧
    (∃ (s1 : WorldState) (r1 : PatientRecordDoc),
      PatientRecord.updatePatientRecord (fixtureRuntime 0 0) (aliceCtx "tx2" 1700000100)
        (withStatus fixtureLedger "p1" fixtureRecord .INACTIVE) "p1" "h2" "" ""
        = .ok (s1, .updated (aliceCtx "tx2" 1700000100).txID
            (aliceCtx "tx2" 1700000100).timestamp (fixtureRecord.version + 1)) ∧
      getState s1.patientRecord "p1" = some r1 ∧ r1.dataHash = "h2" ∧
      r1.status = Status.INACTIVE ∧ r1.version = fixtureRecord.version + 1) ∧
    (∃ (s1 : WorldState) (r1 : PatientRecordDoc),
      PatientRecord.deletePatientRecord (fixtureRuntime 0 0) (aliceCtx "tx2" 1700000100)
        (withStatus fixtureLedger "p1" fixtureRecord .INACTIVE) "p1"
        = .ok (s1, .deleted (aliceCtx "tx2" 1700000100).txID
            (aliceCtx "tx2" 1700000100).timestamp) ∧
      getState s1.patientRecord "p1" = some r1 ∧
      r1.status = Status.INACTIVE ∧ r1.version = fixtureRecord.version + 1) := by
  have hall := C29_operations_ignore_status (fixtureRuntime 0 0) (aliceCtx "tx2" 1700000100)
    fixtureLedger "p1" fixtureRecord (by decide) rfl
  exact ⟨hall.1 .INACTIVE "h2" "h1" "{}", hall.2.1 .INACTIVE, hall.2.2.1 .INACTIVE "h1",
    hall.2.2.2.1 .INACTIVE, hall.2.2.2.2.1 "h2" (by decide) (by decide),
    hall.2.2.2.2.2 (by decide)⟩

theorem deletedLedger_still_operable :
    statusOf deletedLedger "p1" = some Status.INACTIVE ∧
    versionOf deletedLedger "p1" = some 3 ∧
    versionOf (commit deletedLedger ⟨fixtureRuntime 0 0, aliceCtx "tx6" 1700000500,
      .deletePatientRecord "p1"⟩) "p1" = some 4 ∧
    (getState (commit deletedLedger ⟨fixtureRuntime 0 0, aliceCtx "tx6" 1700000500,
      .updatePatientRecord "p1" "h9" "" ""⟩).patientRecord "p1").map
        (fun r => (r.dataHash, r.version, r.status)) = some ("h9", 4, Status.INACTIVE) := by
  refine ⟨by decide, by decide, by decide, by decide⟩

/-! ## Audit entries written by a transaction -/

section StoreMembership
variable {κ ν : Type} [DecidableEq κ]

theorem getState_some_mem (m : List (κ × ν)) (k : κ) (v : ν) (h : getState m k = some v) :
    (k, v) ∈ m := by
  induction m with
  | nil => cases h
  | cons e t ih =>
    obtain ⟨k0, v0⟩ := e
    by_cases hk : k0 = k
    · subst hk
      simp only [getState, if_true, Option.some.injEq] at h
      subst h
      exact List.mem_cons_self _ _
    · simp only [getState, if_neg hk] at h
      exact List.mem_cons_of_mem _ (ih h)

theorem deleteState_eq_self (m : List (κ × ν)) (k : κ) (h : ∀ ke ∈ m, ke.1 ≠ k) :
    deleteState m k = m := by
  unfold deleteState
  rw [List.filter_eq_self]
  intro ke hke
  simpa using h ke hke

theorem mem_putState (m : List (κ × ν)) (k : κ) (v : ν) (ke : κ × ν)
    (h : ke ∈ putState m k v) : ke = (k, v) ∨ ke ∈ m := by
  unfold putState deleteState at h
  rcases List.mem_cons.mp h with h0 | h0
  · exact Or.inl h0
  · exact Or.inr (List.mem_of_mem_filter h0)

end StoreMembership

/-- Shape of the two audit maps after a successful transaction: each is as it
was or has one entry put under a key whose transaction id is the current one,
the entry carrying that key's patient id and transaction id. -/
theorem invoke_audit_shape (rt : Runtime) (ctx : Ctx) (s s1 : WorldState) (op : Op)
    (resp : Response) (hinv : invoke rt ctx s op = .ok (s1, resp)) :
    (s1.auditTrail = s.auditTrail ∨
      ∃ p e, s1.auditTrail = putState s.auditTrail (p, ctx.txID) e ∧
        e.patientId = p ∧ e.txId = ctx.txID) ∧
    (s1.accessAudit = s.accessAudit ∨
      ∃ p e, s1.accessAudit = putState s.accessAudit (p, ctx.txID) e ∧
        e.patientId = p ∧ e.txId = ctx.txID) := by
  cases op <;>
    simp only [invoke, PatientRecord.initLedger, PatientRecord.registerPatientRecord,
      PatientRecord.updatePatientRecord, PatientRecord.verifyPatientRecord,
      PatientRecord.getPatientRecord, PatientRecord.deletePatientRecord,
      PatientRecord.getAuditTrail, PatientRecord.grantAccess,
      PatientRecord.revokeAccess, AccessControl.initLedger, AccessControl.grantAccess,
      AccessControl.revokeAccess, AccessControl.getAccessControlList, AccessControl.checkAccess,
      AccessControl.updateAccessExpiry, AccessControl.updateAccessPermissions,
      AuditTrail.initLedger, AuditTrail.createAuditEntry, AuditTrail.getAuditTrail,
      AuditTrail.getAuditTrailByDateRange, AuditTrail.getAuditTrailByAction,
      AuditTrail.getAuditTrailBySubmitter, AuditTrail.getAuditEntryByTxId] at hinv <;>
    repeat' split at hinv
  all_goals cases hinv
  all_goals
    first
      | exact ⟨Or.inl rfl, Or.inl rfl⟩
      | exact ⟨Or.inr ⟨_, _, rfl, rfl, rfl⟩, Or.inl rfl⟩
      | exact ⟨Or.inl rfl, Or.inr ⟨_, _, rfl, rfl, rfl⟩⟩

theorem commit_auditKeyed (s : WorldState) (tx : Tx) (h : auditKeyed s) :
    auditKeyed (commit s tx) := by
  obtain ⟨rt, ctx, op⟩ := tx
  cases hinv : invoke rt ctx s op with
  | error e =>
    rw [commit_of_error s ⟨rt, ctx, op⟩ e hinv]
    exact h
  | ok res =>
    obtain ⟨s1, resp⟩ := res
    rw [commit_of_ok s s1 ⟨rt, ctx, op⟩ resp hinv]
    obtain ⟨hA, hB⟩ := invoke_audit_shape rt ctx s s1 op resp hinv
    refine ⟨?_, ?_⟩
    · rcases hA with hA | ⟨p, e, hA, hp, ht⟩
      · rw [hA]
        exact h.1
      · rw [hA]
        intro ke hke
        rcases mem_putState _ _ _ ke hke with h0 | h0
        · subst h0
          exact ⟨hp, ht⟩
        · exact h.1 ke h0
    · rcases hB with hB | ⟨p, e, hB, hp, ht⟩
      · rw [hB]
        exact h.2
      · rw [hB]
        intro ke hke
        rcases mem_putState _ _ _ ke hke with h0 | h0
        · subst h0
          exact ⟨hp, ht⟩
        · exact h.2 ke h0

theorem run_auditKeyed (txs : List Tx) (s : WorldState) (h : auditKeyed s) :
    auditKeyed (run s txs) := by
  induction txs generalizing s with
  | nil => exact h
  | cons tx rest ih => exact ih (commit s tx) (commit_auditKeyed s tx h)

theorem empty_auditKeyed : auditKeyed WorldState.empty := by
  refine ⟨?_, ?_⟩ <;> intro ke hke <;> cases hke

/-- C23 (audit entries are write-once): when no stored audit entry is keyed by
the current transaction id, every entry stored under either audit object type
before a transaction of the three contracts is stored, with identical content,
under the same key after it; in a ledger reachable from the empty one the same
holds when the current transaction id differs from the `txId` field of every
stored audit entry. -/
theorem C23_audit_write_once (s : WorldState) (tx : Tx) :
    (txUnused s tx.ctx.txID →
      (∀ k e, getState s.auditTrail k = some e → getState (commit s tx).auditTrail k = some e) ∧
      (∀ k e, getState s.accessAudit k = some e →
        getState (commit s tx).accessAudit k = some e)) ∧
    (∀ txs : List Tx, s = run WorldState.empty txs →
      (∀ ke ∈ s.auditTrail, ke.2.txId ≠ tx.ctx.txID) →
      (∀ ke ∈ s.accessAudit, ke.2.txId ≠ tx.ctx.txID) →
      (∀ k e, getState s.auditTrail k = some e → getState (commit s tx).auditTrail k = some e) ∧
      (∀ k e, getState s.accessAudit k = some e →
        getState (commit s tx).accessAudit k = some e)) := by
  have key : txUnused s tx.ctx.txID →
      (∀ k e, getState s.auditTrail k = some e → getState (commit s tx).auditTrail k = some e) ∧
      (∀ k e, getState s.accessAudit k = some e →
        getState (commit s tx).accessAudit k = some e) := by
    intro hfresh
    obtain ⟨rt, ctx, op⟩ := tx
    cases hinv : invoke rt ctx s op with
    | error e0 =>
      rw [commit_of_error s ⟨rt, ctx, op⟩ e0 hinv]
      exact ⟨fun _ _ h => h, fun _ _ h => h⟩
    | ok res =>
      obtain ⟨s1, resp⟩ := res
      rw [commit_of_ok s s1 ⟨rt, ctx, op⟩ resp hinv]
      obtain ⟨hA, hB⟩ := invoke_audit_shape rt ctx s s1 op resp hinv
      refine ⟨fun k e hk => ?_, fun k e hk => ?_⟩
      · rcases hA with hA | ⟨p, e1, hA, _, _⟩
        · rw [hA]
          exact hk
        · rw [hA, getState_putState_other _ _ _ _ ?_]
          · exact hk
          · intro hkey
            exact hfresh.1 (k, e) (getState_some_mem _ _ _ hk) (by rw [← hkey])
      · rcases hB with hB | ⟨p, e1, hB, _, _⟩
        · rw [hB]
          exact hk
        · rw [hB, getState_putState_other _ _ _ _ ?_]
          · exact hk
          · intro hkey
            exact hfresh.2 (k, e) (getState_some_mem _ _ _ hk) (by rw [← hkey])
  refine ⟨key, fun txs hs hf1 hf2 => key ⟨fun ke hke hcontra => ?_, fun ke hke hcontra => ?_⟩⟩
  · have hk := run_auditKeyed txs WorldState.empty empty_auditKeyed
    rw [← hs] at hk
    exact hf1 ke hke ((hk.1 ke hke).2.trans hcontra)
  · have hk := run_auditKeyed txs WorldState.empty empty_auditKeyed
    rw [← hs] at hk
    exact hf2 ke hke ((hk.2 ke hke).2.trans hcontra)

/-- Witness for C23: `alice` updates `p1` under transaction `tx2` on the ledger
left by the registration under `tx1`. -/
theorem C23_audit_write_once_witness :
    ((∀ k e, getState registeredLedger.auditTrail k = some e →
        getState (commit registeredLedger ⟨fixtureRuntime 0 0, aliceCtx "tx2" 1700000100,
          .updatePatientRecord "p1" "h2" "h1" "{}"⟩).auditTrail k = some e) ∧
      (∀ k e, getState registeredLedger.accessAudit k = some e →
        getState (commit registeredLedger ⟨fixtureRuntime 0 0, aliceCtx "tx2" 1700000100,
          .updatePatientRecord "p1" "h2" "h1" "{}"⟩).accessAudit k = some e)) ∧
    ((∀ k e, getState registeredLedger.auditTrail k = some e →
        getState (commit registeredLedger ⟨fixtureRuntime 0 0, aliceCtx "tx2" 1700000100,
          .updatePatientRecord "p1" "h2" "h1" "{}"⟩).auditTrail k = some e) ∧
      (∀ k e, getState registeredLedger.accessAudit k = some e →
        getState (commit registeredLedger ⟨fixtureRuntime 0 0, aliceCtx "tx2" 1700000100,
          .updatePatientRecord "p1" "h2" "h1" "{}"⟩).accessAudit k = some e)) :=
  ⟨(C23_audit_write_once registeredLedger ⟨fixtureRuntime 0 0, aliceCtx "tx2" 1700000100,
      .updatePatientRecord "p1" "h2" "h1" "{}"⟩).1 (by unfold txUnused; decide),
   (C23_audit_write_once registeredLedger ⟨fixtureRuntime 0 0, aliceCtx "tx2" 1700000100,
      .updatePatientRecord "p1" "h2" "h1" "{}"⟩).2
      [⟨fixtureRuntime 0 0, aliceCtx "tx1" 1700000000,
        .registerPatientRecord "p1" "h1" "{}" "OrgA"⟩] rfl (by decide) (by decide)⟩

/-! ## Audit trail returned to a reader -/

theorem getAuditTrail_result (rt : Runtime) (ctx : Ctx) (s s1 : WorldState) (R : String)
    (resp : Response)
    (h : PatientRecord.getAuditTrail rt ctx s R = .ok (s1, resp) ∨
      AuditTrail.getAuditTrail ctx s R = .ok (s1, resp)) :
    s1 = s ∧ resp = .auditTrail (auditTrailOf s R) := by
  rcases h with h | h
  · simp only [PatientRecord.getAuditTrail] at h
    repeat' split at h
    all_goals cases h
    exact ⟨rfl, rfl⟩
  · simp only [AuditTrail.getAuditTrail, AuditTrail.readGate] at h
    repeat' split at h
    all_goals cases h
    all_goals exact ⟨rfl, rfl⟩

theorem auditTrailOf_put (s s1 : WorldState) (R txID : String) (e : AuditEntry)
    (hput : s1.auditTrail = putState s.auditTrail (R, txID) e) (hp : e.patientId = R)
    (hfresh : ∀ ke ∈ s.auditTrail, ke.1.2 ≠ txID) :
    List.Perm (auditTrailOf s1 R) (e :: auditTrailOf s R) := by
  have hdel : deleteState s.auditTrail (R, txID) = s.auditTrail :=
    deleteState_eq_self _ _ (fun ke hke hk => hfresh ke hke (by rw [hk]))
  unfold auditTrailOf queryAuditTrail
  rw [hput, putState, hdel]
  simp only [List.map_cons, Bool.and_true]
  rw [List.filter_cons_of_pos (by simpa using hp)]
  exact (List.perm_insertionSort _ _).trans
    (List.Perm.cons e (List.perm_insertionSort _ _).symm)

theorem auditTrailOf_txId_ne (s : WorldState) (R txID : String) (hkeyed : auditKeyed s)
    (hfresh : ∀ ke ∈ s.auditTrail, ke.1.2 ≠ txID) :
    ∀ e ∈ auditTrailOf s R, e.txId ≠ txID := by
  intro e he
  unfold auditTrailOf queryAuditTrail at he
  have h1 := (List.perm_insertionSort _ _).subset he
  have h2 := List.mem_of_mem_filter h1
  obtain ⟨ke, hke, rfl⟩ := List.mem_map.mp h2
  rw [(hkeyed.1 ke hke).2]
  exact hfresh ke hke

theorem invoke_recordAudit (rt : Runtime) (ctx : Ctx) (s s1 : WorldState) (op : Op)
    (resp : Response) (R tag : String) (htag : recordAuditTag op = some (R, tag))
    (hinv : invoke rt ctx s op = .ok (s1, resp)) :
    s1.accessAudit = s.accessAudit ∧
    ∃ e : AuditEntry, s1.auditTrail = putState s.auditTrail (R, ctx.txID) e ∧
      e.action = tag ∧ e.patientId = R ∧ e.txId = ctx.txID := by
  cases op <;> simp [recordAuditTag] at htag <;> obtain ⟨rfl, rfl⟩ := htag <;>
    simp only [invoke, PatientRecord.registerPatientRecord, PatientRecord.updatePatientRecord,
      PatientRecord.deletePatientRecord, PatientRecord.grantAccess,
      PatientRecord.revokeAccess] at hinv <;>
    repeat' split at hinv
  all_goals cases hinv
  all_goals exact ⟨rfl, _, rfl, rfl, rfl, rfl⟩

theorem invoke_accessAudit (rt : Runtime) (ctx : Ctx) (s s1 : WorldState) (op : Op)
    (resp : Response) (R tag : String) (htag : accessAuditTag op = some (R, tag))
    (hinv : invoke rt ctx s op = .ok (s1, resp)) :
    s1.auditTrail = s.auditTrail ∧
    ∃ a : AccessAuditEntry, s1.accessAudit = putState s.accessAudit (R, ctx.txID) a ∧
      a.action = tag ∧ a.patientId = R ∧ a.txId = ctx.txID := by
  cases op <;> simp [accessAuditTag] at htag <;> obtain ⟨rfl, rfl⟩ := htag <;>
    simp only [invoke, AccessControl.grantAccess, AccessControl.revokeAccess,
      AccessControl.updateAccessExpiry, AccessControl.updateAccessPermissions] at hinv <;>
    repeat' split at hinv
  all_goals cases hinv
  all_goals exact ⟨rfl, _, rfl, rfl, rfl, rfl⟩

/-- C21 (audit completeness, as the code has it): let a transaction succeed on a
ledger whose audit entries carry their key's ids and none of which is keyed by
the current transaction id.  If it is `registerPatientRecord`,
`updatePatientRecord`, `deletePatientRecord`, or `grantAccess`/`revokeAccess`
of `patient-record.js` on R, the list returned by `getAuditTrail(R)` afterwards
is the list before plus exactly one entry, whose action is the function's tag
and whose txId is the current one and differs from that of every other entry.
If it is `grantAccess`, `revokeAccess`, `updateAccessExpiry` or
`updateAccessPermissions` of `access-control.js` on R, it stores one entry with
the function's tag under the `accessAudit` key (R, txId) and the list returned
by `getAuditTrail(R)` is as before. -/
theorem C21_audit_completeness (rt : Runtime) (ctx : Ctx) (s s1 : WorldState) (op : Op)
    (resp : Response) (hinv : invoke rt ctx s op = .ok (s1, resp))
    (hkeyed : auditKeyed s) (hfresh : txUnused s ctx.txID) :
    (∀ R tag, recordAuditTag op = some (R, tag) →
      ∃ e : AuditEntry, List.Perm (auditTrailOf s1 R) (e :: auditTrailOf s R) ∧
        (auditTrailOf s1 R).length = (auditTrailOf s R).length + 1 ∧
        e.action = tag ∧ e.patientId = R ∧ e.txId = ctx.txID ∧
        ∀ e1 ∈ auditTrailOf s R, e1.txId ≠ e.txId) ∧
    (∀ R tag, accessAuditTag op = some (R, tag) →
      auditTrailOf s1 R = auditTrailOf s R ∧
      ∃ a : AccessAuditEntry, getState s1.accessAudit (R, ctx.txID) = some a ∧
        a.action = tag ∧ a.patientId = R ∧ a.txId = ctx.txID) := by
  refine ⟨fun R tag htag => ?_, fun R tag htag => ?_⟩
  · obtain ⟨_, e, hput, hact, hp, ht⟩ := invoke_recordAudit rt ctx s s1 op resp R tag htag hinv
    have hperm := auditTrailOf_put s s1 R ctx.txID e hput hp hfresh.1
    refine ⟨e, hperm, by simpa using hperm.length_eq, hact, hp, ht, ?_⟩
    rw [ht]
    exact auditTrailOf_txId_ne s R ctx.txID hkeyed hfresh.1
  · obtain ⟨hsame, a, hput, hact, hp, ht⟩ :=
      invoke_accessAudit rt ctx s s1 op resp R tag htag hinv
    refine ⟨?_, a, ?_, hact, hp, ht⟩
    · unfold auditTrailOf queryAuditTrail
      rw [hsame]
    · rw [hput]
      exact getState_putState_same _ _ _

/-- Witness for C21: on the ledger left by the registration of `p1` under
`tx1`, `alice` updates `p1` under `tx2`, and, separately, grants `READ` to
`bob` through `access-control.js` under `tx2`. -/
theorem C21_audit_completeness_witness :
    (∃ e : AuditEntry,
      List.Perm
        (auditTrailOf (commit registeredLedger ⟨fixtureRuntime 0 0, aliceCtx "tx2" 1700000100,
          .updatePatientRecord "p1" "h2" "h1" "{}"⟩) "p1")
        (e :: auditTrailOf registeredLedger "p1") ∧
      (auditTrailOf (commit registeredLedger ⟨fixtureRuntime 0 0, aliceCtx "tx2" 1700000100,
          .updatePatientRecord "p1" "h2" "h1" "{}"⟩) "p1").length
        = (auditTrailOf registeredLedger "p1").length + 1 ∧
      e.action = "UPDATE" ∧ e.patientId = "p1" ∧ e.txId = (aliceCtx "tx2" 1700000100).txID ∧
      ∀ e1 ∈ auditTrailOf registeredLedger "p1", e1.txId ≠ e.txId) ∧
    (auditTrailOf (commit registeredLedger ⟨fixtureRuntime 0 0, aliceCtx "tx2" 1700000100,
        .grantAccess "p1" "bob" "READ" ""⟩) "p1" = auditTrailOf registeredLedger "p1" ∧
      ∃ a : AccessAuditEntry,
        getState (commit registeredLedger ⟨fixtureRuntime 0 0, aliceCtx "tx2" 1700000100,
          .grantAccess "p1" "bob" "READ" ""⟩).accessAudit
            ("p1", (aliceCtx "tx2" 1700000100).txID) = some a ∧
        a.action = "GRANT_ACCESS" ∧ a.patientId = "p1" ∧
        a.txId = (aliceCtx "tx2" 1700000100).txID) :=
  ⟨(C21_audit_completeness (fixtureRuntime 0 0) (aliceCtx "tx2" 1700000100) registeredLedger
      (commit registeredLedger ⟨fixtureRuntime 0 0, aliceCtx "tx2" 1700000100,
        .updatePatientRecord "p1" "h2" "h1" "{}"⟩)
      (.updatePatientRecord "p1" "h2" "h1" "{}") (.updated "tx2" 1700000100000 2) rfl
      (by unfold auditKeyed; decide) (by unfold txUnused; decide)).1 "p1" "UPDATE" rfl,
   (C21_audit_completeness (fixtureRuntime 0 0) (aliceCtx "tx2" 1700000100) registeredLedger
      (commit registeredLedger ⟨fixtureRuntime 0 0, aliceCtx "tx2" 1700000100,
        .grantAccess "p1" "bob" "READ" ""⟩)
      (.grantAccess "p1" "bob" "READ" "") (.granted ["READ"] "" (some "tx2")) rfl
      (by unfold auditKeyed; decide) (by unfold txUnused; decide)).2 "p1" "GRANT_ACCESS" rfl⟩

/-- Counterexample to C21 as stated: on the ledger left by the registration of
`p1` under `tx1`, `grantAccess(p1, bob, 'READ', '')` of `access-control.js`
submitted by `alice` under the unused transaction id `tx2` succeeds, and the
list returned by `getAuditTrail(p1)` has one entry before and one entry after
the call; the same holds for `revokeAccess`, `updateAccessExpiry` and
`updateAccessPermissions` on the grant of `alice` herself. -/
theorem C21_access_control_not_in_trail_counterexample :
    (auditTrailOf registeredLedger "p1").length = 1 ∧
    (succeeds registeredLedger ⟨fixtureRuntime 0 0, aliceCtx "tx2" 1700000100,
        .grantAccess "p1" "bob" "READ" ""⟩ = true ∧
      (auditTrailOf (commit registeredLedger ⟨fixtureRuntime 0 0, aliceCtx "tx2" 1700000100,
        .grantAccess "p1" "bob" "READ" ""⟩) "p1").length = 1) ∧
    (succeeds registeredLedger ⟨fixtureRuntime 0 0, aliceCtx "tx2" 1700000100,
        .updateAccessExpiry "p1" "alice" "2025-12-31T23:59:59Z"⟩ = true ∧
      (auditTrailOf (commit registeredLedger ⟨fixtureRuntime 0 0, aliceCtx "tx2" 1700000100,
        .updateAccessExpiry "p1" "alice" "2025-12-31T23:59:59Z"⟩) "p1").length = 1) ∧
    (succeeds registeredLedger ⟨fixtureRuntime 0 0, aliceCtx "tx2" 1700000100,
        .updateAccessPermissions "p1" "alice" "READ,GRANT"⟩ = true ∧
      (auditTrailOf (commit registeredLedger ⟨fixtureRuntime 0 0, aliceCtx "tx2" 1700000100,
        .updateAccessPermissions "p1" "alice" "READ,GRANT"⟩) "p1").length = 1) ∧
    (succeeds registeredLedger ⟨fixtureRuntime 0 0, aliceCtx "tx2" 1700000100,
        .revokeAccess "p1" "alice"⟩ = true ∧
      (auditTrailOf (commit registeredLedger ⟨fixtureRuntime 0 0, aliceCtx "tx2" 1700000100,
        .revokeAccess "p1" "alice"⟩) "p1").length = 1) := by
  refine ⟨by decide, ⟨by decide, by decide⟩, ⟨by decide, by decide⟩, ⟨by decide, by decide⟩,
    ⟨by decide, by decide⟩⟩

/-! ## Grants written by a transaction -/

theorem AccessControl.checkAccess_true_stored (rt : Runtime) (s : WorldState) (R I p : String)
    (h : AccessControl._checkAccess rt s R I p = true) :
    ∃ g : AccessControlDoc, getState s.accessControl (accessControlKey R I) = some g ∧ p ∈ g.permissions := by
  cases hg : getState s.accessControl (accessControlKey R I) with
  | none => simp [AccessControl._checkAccess, hg] at h
  | some g =>
    refine ⟨g, rfl, ?_⟩
    simp only [AccessControl._checkAccess, hg] at h
    repeat' split at h
    all_goals first
      | cases h
      | simpa using h

theorem invoke_grant_checked (rt : Runtime) (ctx : Ctx) (s s1 : WorldState) (op : Op)
    (resp : Response) (R : String) (htarget : grantTarget op = some R)
    (hinv : invoke rt ctx s op = .ok (s1, resp)) :
    AccessControl._checkAccess rt s R ctx.clientID "GRANT" = true := by
  cases hc : AccessControl._checkAccess rt s R ctx.clientID "GRANT" with
  | true => rfl
  | false =>
    obtain ⟨e, he⟩ := invoke_grant_denied rt ctx s op R htarget hc
    rw [he] at hinv
    cases hinv

theorem PatientRecord.register_shape (rt : Runtime) (ctx : Ctx) (s s1 : WorldState)
    (p h m o : String) (resp : Response)
    (hok : PatientRecord.registerPatientRecord rt ctx s p h m o = .ok (s1, resp)) :
    getState s.patientRecord p = none ∧
    ∃ (r : PatientRecordDoc) (g : AccessControlDoc),
      s1.patientRecord = putState s.patientRecord p r ∧
      s1.accessControl = putState s.accessControl (accessControlKey p ctx.clientID) g ∧
      g.patientId = p ∧ g.permissions = ["READ", "UPDATE", "DELETE", "GRANT"] ∧
      g.expiryDate = none ∧ g.identity = ctx.clientID := by
  simp only [PatientRecord.registerPatientRecord] at hok
  repeat' split at hok
  all_goals cases hok
  all_goals exact ⟨by assumption, _, _, rfl, rfl, rfl, rfl, rfl, rfl⟩

/-- Shape of the ledger after a successful `grantAccess` of either contract. -/
theorem grant_shape (rt : Runtime) (ctx : Ctx) (s s1 : WorldState) (R G ps e : String)
    (resp : Response)
    (hok : AccessControl.grantAccess rt ctx s R G ps e = .ok (s1, resp) ∨
      PatientRecord.grantAccess rt ctx s R G ps e = .ok (s1, resp)) :
    s1.patientRecord = s.patientRecord ∧
    ∃ g : AccessControlDoc, s1.accessControl = putState s.accessControl (accessControlKey R G) g ∧
      g.patientId = R ∧ g.permissions = parsePermissions rt ps ∧
      g.expiryDate = some e ∧ g.identity = G := by
  rcases hok with hok | hok
  · simp only [AccessControl.grantAccess] at hok
    repeat' split at hok
    all_goals cases hok
    all_goals exact ⟨rfl, _, rfl, rfl, rfl, rfl, rfl⟩
  · simp only [PatientRecord.grantAccess] at hok
    repeat' split at hok
    all_goals cases hok
    all_goals exact ⟨rfl, _, rfl, rfl, rfl, rfl, rfl⟩

theorem AccessControl.updateExpiry_shape (rt : Runtime) (ctx : Ctx) (s s1 : WorldState)
    (R G e : String) (resp : Response)
    (hok : AccessControl.updateAccessExpiry rt ctx s R G e = .ok (s1, resp)) :
    s1.patientRecord = s.patientRecord ∧
    ∃ g0 g : AccessControlDoc, getState s.accessControl (accessControlKey R G) = some g0 ∧
      s1.accessControl = putState s.accessControl (accessControlKey R G) g ∧
      g.patientId = g0.patientId ∧ g.permissions = g0.permissions ∧
      g.identity = g0.identity := by
  simp only [AccessControl.updateAccessExpiry] at hok
  repeat' split at hok
  all_goals cases hok
  rename_i g0 hg
  exact ⟨rfl, g0, _, hg, rfl, rfl, rfl, rfl⟩

theorem AccessControl.updatePermissions_shape (rt : Runtime) (ctx : Ctx) (s s1 : WorldState)
    (R G ps : String) (resp : Response)
    (hok : AccessControl.updateAccessPermissions rt ctx s R G ps = .ok (s1, resp)) :
    s1.patientRecord = s.patientRecord ∧
    ∃ g0 g : AccessControlDoc, getState s.accessControl (accessControlKey R G) = some g0 ∧
      s1.accessControl = putState s.accessControl (accessControlKey R G) g ∧
      g.patientId = g0.patientId ∧ g.permissions = parsePermissions rt ps ∧
      g.identity = g0.identity := by
  simp only [AccessControl.updateAccessPermissions] at hok
  repeat' split at hok
  all_goals cases hok
  rename_i g0 hg
  exact ⟨rfl, g0, _, hg, rfl, rfl, rfl, rfl⟩

theorem commit_record_isSome (s : WorldState) (tx : Tx) (R : String)
    (h : (getState s.patientRecord R).isSome = true) :
    (getState (commit s tx).patientRecord R).isSome = true := by
  obtain ⟨r, hr⟩ := Option.isSome_iff_exists.mp h
  obtain ⟨r1, hr1, _⟩ := commit_record_kept R s tx r hr
  rw [hr1]
  rfl

/-- Under the invariant, what is read under the key of (R, I) for an R free
of U+0000 is a grant of R to I, and R has a record. -/
theorem grantsRegistered_read (s : WorldState) (h : grantsRegistered s) (R I : String)
    (g : AccessControlDoc) (hR : nulFree R = true)
    (hg : getState s.accessControl (accessControlKey R I) = some g) :
    g.patientId = R ∧ g.identity = I ∧ (getState s.patientRecord R).isSome = true := by
  obtain ⟨hkey, hnul, hrec⟩ := h _ (getState_some_mem _ _ _ hg)
  obtain ⟨h1, h2⟩ := accessControlKey_injective R I g.patientId g.identity hR hnul hkey
  refine ⟨h1.symm, h2.symm, ?_⟩
  rw [h1]
  exact hrec

theorem commit_grantsRegistered (s : WorldState) (tx : Tx) (hnul : opNulFree tx.op = true)
    (h : grantsRegistered s) : grantsRegistered (commit s tx) := by
  have hkeep := fun R => commit_record_isSome s tx R
  obtain ⟨rt, ctx, op⟩ := tx
  cases hinv : invoke rt ctx s op with
  | error e =>
    rw [commit_of_error s ⟨rt, ctx, op⟩ e hinv]
    exact h
  | ok res =>
    obtain ⟨s1, resp⟩ := res
    have hc := commit_of_ok s s1 ⟨rt, ctx, op⟩ resp hinv
    rw [hc] at hkeep ⊢
    have hold : ∀ ke ∈ s.accessControl,
        ke.1 = accessControlKey ke.2.patientId ke.2.identity ∧
        nulFree ke.2.patientId = true ∧
        (getState s1.patientRecord ke.2.patientId).isSome = true :=
      fun ke hke => ⟨(h ke hke).1, (h ke hke).2.1, hkeep _ (h ke hke).2.2⟩
    have hput : ∀ (R G : String) (g : AccessControlDoc),
        s1.accessControl = putState s.accessControl (accessControlKey R G) g →
        nulFree R = true → (getState s1.patientRecord R).isSome = true →
        g.patientId = R → g.identity = G → grantsRegistered s1 := by
      intro R G g hacl hR hrec hpid hidn ke hke
      rw [hacl] at hke
      rcases mem_putState _ _ _ ke hke with h0 | h0
      · subst h0
        refine ⟨?_, ?_, ?_⟩
        · show accessControlKey R G = accessControlKey g.patientId g.identity
          rw [hpid, hidn]
        · show nulFree g.patientId = true
          rw [hpid]
          exact hR
        · show (getState s1.patientRecord g.patientId).isSome = true
          rw [hpid]
          exact hrec
      · exact hold ke h0
    have hchecked : ∀ R : String, nulFree R = true → grantTarget op = some R →
        (getState s1.patientRecord R).isSome = true := by
      intro R hR htarget
      obtain ⟨g0, hg0, _⟩ := AccessControl.checkAccess_true_stored rt s R ctx.clientID "GRANT"
        (invoke_grant_checked rt ctx s s1 op resp R htarget hinv)
      exact hkeep R (grantsRegistered_read s h R ctx.clientID g0 hR hg0).2.2
    have hframe : isRegister op = false → (∀ R, grantTarget op = some R → False) →
        s1.accessControl = s.accessControl := by
      intro h1 h2
      have h3 := commit_accessControl_frame s ⟨rt, ctx, op⟩ h1 (fun R hR => (h2 R hR).elim)
      rw [hc] at h3
      exact h3
    cases op
    case registerPatientRecord p hh m o =>
      have hp : nulFree p = true := hnul
      obtain ⟨_, r, g, hrec, hacl, hpid, _, _, hidn⟩ :=
        PatientRecord.register_shape rt ctx s s1 p hh m o resp hinv
      refine hput p ctx.clientID g hacl hp ?_ hpid hidn
      rw [hrec, getState_putState_same]
      rfl
    case prGrantAccess p g ps e =>
      have hp : nulFree p = true := hnul
      obtain ⟨_, g1, hacl, hpid, _, _, hidn⟩ :=
        grant_shape rt ctx s s1 p g ps e resp (Or.inr hinv)
      exact hput p g g1 hacl hp (hchecked p hp rfl) hpid hidn
    case grantAccess p g ps e =>
      have hp : nulFree p = true := hnul
      obtain ⟨_, g1, hacl, hpid, _, _, hidn⟩ :=
        grant_shape rt ctx s s1 p g ps e resp (Or.inl hinv)
      exact hput p g g1 hacl hp (hchecked p hp rfl) hpid hidn
    case prRevokeAccess p g =>
      obtain ⟨hacl, _⟩ := AccessControl.revoke_inv rt ctx s s1 p g resp (Or.inr hinv)
      intro ke hke
      rw [hacl] at hke
      exact hold ke (List.mem_of_mem_filter hke)
    case revokeAccess p g =>
      obtain ⟨hacl, _⟩ := AccessControl.revoke_inv rt ctx s s1 p g resp (Or.inl hinv)
      intro ke hke
      rw [hacl] at hke
      exact hold ke (List.mem_of_mem_filter hke)
    case updateAccessExpiry p g e =>
      have hp : nulFree p = true := hnul
      obtain ⟨_, g0, g1, hg0, hacl, hpid, _, hidn⟩ :=
        AccessControl.updateExpiry_shape rt ctx s s1 p g e resp hinv
      obtain ⟨h1, h2, h3⟩ := grantsRegistered_read s h p g g0 hp hg0
      exact hput p g g1 hacl hp (hkeep p h3) (hpid.trans h1) (hidn.trans h2)
    case updateAccessPermissions p g ps =>
      have hp : nulFree p = true := hnul
      obtain ⟨_, g0, g1, hg0, hacl, hpid, _, hidn⟩ :=
        AccessControl.updatePermissions_shape rt ctx s s1 p g ps resp hinv
      obtain ⟨h1, h2, h3⟩ := grantsRegistered_read s h p g g0 hp hg0
      exact hput p g g1 hacl hp (hkeep p h3) (hpid.trans h1) (hidn.trans h2)
    all_goals
      have hacl := hframe rfl (fun R hR => by cases hR)
      intro ke hke
      rw [hacl] at hke
      exact hold ke hke

theorem run_grantsRegistered (txs : List Tx) (s : WorldState)
    (hnul : ∀ tx ∈ txs, opNulFree tx.op = true) (h : grantsRegistered s) :
    grantsRegistered (run s txs) := by
  induction txs generalizing s with
  | nil => exact h
  | cons tx rest ih =>
    exact ih (commit s tx) (fun t ht => hnul t (List.mem_cons_of_mem _ ht))
      (commit_grantsRegistered s tx (hnul tx (List.mem_cons_self _ _)) h)

theorem empty_grantsRegistered : grantsRegistered WorldState.empty := by
  intro ke hke
  cases hke

/-- A transaction other than a registration of R stores no record for R. -/
theorem commit_record_absent (R : String) (s : WorldState) (tx : Tx)
    (hnone : getState s.patientRecord R = none)
    (hreg : ∀ h m o, tx.op ≠ .registerPatientRecord R h m o) :
    getState (commit s tx).patientRecord R = none := by
  obtain ⟨rt, ctx, op⟩ := tx
  cases hinv : invoke rt ctx s op with
  | error e =>
    rw [commit_of_error s ⟨rt, ctx, op⟩ e hinv]
    exact hnone
  | ok res =>
    obtain ⟨s1, resp⟩ := res
    rw [commit_of_ok s s1 ⟨rt, ctx, op⟩ resp hinv]
    cases op
    case registerPatientRecord p h m o =>
      obtain ⟨_, r, hput, _⟩ := PatientRecord.register_inv rt ctx s s1 p h m o resp hinv
      have hne : p ≠ R := fun hpR => hreg h m o (by rw [hpR])
      rw [hput, getState_putState_other _ p R r hne]
      exact hnone
    case updatePatientRecord p h ph m =>
      obtain ⟨r, r1, hget, hput, _⟩ := PatientRecord.update_inv rt ctx s s1 p h ph m resp hinv
      have hne : p ≠ R := by
        intro hpR
        rw [hpR, hnone] at hget
        cases hget
      rw [hput, getState_putState_other _ p R r1 hne]
      exact hnone
    case deletePatientRecord p =>
      obtain ⟨r, r1, hget, hput, _⟩ := PatientRecord.delete_inv rt ctx s s1 p resp hinv
      have hne : p ≠ R := by
        intro hpR
        rw [hpR, hnone] at hget
        cases hget
      rw [hput, getState_putState_other _ p R r1 hne]
      exact hnone
    all_goals
      have hro : s1.patientRecord = s.patientRecord := by
        refine invoke_readonly_patientRecord rt ctx s s1 _ resp ?_ ?_ hinv
        · intro _
          rfl
        · intro _ _ _ _ hcontra
          cases hcontra
      rw [hro]
      exact hnone

theorem run_record_absent (R : String) (txs : List Tx) (s : WorldState)
    (hnone : getState s.patientRecord R = none)
    (hreg : ∀ tx ∈ txs, ∀ h m o, tx.op ≠ .registerPatientRecord R h m o) :
    getState (run s txs).patientRecord R = none := by
  induction txs generalizing s with
  | nil => exact hnone
  | cons tx rest ih =>
    exact ih (commit s tx)
      (commit_record_absent R s tx hnone (hreg tx (List.mem_cons_self _ _)))
      (fun t ht => hreg t (List.mem_cons_of_mem _ ht))

/-- C26 (grants exist only for registered records, as the code has it): in
every ledger reached from the empty ledger by a sequence of transactions of the
three contracts whose `patientId` arguments are free of U+0000, every stored
grant sits under the key of its own `patientId` and `identity` and a patient
record is stored for its `patientId`; a resource R that no transaction of the
sequence registered has no stored record; and for such an R free of U+0000,
`_checkAccess(R, I, p)` of both contracts is false for every identity,
permission and runtime, and each of the six grant-mutating functions called on
R fails and leaves the ledger as it was. -/
theorem C26_grants_only_for_registered (txs : List Tx)
    (hnul : ∀ tx ∈ txs, opNulFree tx.op = true) :
    (∀ ke ∈ (run WorldState.empty txs).accessControl,
      (getState (run WorldState.empty txs).patientRecord ke.2.patientId).isSome = true ∧
      ke.1 = accessControlKey ke.2.patientId ke.2.identity) ∧
    (∀ (R I : String) (g : AccessControlDoc), nulFree R = true →
      getState (run WorldState.empty txs).accessControl (accessControlKey R I) = some g →
      (getState (run WorldState.empty txs).patientRecord R).isSome = true ∧
      g.patientId = R ∧ g.identity = I) ∧
    (∀ R : String, (∀ tx ∈ txs, ∀ h m o, tx.op ≠ .registerPatientRecord R h m o) →
      getState (run WorldState.empty txs).patientRecord R = none) ∧
    (∀ R : String, nulFree R = true →
      getState (run WorldState.empty txs).patientRecord R = none →
      (∀ (rt : Runtime) (I p : String),
        AccessControl._checkAccess rt (run WorldState.empty txs) R I p = false ∧
        PatientRecord._checkAccess rt (run WorldState.empty txs) R I p = false) ∧
      (∀ tx : Tx, grantTarget tx.op = some R →
        succeeds (run WorldState.empty txs) tx = false ∧
        commit (run WorldState.empty txs) tx = run WorldState.empty txs)) := by
  have hinv := run_grantsRegistered txs WorldState.empty hnul empty_grantsRegistered
  have hstored : ∀ (R I : String) (g : AccessControlDoc), nulFree R = true →
      getState (run WorldState.empty txs).accessControl (accessControlKey R I) = some g →
      (getState (run WorldState.empty txs).patientRecord R).isSome = true ∧
      g.patientId = R ∧ g.identity = I := by
    intro R I g hR hg
    obtain ⟨h1, h2, h3⟩ := grantsRegistered_read _ hinv R I g hR hg
    exact ⟨h3, h1, h2⟩
  have hcheck : ∀ R : String, nulFree R = true →
      getState (run WorldState.empty txs).patientRecord R = none →
      ∀ (rt : Runtime) (I p : String),
        AccessControl._checkAccess rt (run WorldState.empty txs) R I p = false := by
    intro R hR hnone rt I p
    cases hg : getState (run WorldState.empty txs).accessControl (accessControlKey R I) with
    | none => exact AccessControl.checkAccess_absent rt _ R I p hg
    | some g =>
      have h1 := (hstored R I g hR hg).1
      rw [hnone] at h1
      cases h1
  refine ⟨fun ke hke => ⟨(hinv ke hke).2.2, (hinv ke hke).1⟩, hstored,
    fun R hreg => run_record_absent R txs WorldState.empty rfl hreg,
    fun R hR hnone => ⟨fun rt I p => ⟨hcheck R hR hnone rt I p,
      (PatientRecord.checkAccess_eq rt _ R I p).trans (hcheck R hR hnone rt I p)⟩,
      fun tx htarget => ?_⟩⟩
  obtain ⟨e, he⟩ := invoke_grant_denied tx.rt tx.ctx (run WorldState.empty txs) tx.op R htarget
    (hcheck R hR hnone tx.rt tx.ctx.clientID "GRANT")
  exact ⟨by simp [succeeds, he, Outcome.state?], commit_of_error _ tx e he⟩

/-- On the ledger reached from the empty ledger by the first transaction of
`lockoutTxs` (a registration of `p1`), the resource `p9` was never registered:
it has no record, the check on it is false, and a grant on it fails. -/
theorem C26_grants_only_for_registered_witness :
    (∀ tx ∈ lockoutTxs.take 1, opNulFree tx.op = true) ∧
    getState (run WorldState.empty (lockoutTxs.take 1)).patientRecord "p9" = none ∧
    AccessControl._checkAccess (fixtureRuntime 0 0)
      (run WorldState.empty (lockoutTxs.take 1)) "p9" "alice" "READ" = false ∧
    succeeds (run WorldState.empty (lockoutTxs.take 1))
      ⟨fixtureRuntime 0 0, aliceCtx "tx9" 1700000900, .grantAccess "p9" "bob" "READ" ""⟩ = false :=
  have hnul : ∀ tx ∈ lockoutTxs.take 1, opNulFree tx.op = true := by decide
  have h := C26_grants_only_for_registered (lockoutTxs.take 1) hnul
  have hnone := h.2.2.1 "p9" (by
    intro tx htx h m o hop
    simp only [lockoutTxs, List.take, List.mem_singleton] at htx
    rw [htx] at hop
    simp at hop)
  ⟨hnul, hnone, ((h.2.2.2 "p9" (by decide) hnone).1 (fixtureRuntime 0 0) "alice" "READ").1,
    ((h.2.2.2 "p9" (by decide) hnone).2
      ⟨fixtureRuntime 0 0, aliceCtx "tx9" 1700000900, .grantAccess "p9" "bob" "READ" ""⟩ rfl).1⟩

/-- Counterexample to C26 as stated: from the empty ledger `alice` registers
`p1` and grants `READ,GRANT` on it to the identity `bob<U+0000>x`.  The resource
`p1<U+0000>bob` was never registered and has no record, yet the key of
(`p1<U+0000>bob`, `x`) is the key just written: `_checkAccess` on the
unregistered resource is true for `x`, `grantAccess` on it submitted by `x`
succeeds, and the grant it stores names a resource without a record.  The other
way round, from the empty ledger `bob` registers `p1<U+0000>q` and grants
`GRANT` on it to `z`: `p1`, free of U+0000 and never registered, then passes
`_checkAccess` for the identity `q<U+0000>z`. -/
theorem C26_key_collision_counterexample :
    accessControlKey "p1" "bob\x00x" = accessControlKey "p1\x00bob" "x" ∧
    (collidingGrantTxs.map (fun tx => isRegister tx.op && (tx.op.patientId? == some "p1\x00bob")))
      = [false, false] ∧
    (getState (run WorldState.empty collidingGrantTxs).patientRecord "p1\x00bob").isSome
      = false ∧
    AccessControl._checkAccess (fixtureRuntime 0 0) (run WorldState.empty collidingGrantTxs)
      "p1\x00bob" "x" "READ" = true ∧
    succeeds (run WorldState.empty collidingGrantTxs)
      ⟨fixtureRuntime 0 0, xCtx "tx3" 1700000200,
        .grantAccess "p1\x00bob" "carol" "READ" ""⟩ = true ∧
    ((commit (run WorldState.empty collidingGrantTxs)
      ⟨fixtureRuntime 0 0, xCtx "tx3" 1700000200,
        .grantAccess "p1\x00bob" "carol" "READ" ""⟩).accessControl.map
          (fun ke => (ke.2.patientId, ke.2.identity))).head? = some ("p1\x00bob", "carol") ∧
    (collidingLockoutTxs.map (fun tx => isRegister tx.op && (tx.op.patientId? == some "p1")))
      = [false, false] ∧
    (getState (run WorldState.empty collidingLockoutTxs).patientRecord "p1").isSome = false ∧
    AccessControl._checkAccess (fixtureRuntime 0 0) (run WorldState.empty collidingLockoutTxs)
      "p1" "q\x00z" "GRANT" = true := by
  refine ⟨by decide, by decide, by decide, by decide, by decide, by decide, by decide,
    by decide, by decide⟩

/-- A transaction that neither registers R nor is a grant function called on R,
and whose `patientId` argument is free of U+0000, leaves what is read under
every key of R, itself free of U+0000, as it was. -/
theorem commit_grants_local (R : String) (s : WorldState) (tx : Tx)
    (hR : nulFree R = true) (hnul : opNulFree tx.op = true)
    (hreg : ∀ h m o, tx.op ≠ .registerPatientRecord R h m o)
    (hgt : grantTarget tx.op ≠ some R) (I : String) :
    getState (commit s tx).accessControl (accessControlKey R I) =
      getState s.accessControl (accessControlKey R I) := by
  obtain ⟨rt, ctx, op⟩ := tx
  cases hinv : invoke rt ctx s op with
  | error e => rw [commit_of_error s ⟨rt, ctx, op⟩ e hinv]
  | ok res =>
    obtain ⟨s1, resp⟩ := res
    have hc := commit_of_ok s s1 ⟨rt, ctx, op⟩ resp hinv
    have hframe : isRegister op = false → (∀ R0, grantTarget op = some R0 → False) →
        s1.accessControl = s.accessControl := by
      intro h1 h2
      have h3 := commit_accessControl_frame s ⟨rt, ctx, op⟩ h1
        (fun R0 hR0 => (h2 R0 hR0).elim)
      rw [hc] at h3
      exact h3
    have hkey : ∀ p G : String, nulFree p = true → p ≠ R →
        accessControlKey p G ≠ accessControlKey R I := by
      intro p G hp hne heq
      exact hne (accessControlKey_injective p G R I hp hR heq).1
    rw [hc]
    cases op
    case registerPatientRecord p h m o =>
      have hne : p ≠ R := fun hpR => hreg h m o (by rw [hpR])
      obtain ⟨_, r, g, _, hacl, _⟩ := PatientRecord.register_shape rt ctx s s1 p h m o resp hinv
      rw [hacl, getState_putState_other _ _ _ g (hkey p ctx.clientID hnul hne)]
    case prGrantAccess p G ps e =>
      have hne : p ≠ R := fun hpR => hgt (by rw [hpR]; rfl)
      obtain ⟨_, g, hacl, _⟩ := grant_shape rt ctx s s1 p G ps e resp (Or.inr hinv)
      rw [hacl, getState_putState_other _ _ _ g (hkey p G hnul hne)]
    case grantAccess p G ps e =>
      have hne : p ≠ R := fun hpR => hgt (by rw [hpR]; rfl)
      obtain ⟨_, g, hacl, _⟩ := grant_shape rt ctx s s1 p G ps e resp (Or.inl hinv)
      rw [hacl, getState_putState_other _ _ _ g (hkey p G hnul hne)]
    case prRevokeAccess p G =>
      have hne : p ≠ R := fun hpR => hgt (by rw [hpR]; rfl)
      obtain ⟨hacl, _⟩ := AccessControl.revoke_inv rt ctx s s1 p G resp (Or.inr hinv)
      rw [hacl, getState_deleteState_other _ _ _ (hkey p G hnul hne)]
    case revokeAccess p G =>
      have hne : p ≠ R := fun hpR => hgt (by rw [hpR]; rfl)
      obtain ⟨hacl, _⟩ := AccessControl.revoke_inv rt ctx s s1 p G resp (Or.inl hinv)
      rw [hacl, getState_deleteState_other _ _ _ (hkey p G hnul hne)]
    case updateAccessExpiry p G e =>
      have hne : p ≠ R := fun hpR => hgt (by rw [hpR]; rfl)
      obtain ⟨_, g0, g, _, hacl, _⟩ :=
        AccessControl.updateExpiry_shape rt ctx s s1 p G e resp hinv
      rw [hacl, getState_putState_other _ _ _ g (hkey p G hnul hne)]
    case updateAccessPermissions p G ps =>
      have hne : p ≠ R := fun hpR => hgt (by rw [hpR]; rfl)
      obtain ⟨_, g0, g, _, hacl, _⟩ :=
        AccessControl.updatePermissions_shape rt ctx s s1 p G ps resp hinv
      rw [hacl, getState_putState_other _ _ _ g (hkey p G hnul hne)]
    all_goals rw [hframe rfl (fun R0 hR0 => by cases hR0)]

/-- With no holder of `GRANT` on R, the caller's `GRANT` check on R is false. -/
theorem noGrantHolder_check (rt : Runtime) (s : WorldState) (R I : String)
    (hno : noGrantHolder s R) : AccessControl._checkAccess rt s R I "GRANT" = false := by
  cases hc : AccessControl._checkAccess rt s R I "GRANT" with
  | false => rfl
  | true =>
    obtain ⟨g, hg, hmem⟩ := AccessControl.checkAccess_true_stored rt s R I "GRANT" hc
    exact (hno I g hg hmem).elim

theorem commit_noGrantHolder (R : String) (s : WorldState) (tx : Tx)
    (hR : nulFree R = true) (hnul : opNulFree tx.op = true)
    (hrec : (getState s.patientRecord R).isSome = true) (hno : noGrantHolder s R) :
    noGrantHolder (commit s tx) R := by
  by_cases hgt : grantTarget tx.op = some R
  · obtain ⟨e, he⟩ := invoke_grant_denied tx.rt tx.ctx s tx.op R hgt
      (noGrantHolder_check tx.rt s R tx.ctx.clientID hno)
    rw [commit_of_error s tx e he]
    exact hno
  · by_cases hreg : ∃ h m o, tx.op = .registerPatientRecord R h m o
    · obtain ⟨h, m, o, hop⟩ := hreg
      cases hinv : invoke tx.rt tx.ctx s tx.op with
      | error e =>
        rw [commit_of_error s tx e hinv]
        exact hno
      | ok res =>
        obtain ⟨s1, resp⟩ := res
        rw [hop] at hinv
        have hnone := (PatientRecord.register_inv tx.rt tx.ctx s s1 R h m o resp hinv).1
        rw [hnone] at hrec
        cases hrec
    · intro I g hg
      rw [commit_grants_local R s tx hR hnul (fun h m o hop => hreg ⟨h, m, o, hop⟩) hgt I] at hg
      exact hno I g hg

theorem run_noGrantHolder (R : String) (txs : List Tx) (s : WorldState)
    (hR : nulFree R = true) (hnul : ∀ tx ∈ txs, opNulFree tx.op = true)
    (hrec : (getState s.patientRecord R).isSome = true) (hno : noGrantHolder s R) :
    noGrantHolder (run s txs) R := by
  induction txs generalizing s with
  | nil => exact hno
  | cons tx rest ih =>
    exact ih (commit s tx) (fun t ht => hnul t (List.mem_cons_of_mem _ ht))
      (commit_record_isSome s tx R hrec)
      (commit_noGrantHolder R s tx hR (hnul tx (List.mem_cons_self _ _)) hrec hno)

/-- A ledger none of whose stored grants contains `GRANT` has no holder of
`GRANT` on any resource. -/
theorem noGrantHolder_of_list (s : WorldState) (R : String)
    (h : ∀ ke ∈ s.accessControl, "GRANT" ∉ ke.2.permissions) : noGrantHolder s R :=
  fun _ _ hg => h _ (getState_some_mem _ _ _ hg)

/-- C27 (permanent lockout, as the code has it): for every resource R free of
U+0000 and every ledger in which a record for R is stored and no grant read
under a key of R contains `GRANT`, and for every sequence of transactions of
the three contracts whose `patientId` arguments are free of U+0000, the ledger
reached still has no grant on R that contains `GRANT`, the `GRANT` check on R
is false for every identity, and every `grantAccess`, `revokeAccess`,
`updateAccessExpiry` and `updateAccessPermissions` on R (of either contract)
fails for every caller and every argument and leaves the ledger as it was. -/
theorem C27_permanent_lockout (R : String) (s : WorldState) (txs : List Tx)
    (hR : nulFree R = true) (hnul : ∀ tx ∈ txs, opNulFree tx.op = true)
    (hrec : (getState s.patientRecord R).isSome = true) (hno : noGrantHolder s R) :
    noGrantHolder (run s txs) R ∧
    (∀ (rt : Runtime) (I : String),
      AccessControl._checkAccess rt (run s txs) R I "GRANT" = false) ∧
    (∀ tx : Tx, grantTarget tx.op = some R →
      succeeds (run s txs) tx = false ∧ commit (run s txs) tx = run s txs) := by
  have hlater := run_noGrantHolder R txs s hR hnul hrec hno
  refine ⟨hlater, fun rt I => noGrantHolder_check rt _ R I hlater, fun tx htarget => ?_⟩
  obtain ⟨e, he⟩ := invoke_grant_denied tx.rt tx.ctx (run s txs) tx.op R htarget
    (noGrantHolder_check tx.rt _ R tx.ctx.clientID hlater)
  exact ⟨by simp [succeeds, he, Outcome.state?], commit_of_error _ tx e he⟩

/-- On the ledger where `alice` reduced her own grant on `p1` to `READ`, after
the transactions of `lockoutTxs`, no grant on `p1` contains `GRANT` and the
grant functions called on `p1` fail. -/
theorem C27_permanent_lockout_witness :
    nulFree "p1" = true ∧ (∀ tx ∈ lockoutTxs, opNulFree tx.op = true) ∧
    (getState lockedOutLedger.patientRecord "p1").isSome = true ∧
    noGrantHolder lockedOutLedger "p1" ∧
    noGrantHolder (run lockedOutLedger lockoutTxs) "p1" ∧
    (∀ (rt : Runtime) (I : String),
      AccessControl._checkAccess rt (run lockedOutLedger lockoutTxs) "p1" I "GRANT" = false) ∧
    (∀ tx : Tx, grantTarget tx.op = some "p1" →
      succeeds (run lockedOutLedger lockoutTxs) tx = false ∧
      commit (run lockedOutLedger lockoutTxs) tx = run lockedOutLedger lockoutTxs) :=
  have hR : nulFree "p1" = true := by decide
  have hnul : ∀ tx ∈ lockoutTxs, opNulFree tx.op = true := by decide
  have hrec : (getState lockedOutLedger.patientRecord "p1").isSome = true := by decide
  have hno : noGrantHolder lockedOutLedger "p1" :=
    noGrantHolder_of_list lockedOutLedger "p1" (by decide)
  ⟨hR, hnul, hrec, hno, C27_permanent_lockout "p1" lockedOutLedger lockoutTxs hR hnul hrec hno⟩

/-- Counterexample to C27 as stated: on the ledger where `alice` registered
`p1` and revoked her own grant, a record for `p1` is stored and no grant is
stored at all.  Then `bob` registers `p1<U+0000>q` and grants `GRANT` on it to
`z`; the key written is also the key of (`p1`, `q<U+0000>z`), so a grant on
`p1` containing `GRANT` is read again, and `grantAccess` on `p1` submitted by
the identity `q<U+0000>z` succeeds. -/
theorem C27_key_collision_counterexample :
    (getState selfRevokedLedger.patientRecord "p1").isSome = true ∧
    selfRevokedLedger.accessControl.length = 0 ∧
    noGrantHolder selfRevokedLedger "p1" ∧
    accessControlKey "p1\x00q" "z" = accessControlKey "p1" "q\x00z" ∧
    ¬ noGrantHolder (run selfRevokedLedger collidingLockoutTxs) "p1" ∧
    AccessControl._checkAccess (fixtureRuntime 0 0)
      (run selfRevokedLedger collidingLockoutTxs) "p1" "q\x00z" "GRANT" = true ∧
    succeeds (run selfRevokedLedger collidingLockoutTxs)
      ⟨fixtureRuntime 0 0, qzCtx "tx5" 1700000400,
        .grantAccess "p1" "q\x00z" "READ,UPDATE,DELETE,GRANT" ""⟩ = true := by
  refine ⟨by decide, by decide, noGrantHolder_of_list _ _ (by decide), by decide, ?_,
    by decide, by decide⟩
  intro hno
  have hcheck := noGrantHolder_check (fixtureRuntime 0 0)
    (run selfRevokedLedger collidingLockoutTxs) "p1" "q\x00z" hno
  revert hcheck
  decide

/-- Counterexample to C27 as stated, the other way round: on the ledger where
`alice` holds her full grant on `p1` and `bob` registered `p1<U+0000>q` and
revoked his own grant, a record for `p1<U+0000>q` is stored and no grant read
under a key of it contains `GRANT`.  Then `alice` grants `GRANT` on `p1` to the
identity `q<U+0000>z`, a call whose `patientId` is free of U+0000; the key
written is also the key of (`p1<U+0000>q`, `z`), and `grantAccess` on
`p1<U+0000>q` submitted by `z` succeeds. -/
theorem lockout_broken_on_nul_resource :
    (getState nulLockedLedger.patientRecord "p1\x00q").isSome = true ∧
    noGrantHolder nulLockedLedger "p1\x00q" ∧
    opNulFree (.grantAccess "p1" "q\x00z" "GRANT" "") = true ∧
    ¬ noGrantHolder (commit nulLockedLedger ⟨fixtureRuntime 0 0, aliceCtx "tx4" 1700000300,
      .grantAccess "p1" "q\x00z" "GRANT" ""⟩) "p1\x00q" ∧
    succeeds (commit nulLockedLedger ⟨fixtureRuntime 0 0, aliceCtx "tx4" 1700000300,
      .grantAccess "p1" "q\x00z" "GRANT" ""⟩)
      ⟨fixtureRuntime 0 0, zCtx "tx5" 1700000400,
        .grantAccess "p1\x00q" "z" "READ,UPDATE,DELETE,GRANT" ""⟩ = true := by
  refine ⟨by decide, ?_, by decide, ?_, by decide⟩
  · intro I g hg
    have hmem := getState_some_mem _ _ _ hg
    have hkeys : nulLockedLedger.accessControl.map (fun ke => ke.1) =
        [accessControlKey "p1" "alice"] := by decide
    have hk : accessControlKey "p1\x00q" I ∈
        nulLockedLedger.accessControl.map (fun ke => ke.1) :=
      List.mem_map.mpr ⟨_, hmem, rfl⟩
    rw [hkeys, List.mem_singleton] at hk
    have hpre := accessControlKey_prefix "p1\x00q" I "p1" "alice" hk
    have hnot : List.isPrefixOf ("p1\x00q".toList ++ [Char.ofNat 0])
        ("p1".toList ++ Char.ofNat 0 :: ("alice".toList ++ [Char.ofNat 0])) = false := by
      decide
    rw [hnot] at hpre
    cases hpre
  · intro hno
    have hcheck := noGrantHolder_check (fixtureRuntime 0 0)
      (commit nulLockedLedger ⟨fixtureRuntime 0 0, aliceCtx "tx4" 1700000300,
        .grantAccess "p1" "q\x00z" "GRANT" ""⟩) "p1\x00q" "z" hno
    revert hcheck
    decide

/-- Both ways into the lockout named by C27 are reachable: after `alice`
reduces her own grant to `READ`, and after she revokes it, a record for `p1`
is stored, she no longer passes the `GRANT` check, and her attempt to grant
herself the full set again fails. -/
theorem lockout_reachable :
    (getState lockedOutLedger.patientRecord "p1").isSome = true ∧
    lockedOutLedger.accessControl.map (fun ke => (ke.1, ke.2.permissions)) =
      [(accessControlKey "p1" "alice", ["READ"])] ∧
    (getState selfRevokedLedger.patientRecord "p1").isSome = true ∧
    selfRevokedLedger.accessControl.map (fun ke => (ke.1, ke.2.permissions)) = [] ∧
    Outcome.error? (invoke (fixtureRuntime 0 0) (aliceCtx "tx3" 1700000200) lockedOutLedger
      (.grantAccess "p1" "alice" "READ,UPDATE,DELETE,GRANT" "")) =
      some ChaincodeError.PermissionDenied ∧
    Outcome.error? (invoke (fixtureRuntime 0 0) (aliceCtx "tx3" 1700000200) selfRevokedLedger
      (.grantAccess "p1" "alice" "READ,UPDATE,DELETE,GRANT" "")) =
      some ChaincodeError.PermissionDenied := by
  refine ⟨?_, ?_, ?_, ?_, ?_, ?_⟩ <;> decide

/-! ## Failure atomicity -/

section ScriptLemmas
variable {α β : Type}

theorem script_run_pure (a : α) (ws : List Write) :
    (Pure.pure a : Script α).run ws = (ws, .ok a) := rfl

theorem script_run_bind (x : Script α) (f : α → Script β) (ws : List Write) :
    (x >>= f).run ws =
      match x.run ws with
      | (ws1, .ok a) => (f a).run ws1
      | (ws1, .error e) => (ws1, .error e) := rfl

theorem script_run_throw (e : ChaincodeError) (ws : List Write) :
    (Script.throw e : Script α).run ws = (ws, .error e) := rfl

theorem script_run_write (w : Write) (ws : List Write) :
    (Script.write w).run ws = (ws ++ [w], .ok ()) := rfl

end ScriptLemmas

theorem trace_pr_initLedger (s : WorldState) :
    traceAgrees s ((Traced.PatientRecord.initLedger).run [])
      (Chaincode.PatientRecord.initLedger s) := by
  simp only [Traced.PatientRecord.initLedger, Chaincode.PatientRecord.initLedger, Traced.createCompositeKey, createCompositeKey,
    Traced.PatientRecord._createAuditEntry, Traced.PatientRecord._setAccessControl,
    PatientRecord._createAuditEntry, PatientRecord._setAccessControl]
  repeat' split
  all_goals try simp_all [script_run_bind, script_run_pure, script_run_throw, script_run_write,
    traceAgrees, Script.pure, Script.throw]

theorem trace_pr_registerPatientRecord (rt : Runtime) (ctx : Ctx) (s : WorldState) (p h m o : String) :
    traceAgrees s ((Traced.PatientRecord.registerPatientRecord rt ctx s p h m o).run [])
      (Chaincode.PatientRecord.registerPatientRecord rt ctx s p h m o) := by
  simp only [Traced.PatientRecord.registerPatientRecord, Chaincode.PatientRecord.registerPatientRecord, Traced.createCompositeKey, createCompositeKey,
    Traced.PatientRecord._createAuditEntry, Traced.PatientRecord._setAccessControl,
    PatientRecord._createAuditEntry, PatientRecord._setAccessControl]
  repeat' split
  all_goals try simp_all [script_run_bind, script_run_pure, script_run_throw, script_run_write,
    traceAgrees, Script.pure, Script.throw]
  all_goals rfl

theorem trace_pr_updatePatientRecord (rt : Runtime) (ctx : Ctx) (s : WorldState) (p h ph m : String) :
    traceAgrees s ((Traced.PatientRecord.updatePatientRecord rt ctx s p h ph m).run [])
      (Chaincode.PatientRecord.updatePatientRecord rt ctx s p h ph m) := by
  simp only [Traced.PatientRecord.updatePatientRecord, Chaincode.PatientRecord.updatePatientRecord, Traced.createCompositeKey, createCompositeKey,
    Traced.PatientRecord._createAuditEntry, Traced.PatientRecord._setAccessControl,
    PatientRecord._createAuditEntry, PatientRecord._setAccessControl]
  repeat' split
  all_goals try simp_all [script_run_bind, script_run_pure, script_run_throw, script_run_write,
    traceAgrees, Script.pure, Script.throw]
  all_goals rfl

theorem trace_pr_verifyPatientRecord (rt : Runtime) (ctx : Ctx) (s : WorldState) (p h : String) :
    traceAgrees s ((Traced.PatientRecord.verifyPatientRecord rt ctx s p h).run [])
      (Chaincode.PatientRecord.verifyPatientRecord rt ctx s p h) := by
  simp only [Traced.PatientRecord.verifyPatientRecord, Chaincode.PatientRecord.verifyPatientRecord, Traced.createCompositeKey, createCompositeKey,
    Traced.PatientRecord._createAuditEntry, Traced.PatientRecord._setAccessControl,
    PatientRecord._createAuditEntry, PatientRecord._setAccessControl]
  repeat' split
  all_goals try simp_all [script_run_bind, script_run_pure, script_run_throw, script_run_write,
    traceAgrees, Script.pure, Script.throw]
  all_goals rfl

theorem trace_pr_getPatientRecord (rt : Runtime) (ctx : Ctx) (s : WorldState) (p : String) :
    traceAgrees s ((Traced.PatientRecord.getPatientRecord rt ctx s p).run [])
      (Chaincode.PatientRecord.getPatientRecord rt ctx s p) := by
  simp only [Traced.PatientRecord.getPatientRecord, Chaincode.PatientRecord.getPatientRecord, Traced.createCompositeKey, createCompositeKey,
    Traced.PatientRecord._createAuditEntry, Traced.PatientRecord._setAccessControl,
    PatientRecord._createAuditEntry, PatientRecord._setAccessControl]
  repeat' split
  all_goals try simp_all [script_run_bind, script_run_pure, script_run_throw, script_run_write,
    traceAgrees, Script.pure, Script.throw]
  all_goals rfl

theorem trace_pr_deletePatientRecord (rt : Runtime) (ctx : Ctx) (s : WorldState) (p : String) :
    traceAgrees s ((Traced.PatientRecord.deletePatientRecord rt ctx s p).run [])
      (Chaincode.PatientRecord.deletePatientRecord rt ctx s p) := by
  simp only [Traced.PatientRecord.deletePatientRecord, Chaincode.PatientRecord.deletePatientRecord, Traced.createCompositeKey, createCompositeKey,
    Traced.PatientRecord._createAuditEntry, Traced.PatientRecord._setAccessControl,
    PatientRecord._createAuditEntry, PatientRecord._setAccessControl]
  repeat' split
  all_goals try simp_all [script_run_bind, script_run_pure, script_run_throw, script_run_write,
    traceAgrees, Script.pure, Script.throw]
  all_goals rfl

theorem trace_pr_getAuditTrail (rt : Runtime) (ctx : Ctx) (s : WorldState) (p : String) :
    traceAgrees s ((Traced.PatientRecord.getAuditTrail rt ctx s p).run [])
      (Chaincode.PatientRecord.getAuditTrail rt ctx s p) := by
  simp only [Traced.PatientRecord.getAuditTrail, Chaincode.PatientRecord.getAuditTrail, Traced.createCompositeKey, createCompositeKey,
    Traced.PatientRecord._createAuditEntry, Traced.PatientRecord._setAccessControl,
    PatientRecord._createAuditEntry, PatientRecord._setAccessControl]
  repeat' split
  all_goals try simp_all [script_run_bind, script_run_pure, script_run_throw, script_run_write,
    traceAgrees, Script.pure, Script.throw]
  all_goals rfl

theorem trace_pr_grantAccess (rt : Runtime) (ctx : Ctx) (s : WorldState) (p g ps e : String) :
    traceAgrees s ((Traced.PatientRecord.grantAccess rt ctx s p g ps e).run [])
      (Chaincode.PatientRecord.grantAccess rt ctx s p g ps e) := by
  simp only [Traced.PatientRecord.grantAccess, Chaincode.PatientRecord.grantAccess, Traced.createCompositeKey, createCompositeKey,
    Traced.PatientRecord._createAuditEntry, Traced.PatientRecord._setAccessControl,
    PatientRecord._createAuditEntry, PatientRecord._setAccessControl]
  repeat' split
  all_goals try simp_all [script_run_bind, script_run_pure, script_run_throw, script_run_write,
    traceAgrees, Script.pure, Script.throw]
  all_goals rfl

theorem trace_pr_revokeAccess (rt : Runtime) (ctx : Ctx) (s : WorldState) (p g : String) :
    traceAgrees s ((Traced.PatientRecord.revokeAccess rt ctx s p g).run [])
      (Chaincode.PatientRecord.revokeAccess rt ctx s p g) := by
  simp only [Traced.PatientRecord.revokeAccess, Chaincode.PatientRecord.revokeAccess, Traced.createCompositeKey, createCompositeKey,
    Traced.PatientRecord._createAuditEntry, Traced.PatientRecord._setAccessControl,
    PatientRecord._createAuditEntry, PatientRecord._setAccessControl]
  repeat' split
  all_goals try simp_all [script_run_bind, script_run_pure, script_run_throw, script_run_write,
    traceAgrees, Script.pure, Script.throw]
  all_goals rfl

theorem trace_ac_initLedger (s : WorldState) :
    traceAgrees s ((Traced.AccessControl.initLedger).run [])
      (Chaincode.AccessControl.initLedger s) := by
  simp only [Traced.AccessControl.initLedger, Chaincode.AccessControl.initLedger, Traced.createCompositeKey, createCompositeKey,
    Traced.AccessControl._createAuditEntry, Traced.AccessControl._setAccessControl,
    AccessControl._createAuditEntry, AccessControl._setAccessControl]
  repeat' split
  all_goals try simp_all [script_run_bind, script_run_pure, script_run_throw, script_run_write,
    traceAgrees, Script.pure, Script.throw]

theorem trace_ac_grantAccess (rt : Runtime) (ctx : Ctx) (s : WorldState) (p g ps e : String) :
    traceAgrees s ((Traced.AccessControl.grantAccess rt ctx s p g ps e).run [])
      (Chaincode.AccessControl.grantAccess rt ctx s p g ps e) := by
  simp only [Traced.AccessControl.grantAccess, Chaincode.AccessControl.grantAccess, Traced.createCompositeKey, createCompositeKey,
    Traced.AccessControl._createAuditEntry, Traced.AccessControl._setAccessControl,
    AccessControl._createAuditEntry, AccessControl._setAccessControl]
  repeat' split
  all_goals try simp_all [script_run_bind, script_run_pure, script_run_throw, script_run_write,
    traceAgrees, Script.pure, Script.throw]
  all_goals rfl

theorem trace_ac_revokeAccess (rt : Runtime) (ctx : Ctx) (s : WorldState) (p g : String) :
    traceAgrees s ((Traced.AccessControl.revokeAccess rt ctx s p g).run [])
      (Chaincode.AccessControl.revokeAccess rt ctx s p g) := by
  simp only [Traced.AccessControl.revokeAccess, Chaincode.AccessControl.revokeAccess, Traced.createCompositeKey, createCompositeKey,
    Traced.AccessControl._createAuditEntry, Traced.AccessControl._setAccessControl,
    AccessControl._createAuditEntry, AccessControl._setAccessControl]
  repeat' split
  all_goals try simp_all [script_run_bind, script_run_pure, script_run_throw, script_run_write,
    traceAgrees, Script.pure, Script.throw]
  all_goals rfl

theorem trace_ac_getAccessControlList (rt : Runtime) (ctx : Ctx) (s : WorldState) (p : String) :
    traceAgrees s ((Traced.AccessControl.getAccessControlList rt ctx s p).run [])
      (Chaincode.AccessControl.getAccessControlList rt ctx s p) := by
  simp only [Traced.AccessControl.getAccessControlList, Chaincode.AccessControl.getAccessControlList, Traced.createCompositeKey, createCompositeKey,
    Traced.AccessControl._createAuditEntry, Traced.AccessControl._setAccessControl,
    AccessControl._createAuditEntry, AccessControl._setAccessControl]
  repeat' split
  all_goals try simp_all [script_run_bind, script_run_pure, script_run_throw, script_run_write,
    traceAgrees, Script.pure, Script.throw]
  all_goals rfl

theorem trace_ac_checkAccess (rt : Runtime) (s : WorldState) (p i perm : String) :
    traceAgrees s ((Traced.AccessControl.checkAccess rt s p i perm).run [])
      (Chaincode.AccessControl.checkAccess rt s p i perm) := by
  simp only [Traced.AccessControl.checkAccess, Chaincode.AccessControl.checkAccess, Traced.createCompositeKey, createCompositeKey,
    Traced.AccessControl._createAuditEntry, Traced.AccessControl._setAccessControl,
    AccessControl._createAuditEntry, AccessControl._setAccessControl]
  repeat' split
  all_goals try simp_all [script_run_bind, script_run_pure, script_run_throw, script_run_write,
    traceAgrees, Script.pure, Script.throw]
  all_goals rfl

theorem trace_ac_updateAccessExpiry (rt : Runtime) (ctx : Ctx) (s : WorldState) (p g e : String) :
    traceAgrees s ((Traced.AccessControl.updateAccessExpiry rt ctx s p g e).run [])
      (Chaincode.AccessControl.updateAccessExpiry rt ctx s p g e) := by
  simp only [Traced.AccessControl.updateAccessExpiry, Chaincode.AccessControl.updateAccessExpiry, Traced.createCompositeKey, createCompositeKey,
    Traced.AccessControl._createAuditEntry, Traced.AccessControl._setAccessControl,
    AccessControl._createAuditEntry, AccessControl._setAccessControl]
  repeat' split
  all_goals try simp_all [script_run_bind, script_run_pure, script_run_throw, script_run_write,
    traceAgrees, Script.pure, Script.throw]
  all_goals rfl

theorem trace_ac_updateAccessPermissions (rt : Runtime) (ctx : Ctx) (s : WorldState) (p g ps : String) :
    traceAgrees s ((Traced.AccessControl.updateAccessPermissions rt ctx s p g ps).run [])
      (Chaincode.AccessControl.updateAccessPermissions rt ctx s p g ps) := by
  simp only [Traced.AccessControl.updateAccessPermissions, Chaincode.AccessControl.updateAccessPermissions, Traced.createCompositeKey, createCompositeKey,
    Traced.AccessControl._createAuditEntry, Traced.AccessControl._setAccessControl,
    AccessControl._createAuditEntry, AccessControl._setAccessControl]
  repeat' split
  all_goals try simp_all [script_run_bind, script_run_pure, script_run_throw, script_run_write,
    traceAgrees, Script.pure, Script.throw]
  all_goals rfl

theorem trace_at_initLedger (s : WorldState) :
    traceAgrees s ((Traced.AuditTrail.initLedger).run [])
      (Chaincode.AuditTrail.initLedger s) := by
  simp only [Traced.AuditTrail.initLedger, Chaincode.AuditTrail.initLedger, Traced.createCompositeKey, createCompositeKey,
    Traced.AuditTrail.readGate, AuditTrail.readGate]
  repeat' split
  all_goals try simp_all [script_run_bind, script_run_pure, script_run_throw, script_run_write,
    traceAgrees, Script.pure, Script.throw]

theorem trace_at_createAuditEntry (rt : Runtime) (ctx : Ctx) (s : WorldState) (p a h ph m : String) :
    traceAgrees s ((Traced.AuditTrail.createAuditEntry rt ctx p a h ph m).run [])
      (Chaincode.AuditTrail.createAuditEntry rt ctx s p a h ph m) := by
  simp only [Traced.AuditTrail.createAuditEntry, Chaincode.AuditTrail.createAuditEntry, Traced.createCompositeKey, createCompositeKey,
    Traced.AuditTrail.readGate, AuditTrail.readGate]
  repeat' split
  all_goals try simp_all [script_run_bind, script_run_pure, script_run_throw, script_run_write,
    traceAgrees, Script.pure, Script.throw]
  all_goals rfl

theorem trace_at_readGate (ctx : Ctx) (s : WorldState) (p : String)
    (ws : List Write) :
    (Traced.AuditTrail.readGate ctx s p).run ws =
      match Chaincode.AuditTrail.readGate ctx s p with
      | .ok _ => (ws, .ok ())
      | .error e => (ws, .error e) := by
  simp only [Traced.AuditTrail.readGate, Chaincode.AuditTrail.readGate]
  cases getState s.accessControl (accessControlKey p ctx.clientID) with
  | none => rfl
  | some g =>
    by_cases hr : "READ" ∈ g.permissions <;>
      simp [hr, script_run_pure, script_run_throw]

theorem trace_at_getAuditTrail (ctx : Ctx) (s : WorldState) (p : String) :
    traceAgrees s ((Traced.AuditTrail.getAuditTrail ctx s p).run [])
      (Chaincode.AuditTrail.getAuditTrail ctx s p) := by
  simp only [Traced.AuditTrail.getAuditTrail, Chaincode.AuditTrail.getAuditTrail, Traced.createCompositeKey, createCompositeKey]
  repeat' split
  all_goals try simp_all [script_run_bind, script_run_pure, script_run_throw, script_run_write,
    traceAgrees, Script.pure, Script.throw, trace_at_readGate]
  all_goals rfl

theorem trace_at_getAuditTrailByDateRange (rt : Runtime) (ctx : Ctx) (s : WorldState) (p a b : String) :
    traceAgrees s ((Traced.AuditTrail.getAuditTrailByDateRange rt ctx s p a b).run [])
      (Chaincode.AuditTrail.getAuditTrailByDateRange rt ctx s p a b) := by
  simp only [Traced.AuditTrail.getAuditTrailByDateRange, Chaincode.AuditTrail.getAuditTrailByDateRange, Traced.createCompositeKey, createCompositeKey]
  repeat' split
  all_goals try simp_all [script_run_bind, script_run_pure, script_run_throw, script_run_write,
    traceAgrees, Script.pure, Script.throw, trace_at_readGate]
  all_goals rfl

theorem trace_at_getAuditTrailByAction (ctx : Ctx) (s : WorldState) (p a : String) :
    traceAgrees s ((Traced.AuditTrail.getAuditTrailByAction ctx s p a).run [])
      (Chaincode.AuditTrail.getAuditTrailByAction ctx s p a) := by
  simp only [Traced.AuditTrail.getAuditTrailByAction, Chaincode.AuditTrail.getAuditTrailByAction, Traced.createCompositeKey, createCompositeKey]
  repeat' split
  all_goals try simp_all [script_run_bind, script_run_pure, script_run_throw, script_run_write,
    traceAgrees, Script.pure, Script.throw, trace_at_readGate]
  all_goals rfl

theorem trace_at_getAuditTrailBySubmitter (ctx : Ctx) (s : WorldState) (p i : String) :
    traceAgrees s ((Traced.AuditTrail.getAuditTrailBySubmitter ctx s p i).run [])
      (Chaincode.AuditTrail.getAuditTrailBySubmitter ctx s p i) := by
  simp only [Traced.AuditTrail.getAuditTrailBySubmitter, Chaincode.AuditTrail.getAuditTrailBySubmitter, Traced.createCompositeKey, createCompositeKey]
  repeat' split
  all_goals try simp_all [script_run_bind, script_run_pure, script_run_throw, script_run_write,
    traceAgrees, Script.pure, Script.throw, trace_at_readGate]
  all_goals rfl

theorem trace_at_getAuditEntryByTxId (ctx : Ctx) (s : WorldState) (p t : String) :
    traceAgrees s ((Traced.AuditTrail.getAuditEntryByTxId ctx s p t).run [])
      (Chaincode.AuditTrail.getAuditEntryByTxId ctx s p t) := by
  simp only [Traced.AuditTrail.getAuditEntryByTxId, Chaincode.AuditTrail.getAuditEntryByTxId, Traced.createCompositeKey, createCompositeKey]
  repeat' split
  all_goals try simp_all [script_run_bind, script_run_pure, script_run_throw, script_run_write,
    traceAgrees, Script.pure, Script.throw, trace_at_readGate]
  all_goals rfl

/-- The run of every transaction function from the empty log agrees with the
state-passing embedding of the same function. -/
theorem invoke_trace (rt : Runtime) (ctx : Ctx) (s : WorldState) (op : Op) :
    traceAgrees s ((Traced.invoke rt ctx s op).run []) (invoke rt ctx s op) := by
  cases op
  case prInitLedger => exact trace_pr_initLedger s
  case registerPatientRecord p h m o => exact trace_pr_registerPatientRecord rt ctx s p h m o
  case updatePatientRecord p h ph m => exact trace_pr_updatePatientRecord rt ctx s p h ph m
  case verifyPatientRecord p h => exact trace_pr_verifyPatientRecord rt ctx s p h
  case getPatientRecord p => exact trace_pr_getPatientRecord rt ctx s p
  case deletePatientRecord p => exact trace_pr_deletePatientRecord rt ctx s p
  case prGetAuditTrail p => exact trace_pr_getAuditTrail rt ctx s p
  case prGrantAccess p g ps e => exact trace_pr_grantAccess rt ctx s p g ps e
  case prRevokeAccess p g => exact trace_pr_revokeAccess rt ctx s p g
  case acInitLedger => exact trace_ac_initLedger s
  case grantAccess p g ps e => exact trace_ac_grantAccess rt ctx s p g ps e
  case revokeAccess p g => exact trace_ac_revokeAccess rt ctx s p g
  case getAccessControlList p => exact trace_ac_getAccessControlList rt ctx s p
  case checkAccess p i perm => exact trace_ac_checkAccess rt s p i perm
  case updateAccessExpiry p g e => exact trace_ac_updateAccessExpiry rt ctx s p g e
  case updateAccessPermissions p g ps =>
    exact trace_ac_updateAccessPermissions rt ctx s p g ps
  case atInitLedger => exact trace_at_initLedger s
  case createAuditEntry p a h ph m => exact trace_at_createAuditEntry rt ctx s p a h ph m
  case getAuditTrail p => exact trace_at_getAuditTrail ctx s p
  case getAuditTrailByDateRange p a b => exact trace_at_getAuditTrailByDateRange rt ctx s p a b
  case getAuditTrailByAction p a => exact trace_at_getAuditTrailByAction ctx s p a
  case getAuditTrailBySubmitter p i => exact trace_at_getAuditTrailBySubmitter ctx s p i
  case getAuditEntryByTxId p t => exact trace_at_getAuditEntryByTxId ctx s p t

theorem traceAgrees_error (s : WorldState) (ws : List Write)
    (res : Except ChaincodeError Response) (o : Outcome) (e : ChaincodeError)
    (h : traceAgrees s (ws, res) o) (hres : res = .error e) : ws = [] ∧ o = .error e := by
  subst hres
  cases o with
  | error e1 =>
    obtain ⟨h1, h2⟩ := h
    exact ⟨h1, by rw [h2]⟩
  | ok v => exact h.elim

theorem traceAgrees_ok (s : WorldState) (ws : List Write) (r : Response) (o : Outcome)
    (h : traceAgrees s (ws, .ok r) o) : o = .ok (applyWrites s ws, r) := by
  cases o with
  | error e1 => exact h.elim
  | ok v =>
    obtain ⟨s1, r1⟩ := v
    obtain ⟨h1, h2⟩ := h
    rw [h1, h2]

/-- A successful transaction's new state is its logged stub calls applied, in
order, to the state it started from. -/
theorem invoke_ok_trace (rt : Runtime) (ctx : Ctx) (s s1 : WorldState) (op : Op)
    (resp : Response) (hok : invoke rt ctx s op = .ok (s1, resp)) :
    ∃ ws, (Traced.invoke rt ctx s op).run [] = (ws, .ok resp) ∧ applyWrites s ws = s1 := by
  have h := invoke_trace rt ctx s op
  rcases hrun : (Traced.invoke rt ctx s op).run [] with ⟨ws, res⟩
  rw [hrun] at h
  cases res with
  | error e =>
    obtain ⟨_, h2⟩ := traceAgrees_error s ws _ _ e h rfl
    rw [h2] at hok
    cases hok
  | ok r =>
    have h2 := traceAgrees_ok s ws r _ h
    rw [h2] at hok
    cases hok
    exact ⟨ws, rfl, rfl⟩

/-- A transaction that fails in the state-passing embedding throws the same
error with an empty log. -/
theorem invoke_error_trace (rt : Runtime) (ctx : Ctx) (s : WorldState) (op : Op)
    (e : ChaincodeError) (hfail : invoke rt ctx s op = .error e) :
    (Traced.invoke rt ctx s op).run [] = ([], .error e) := by
  have h := invoke_trace rt ctx s op
  rcases hrun : (Traced.invoke rt ctx s op).run [] with ⟨ws, res⟩
  rw [hrun] at h
  cases res with
  | error e1 =>
    obtain ⟨h1, h2⟩ := traceAgrees_error s ws _ _ e1 h rfl
    rw [h2] at hfail
    cases hfail
    rw [h1]
  | ok r =>
    have h2 := traceAgrees_ok s ws r _ h
    rw [h2] at hfail
    cases hfail

/-- The log does record a stub call issued before a `throw`: a run that calls
`putState` and then throws ends with that call in its log. -/
theorem write_then_throw_logged (w : Write) (e : ChaincodeError) :
    ((Script.write w >>= fun _ => (Script.throw e : Script Response)).run []).1.length = 1 :=
  rfl

/-- The logs of successful calls, in order: registration puts the record, the
audit entry and the grant; revocation deletes the grant and puts the access
audit entry. -/
theorem success_logs :
    ((Traced.invoke (fixtureRuntime 0 0) (aliceCtx "tx1" 1700000000) WorldState.empty
      (.registerPatientRecord "p1" "h1" "{}" "OrgA")).run []).1.map
        (fun w => match w with
          | .putPatientRecord p _ => ("putState patientRecord", [p])
          | .putAccessControl p i _ => ("putState accessControl", [p, i])
          | .deleteAccessControl p i => ("deleteState accessControl", [p, i])
          | .putAuditTrail p t _ => ("putState auditTrail", [p, t])
          | .putAccessAudit p t _ => ("putState accessAudit", [p, t])) =
      [("putState patientRecord", ["p1"]), ("putState auditTrail", ["p1", "tx1"]),
       ("putState accessControl", ["p1", "alice"])] ∧
    ((Traced.invoke (fixtureRuntime 0 0) (aliceCtx "tx2" 1700000100) registeredLedger
      (.revokeAccess "p1" "alice")).run []).1.map
        (fun w => match w with
          | .putPatientRecord p _ => ("putState patientRecord", [p])
          | .putAccessControl p i _ => ("putState accessControl", [p, i])
          | .deleteAccessControl p i => ("deleteState accessControl", [p, i])
          | .putAuditTrail p t _ => ("putState auditTrail", [p, t])
          | .putAccessAudit p t _ => ("putState accessAudit", [p, t])) =
      [("deleteState accessControl", ["p1", "alice"]),
       ("putState accessAudit", ["p1", "tx2"])] := by
  constructor <;> decide

/-- C24 (failure atomicity): for every transaction function of the
PatientRecord, AccessControl and AuditTrail contracts and every input, runtime
and ledger, if the execution of the function's statements ends in a thrown
error (whichever it is), then no `putState` or `deleteState` was called before
the `throw`, the state-passing embedding reports the same error, and the
ledger after the transaction equals the ledger before it. -/
theorem C24_failure_atomicity (rt : Runtime) (ctx : Ctx) (s : WorldState) (op : Op)
    (e : ChaincodeError)
    (hfail : ((Traced.invoke rt ctx s op).run []).2 = .error e) :
    ((Traced.invoke rt ctx s op).run []).1 = [] ∧
    invoke rt ctx s op = .error e ∧
    commit s ⟨rt, ctx, op⟩ = s := by
  have h := invoke_trace rt ctx s op
  obtain ⟨h1, h2⟩ := traceAgrees_error s _ _ _ e h hfail
  exact ⟨h1, h2, commit_of_error s ⟨rt, ctx, op⟩ e h2⟩

/-- On the ledger holding `p1`, the update by `bob`, who holds no grant, throws
`PermissionDenied` with an empty log and leaves the ledger as it was. -/
theorem C24_failure_atomicity_witness :
    ((Traced.invoke (fixtureRuntime 0 0) (bobCtx "tx2" 1700000100) registeredLedger
      (.updatePatientRecord "p1" "h2" "h1" "{}")).run []).2 =
      .error ChaincodeError.PermissionDenied ∧
    ((Traced.invoke (fixtureRuntime 0 0) (bobCtx "tx2" 1700000100) registeredLedger
      (.updatePatientRecord "p1" "h2" "h1" "{}")).run []).1 = [] ∧
    invoke (fixtureRuntime 0 0) (bobCtx "tx2" 1700000100) registeredLedger
      (.updatePatientRecord "p1" "h2" "h1" "{}") = .error ChaincodeError.PermissionDenied ∧
    commit registeredLedger ⟨fixtureRuntime 0 0, bobCtx "tx2" 1700000100,
      .updatePatientRecord "p1" "h2" "h1" "{}"⟩ = registeredLedger :=
  ⟨rfl, C24_failure_atomicity (fixtureRuntime 0 0) (bobCtx "tx2" 1700000100) registeredLedger
    (.updatePatientRecord "p1" "h2" "h1" "{}") ChaincodeError.PermissionDenied rfl⟩

end Chaincode
